import Mathlib

/-!
# Aged: settings file and colour handling of `PResourceManager`

A shallow embedding of the settings-file code, the command-line options and the colour
routines of `src/PResourceManager.cxx`.

Conventions of the embedding.

* A C string is the list of the characters that precede its terminating NUL, so a
  `List Char` standing for a string or for the contents of a text file holds no NUL.
* `strcpy`, `strcat` and `sprintf` are list operations: destination buffers are taken to be
  large enough.
* A value of type `float` or `double` is a `CFloat`: a rational number, an infinity or a
  NaN.  `atof` gives the `double` nearest to the numeral read and ReadResourceVersion
  returns the `float` nearest to that.  On `CFloat` the numerals, `-` and `/` are those of
  `double` arithmetic, so `35 / 10` is the `double` 3.5 and `1 / 1000000` the `double`
  nearest to 0.000001, and `<`, `≤` are the comparisons of C.
* A file is read with `fgets` into a buffer of 256 bytes, as in the source: a line of more
  than 255 characters reaches the program in pieces (`fileLines`).  The lines proper of a
  text are `textLines`.
* The file system is a map from path names to contents.  The operations whose outcome
  the program cannot foresee (`rename`, `fopen`, `fputs`) take their outcome from the
  environment `Env`; for WriteSettings the environment is `SaveEnv`, in which every write
  to the temporary file has its own outcome.  The result of `fprintf` is lost where the
  source does not test it.
* The colour routines work on `ColourState`; the answers of the X server come from
  `XServer` and the calls made are recorded in order.  Arrays are lists, an access outside
  an array reads the default value or is dropped.  A `float` is the rational that it stands
  for, and each operation on floats gives the nearest number with 24 significant bits
  (`roundSingle`); a division by zero ends the routine as undefined.  `quit` ends the program.  The constants of the
  headers, which are not part of the sources, are parameters (`ColourConsts`).
-/

namespace Aged

/-! ## C library -/

/-- The `isspace` of the C locale. -/
def isspace (c : Char) : Bool :=
  c == ' ' || c == '\t' || c == '\n' || c == '\x0b' || c == '\x0c' || c == '\r'

/-- The `isdigit` of C. -/
def isdigit (c : Char) : Bool := decide ('0' ≤ c) && decide (c ≤ '9')

/-- Value of a decimal digit character. -/
def digitVal (c : Char) : Nat := c.toNat - 48

/-- Value of a string of decimal digits, read left to right. -/
def digitsVal (ds : List Char) : Nat := ds.foldl (fun acc c => acc * 10 + digitVal c) 0

/-- An optional sign in front of a numeral: whether it is `-`, and what follows it. -/
def takeSign : List Char → Bool × List Char
  | '-' :: t => (true, t)
  | '+' :: t => (false, t)
  | s => (false, s)

/-- The exponent part `e[+-]ddd` of a numeral; 0 when there is none. -/
def exponent : List Char → Int
  | c :: t =>
    if c == 'e' || c == 'E' then
      let st := takeSign t
      let ds := st.2.takeWhile isdigit
      if ds.isEmpty then 0
      else if st.1 then -(digitsVal ds : Int) else (digitsVal ds : Int)
    else 0
  | [] => 0

/-- The number `m * 10 ^ e`. -/
def scale10 (m : Nat) (e : Int) : ℚ :=
  if 0 ≤ e then ((m * 10 ^ e.toNat : Nat) : ℚ) else (m : ℚ) / ((10 ^ (-e).toNat : Nat) : ℚ)

/-- Rounding of a non-negative rational to the nearest integer, ties to even. -/
def roundHalfEven (x : ℚ) : Nat :=
  let f := x.floor.toNat
  if x - x.floor < 1 / 2 then f
  else if 1 / 2 < x - x.floor then f + 1
  else if f % 2 = 0 then f else f + 1

/-- The binary logarithm of `n`, rounded down, for `n` up to `fuel`. -/
def ilog2Fuel : Nat → Nat → Nat
  | 0, _ => 0
  | fuel + 1, n => if 2 ≤ n then ilog2Fuel fuel (n / 2) + 1 else 0

/-- The binary logarithm of `n`, rounded down; 0 for `n = 0`. -/
def ilog2 (n : Nat) : Nat := ilog2Fuel n n

/-- The binary exponent of a rational other than 0: the `e` with `2^e ≤ |x| < 2^(e+1)`. -/
def binExp (x : ℚ) : Int :=
  if (2 : ℚ) ^ ((ilog2 x.num.natAbs : Int) - (ilog2 x.den : Int)) ≤ |x| then
    (ilog2 x.num.natAbs : Int) - (ilog2 x.den : Int)
  else (ilog2 x.num.natAbs : Int) - (ilog2 x.den : Int) - 1

/-- A value of type `float` or `double`: a number, an infinity or a NaN.  The two zeros
are not told apart. -/
inductive CFloat where
  | finite (v : ℚ)
  | infinity (negative : Bool)
  | nan
  deriving DecidableEq

/-- The value nearest to `x` in the binary format with `p` significant bits and the
exponents from `emin` to `emax`, ties to even: numbers below `2^emin` are rounded to the
subnormal numbers, and the result is an infinity when the rounded number is `2^(emax+1)`
or more. -/
def CFloat.round (p : Nat) (emin emax : Int) (x : ℚ) : CFloat :=
  if x = 0 then .finite 0
  else
    let ulp : ℚ := (2 : ℚ) ^ (max (binExp x) emin - ((p : Int) - 1))
    let r : ℚ := (roundHalfEven (|x| / ulp) : ℚ) * ulp
    if (2 : ℚ) ^ (emax + 1) ≤ r then .infinity (decide (x < 0))
    else .finite (if x < 0 then -r else r)

/-- The `double` nearest to `x`. -/
def CFloat.double (x : ℚ) : CFloat := CFloat.round 53 (-1022) 1023 x

/-- The `float` nearest to `x`. -/
def CFloat.single (x : ℚ) : CFloat := CFloat.round 24 (-126) 127 x

/-- The conversion `(float)` of a `double`. -/
def CFloat.toFloat : CFloat → CFloat
  | .finite v => CFloat.single v
  | .infinity negative => .infinity negative
  | .nan => .nan

/-- The difference of two values in `double` arithmetic. -/
def CFloat.sub : CFloat → CFloat → CFloat
  | .finite a, .finite b => CFloat.double (a - b)
  | .finite _, .infinity negative => .infinity (!negative)
  | .infinity negative, .finite _ => .infinity negative
  | .infinity a, .infinity b => if a = b then .nan else .infinity a
  | .nan, _ => .nan
  | _, .nan => .nan

/-- The quotient of two values in `double` arithmetic; a zero divisor is taken as
positive. -/
def CFloat.div : CFloat → CFloat → CFloat
  | .finite a, .finite b =>
    if b = 0 then (if a = 0 then .nan else .infinity (decide (a < 0)))
    else CFloat.double (a / b)
  | .finite _, .infinity _ => .finite 0
  | .infinity negative, .finite b => .infinity (negative != decide (b < 0))
  | .infinity _, .infinity _ => .nan
  | .nan, _ => .nan
  | _, .nan => .nan

/-- The `fabs` of C. -/
def CFloat.fabs : CFloat → CFloat
  | .finite v => .finite |v|
  | .infinity _ => .infinity false
  | .nan => .nan

/-- The comparison `a < b` of C: false when one of the two is a NaN. -/
def CFloat.lt : CFloat → CFloat → Bool
  | .finite a, .finite b => decide (a < b)
  | .finite _, .infinity negative => !negative
  | .infinity negative, .finite _ => negative
  | .infinity a, .infinity b => a && !b
  | .nan, _ => false
  | _, .nan => false

/-- The comparison `a <= b` of C: false when one of the two is a NaN. -/
def CFloat.le : CFloat → CFloat → Bool
  | .finite a, .finite b => decide (a ≤ b)
  | .finite _, .infinity negative => !negative
  | .infinity negative, .finite _ => negative
  | .infinity a, .infinity b => a || !b
  | .nan, _ => false
  | _, .nan => false

/-- A whole number written in the program text is the `double` nearest to it. -/
instance (n : Nat) : OfNat CFloat n := ⟨CFloat.double n⟩

instance : Sub CFloat := ⟨CFloat.sub⟩

instance : Div CFloat := ⟨CFloat.div⟩

instance : LT CFloat := ⟨fun a b => CFloat.lt a b = true⟩

instance : LE CFloat := ⟨fun a b => CFloat.le a b = true⟩

instance (a b : CFloat) : Decidable (a < b) :=
  inferInstanceAs (Decidable (CFloat.lt a b = true))

instance (a b : CFloat) : Decidable (a ≤ b) :=
  inferInstanceAs (Decidable (CFloat.le a b = true))

/-- The `isxdigit` of C. -/
def isxdigit (c : Char) : Bool :=
  isdigit c || (decide ('a' ≤ c) && decide (c ≤ 'f')) || (decide ('A' ≤ c) && decide (c ≤ 'F'))

/-- Value of a hexadecimal digit character. -/
def hexDigitVal (c : Char) : Nat :=
  if isdigit c then c.toNat - 48
  else if 'a' ≤ c then c.toNat - 87
  else c.toNat - 55

/-- Value of a string of hexadecimal digits, read left to right. -/
def hexVal (ds : List Char) : Nat := ds.foldl (fun acc c => acc * 16 + hexDigitVal c) 0

/-- The exponent part `p[+-]ddd` of a hexadecimal numeral; 0 when there is none. -/
def binaryExponent : List Char → Int
  | c :: t =>
    if c == 'p' || c == 'P' then
      let st := takeSign t
      let ds := st.2.takeWhile isdigit
      if ds.isEmpty then 0
      else if st.1 then -(digitsVal ds : Int) else (digitsVal ds : Int)
    else 0
  | [] => 0

/-- Whether `s` starts with the word `word`, which is given in lower case, in letters of
either case. -/
def startsNoCase : List Char → List Char → Bool
  | [], _ => true
  | _ :: _, [] => false
  | w :: ws, c :: cs => (c == w || c == w.toUpper) && startsNoCase ws cs

/-- The value of the hexadecimal numeral that starts `s`: `0x` or `0X`, hexadecimal
digits with an optional fraction, an optional binary exponent; none when no such numeral
starts `s`. -/
def hexNumeral : List Char → Option ℚ
  | '0' :: x :: t =>
    if x == 'x' || x == 'X' then
      let ip := t.takeWhile isxdigit
      let s3 := t.dropWhile isxdigit
      let fp := match s3 with
        | '.' :: u => u.takeWhile isxdigit
        | _ => []
      let s4 := match s3 with
        | '.' :: u => u.dropWhile isxdigit
        | _ => s3
      if ip.isEmpty && fp.isEmpty then none
      else some ((hexVal (ip ++ fp) : ℚ) * (2 : ℚ) ^ (binaryExponent s4 - 4 * (fp.length : Int)))
    else none
  | _ => none

/-- The value of the decimal numeral that starts `s`: digits with an optional fraction,
an optional exponent; 0 when no numeral starts `s`. -/
def decimalNumeral (s : List Char) : ℚ :=
  let ip := s.takeWhile isdigit
  let s3 := s.dropWhile isdigit
  let fp := match s3 with
    | '.' :: t => t.takeWhile isdigit
    | _ => []
  let s4 := match s3 with
    | '.' :: t => t.dropWhile isdigit
    | _ => s3
  if ip.isEmpty && fp.isEmpty then 0
  else scale10 (digitsVal (ip ++ fp)) (exponent s4 - fp.length)

/-- The `atof` of C, which is `strtod`: white space, an optional sign, then `inf` or
`infinity`, or `nan`, in letters of either case, or a hexadecimal numeral, or a decimal
numeral; the result is the `double` nearest to the value of the numeral, and 0 when none
of these starts the string. -/
def atof (s : List Char) : CFloat :=
  let st := takeSign (s.dropWhile isspace)
  if startsNoCase "inf".toList st.2 then .infinity st.1
  else if startsNoCase "nan".toList st.2 then .nan
  else
    match hexNumeral st.2 with
    | some v => CFloat.double (if st.1 then -v else v)
    | none => CFloat.double (if st.1 then -decimalNumeral st.2 else decimalNumeral st.2)

/-- The `atoi` of C: white space, an optional sign, digits.  The value is reduced to the
range of a 32-bit `int`. -/
def atoi (s : List Char) : Int :=
  let st := takeSign (s.dropWhile isspace)
  let n : Int := digitsVal (st.2.takeWhile isdigit)
  let v := if st.1 then -n else n
  (v + 2 ^ 31) % 2 ^ 32 - 2 ^ 31

/-- Offset of the first occurrence of `needle` in `hay`: the `strstr` of C, as an offset
from the start of `hay`. -/
def strstr : List Char → List Char → Option Nat
  | [], needle => if needle.isEmpty then some 0 else none
  | c :: cs, needle =>
    if needle.isPrefixOf (c :: cs) then some 0 else (strstr cs needle).map (· + 1)

/-- Offset of the first occurrence of the character `c`: the `strchr` of C. -/
def strchr : List Char → Char → Option Nat
  | [], _ => none
  | d :: ds, c => if d == c then some 0 else (strchr ds c).map (· + 1)

/-- First token of `s` for the delimiter set `delims`: the first call of `strtok`. -/
def strtok (s delims : List Char) : Option (List Char) :=
  let s1 := s.dropWhile (fun c => delims.contains c)
  if s1.isEmpty then none else some (s1.takeWhile (fun c => !delims.contains c))

/-- Memory image of a string constant: its characters and the terminating NUL. -/
def cimage (s : List Char) : List Char := s ++ ['\x00']

/-- Whether `memcmp(a, b, n)` is zero, for memory images `a` and `b`. -/
def memcmp0 (a b : List Char) (n : Nat) : Bool := a.take n == b.take n

/-- One `fgets(buff, size, file)` on the unread part of a file: the characters stored in
`buff`, at most `size - 1` of them and none after a newline. -/
def readLine : Nat → List Char → List Char
  | 0, _ => []
  | _, [] => []
  | k + 1, c :: cs => if c == '\n' then [c] else c :: readLine k cs

/-- The call `fgets(buff, size, file)`: `none` at the end of the file, else the string
read and the part of the file still unread. -/
def fgets (size : Nat) (s : List Char) : Option (List Char × List Char) :=
  if s.isEmpty then none
  else some (readLine (size - 1) s, s.drop (readLine (size - 1) s).length)

/-! ## Resource version -/

/-- Minimum version number for a valid resource file: the `double` 3.5. -/
def MINIMUM_RESOURCE_VERSION : CFloat := 35 / 10

/-- The marker line above the automatically written settings. -/
def kAutoStr : List Char :=
  "!! ====== Lines below are automatically overwritten by Aged! =====\n".toList

/-- The label of the version line. -/
def resource_label : List Char := "resource_version:".toList

/-- Resource version read from a line of the resource file; 0 if the line does not
specify a version number.  The `double` that `atof` gives is returned as a `float`.
(`strtok` also ends `buff` after the token; no caller reads `buff` again before it is
overwritten.) -/
def ReadResourceVersion (buff : List Char) : CFloat :=
  match strstr buff resource_label with
  | some off =>
    match strtok (buff.drop (off + resource_label.length)) [' ', '\t', '\n', '\r'] with
    | some tok => (atof tok).toFloat
    | none => 0
  | none => 0

/-! ## Settings file name -/

/-- The settings file name the program starts with. -/
def defaultSettingsFilename : List Char := "~/.Aged".toList

/-- SetSettingsFilename: the stored settings file name after the call.  `kMax` is the
constant `kMaxSettingsFilenameLen` of `PResourceManager.h`, cast to `unsigned`. -/
def SetSettingsFilename (kMax : Nat) (sSettingsFilename name : List Char) : List Char :=
  if name.length < kMax % 2 ^ 32 then name else sSettingsFilename

/-- GetSettingsFilename: the result and the contents of `outName` after the call.
`home` is `getenv("HOME")`. -/
def GetSettingsFilename (sSettingsFilename : List Char) (home : Option (List Char))
    (outName : List Char) : Int × List Char :=
  if memcmp0 (cimage sSettingsFilename) (cimage ['~', '/']) 2 then
    match home with
    | none => (0, outName)
    | some h => (1, h ++ sSettingsFilename.drop 1)
  else (1, sSettingsFilename)

/-! ## File system -/

/-- A file system: the contents of the file at each path, `none` where no file can be
opened for reading. -/
abbrev FS := List Char → Option (List Char)

/-- The file system with the entry of `path` replaced. -/
def FS.set (fs : FS) (path : List Char) (v : Option (List Char)) : FS :=
  fun p => if p = path then v else fs p

/-- The file system after a successful `rename(old, new)`. -/
def FS.rename (fs : FS) (old new : List Char) : FS :=
  (fs.set new (fs old)).set old none

/-- The library calls of VerifySettingsFile that touch files. -/
inductive Op where
  | fopenRead (path : List Char)
  | fopenWrite (path : List Char)
  | openFile (name : List Char)
  | rename (old new : List Char)
  | fputs (data : List Char)
  | fprintf (data : List Char)
  | unlink (path : List Char)
  deriving DecidableEq

/-- What VerifySettingsFile cannot foresee. -/
structure Env where
  /-- The stored settings file name. -/
  sSettingsFilename : List Char
  /-- The value of `getenv("HOME")`. -/
  home : Option (List Char)
  /-- The file system at the call. -/
  fs : FS
  /-- Contents of the file that `openFile("Aged.resource","r",NULL)` opens, `none` when it
  opens none. -/
  source : Option (List Char)
  /-- Whether `rename` succeeds. -/
  renameOk : Bool
  /-- Whether the renamed old settings file can be opened again. -/
  reopenOk : Bool
  /-- Whether the settings file can be opened for writing. -/
  createOk : Bool
  /-- Whether the n-th `fputs` to the settings file succeeds (n counts from 0). -/
  fputsOk : Nat → Bool
  /-- The byte that follows the string constant `"aged."` and its NUL in memory. -/
  pad : Char

/-- Result of VerifySettingsFile: the value returned, the file system left behind and the
library calls made, in order. -/
structure Outcome where
  ret : Int
  fs : FS
  trace : List Op

/-- Size of the line buffers of VerifySettingsFile. -/
def kBuffSize : Nat := 256

/-- The strings that successive calls `fgets(buff,kBuffSize,file)` read from a file until
the end of the file; `fuel` bounds the number of calls. -/
def readLines : Nat → List Char → List (List Char)
  | 0, _ => []
  | fuel + 1, s =>
    match fgets kBuffSize s with
    | none => []
    | some (buff, rest) => buff :: readLines fuel rest

/-- All the strings read from a file by `while (fgets(buff,kBuffSize,file))`. -/
def fileLines (s : List Char) : List (List Char) := readLines s.length s

/-- The loop that checks the resource version number of the settings file: the version
of the first string read that gives a non-zero version, 0 when there is none. -/
def scanVersion : List (List Char) → CFloat
  | [] => 0
  | buff :: rest =>
    if ReadResourceVersion buff ≠ 0 then ReadResourceVersion buff else scanVersion rest

/-- The loop that looks for the auto string in the old file: `none` when it is not found,
else the strings still to be read from the old file. -/
def findAutoStr : List (List Char) → Option (List (List Char))
  | [] => none
  | buff :: rest => if buff = kAutoStr then some rest else findAutoStr rest

/-- The settings file being written. -/
structure Writer where
  /-- What has been written. -/
  data : List Char
  /-- Number of `fputs` calls so far. -/
  calls : Nat
  write_err : Bool
  /-- The `fputs` calls so far, last first. -/
  log : List Op

/-- A call `if (fputs(s, dest_file) == EOF) write_err = 1`. -/
def Writer.fputs (ok : Nat → Bool) (s : List Char) (w : Writer) : Writer :=
  if ok w.calls then ⟨w.data ++ s, w.calls + 1, w.write_err, Op.fputs s :: w.log⟩
  else ⟨w.data, w.calls + 1, true, Op.fputs s :: w.log⟩

/-- The loop that copies across all aged resources; it stops at the first `fputs` that
fails. -/
def copySource (ok : Nat → Bool) : List (List Char) → Writer → Writer
  | [], w => w
  | buff :: rest, w =>
    if ok w.calls then copySource ok rest (w.fputs ok buff) else w.fputs ok buff

/-- Length of the prefix that the translation from version 3.2 takes off. -/
def kPrefixLen : Nat := 7

/-- The string that the translation from version 3.2 writes for a string read from the
old file. -/
def translateGeometry (pad : Char) (buff : List Char) : List Char :=
  match strstr buff "geometry:".toList with
  | some off =>
    if decide (off > kPrefixLen) && memcmp0 (cimage buff) (cimage "aged.".toList ++ [pad]) kPrefixLen
    then buff.drop kPrefixLen else buff
  | none => buff

/-- The loop that translates the window position resources from version 3.2. -/
def copyTranslated (ok : Nat → Bool) (pad : Char) : List (List Char) → Writer → Writer
  | [], w => w
  | buff :: rest, w => copyTranslated ok pad rest (w.fputs ok (translateGeometry pad buff))

/-- The loop that copies the rest of the old file unchanged. -/
def copyOld (ok : Nat → Bool) : List (List Char) → Writer → Writer
  | [], w => w
  | buff :: rest, w => copyOld ok rest (w.fputs ok buff)

/-- The part of VerifySettingsFile that creates the resource file: `fs` and `trace` are
the file system and the calls so far, `old_file` the strings still unread of the old
file when it is open. -/
def createSettings (e : Env) (settings src : List Char) (old_version : CFloat)
    (old_file : Option (List (List Char))) (fs : FS) (trace : List Op) : Outcome :=
  if e.createOk then
    let w0 : Writer := ⟨[], 0, false, []⟩
    let w1 := copySource e.fputsOk (fileLines src) w0
    let w2 :=
      match old_file with
      | some lines =>
        let w := (w1.fputs e.fputsOk ['\n']).fputs e.fputsOk kAutoStr
        if CFloat.fabs (old_version - 32 / 10) < 1 / 1000000 then
          copyTranslated e.fputsOk e.pad lines w
        else copyOld e.fputsOk lines w
      | none => w1
    if w2.write_err then
      ⟨1, fs.set settings none,
        trace ++ Op.fopenWrite settings :: w2.log.reverse ++ [Op.unlink settings]⟩
    else
      ⟨1, fs.set settings (some w2.data), trace ++ Op.fopenWrite settings :: w2.log.reverse⟩
  else ⟨1, fs, trace ++ [Op.fopenWrite settings]⟩

/-- The part of VerifySettingsFile that follows the check of the settings file: `old` is
the old settings file when there is one (then `out_of_date` and `do_rename` are set). -/
def updateSettings (e : Env) (settings : List Char) (old : Option (List Char))
    (old_version : CFloat) (trace : List Op) : Outcome :=
  let trace1 := trace ++ [Op.openFile "Aged.resource".toList]
  match e.source with
  | none => ⟨if old.isSome then 1 else 0, e.fs, trace1⟩
  | some src =>
    match fgets kBuffSize src with
    | none => ⟨0, e.fs, trace1⟩
    | some (buff, _) =>
      if ReadResourceVersion buff < MINIMUM_RESOURCE_VERSION - 1 / 1000000 then
        ⟨1, e.fs, trace1⟩
      else
        match old with
        | some oldData =>
          let oldset := settings ++ ['~']
          let trace2 := trace1 ++ [Op.rename settings oldset]
          if e.renameOk then
            let fs1 := e.fs.rename settings oldset
            let old_file := if e.reopenOk then findAutoStr (fileLines oldData) else none
            createSettings e settings src old_version old_file fs1
              (trace2 ++ [Op.fopenRead oldset])
          else ⟨0, e.fs, trace2⟩
        | none => createSettings e settings src old_version none e.fs trace1

/-- VerifySettingsFile: make sure we have a good settings file. -/
def VerifySettingsFile (e : Env) : Outcome :=
  let r := GetSettingsFilename e.sSettingsFilename e.home []
  if r.1 = 0 then ⟨0, e.fs, []⟩
  else
    let settings := r.2
    let trace := [Op.fopenRead settings]
    match e.fs settings with
    | some oldData =>
      let old_version := scanVersion (fileLines oldData)
      if old_version > MINIMUM_RESOURCE_VERSION - 1 / 1000000 then ⟨1, e.fs, trace⟩
      else updateSettings e settings (some oldData) old_version trace
    | none => updateSettings e settings none 0 trace

/-! ## Window geometry -/

/-- The `%d` conversion of `sprintf`. -/
def fmtNat (n : Nat) : List Char :=
  if n = 0 then ['0'] else ((Nat.digits 10 n).reverse.map Nat.digitChar)

/-- The `%d` conversion of `sprintf` for an `int`. -/
def fmtInt (z : Int) : List Char :=
  if z < 0 then '-' :: fmtNat z.natAbs else fmtNat z.natAbs

/-- Window geometry.  The structure is declared in a header that is not part of the
sources; its fields are taken to hold every `int`. -/
structure SWindowGeometry where
  x : Int
  y : Int
  width : Int
  height : Int
  deriving DecidableEq

/-- The resource database as `XrmGetResource` sees it: for a full resource name, the
representation type and the value found, `none` when the lookup fails. -/
abbrev XrmDatabase := List Char → Option (List Char × List Char)

/-- The representation type of string resources. -/
def XtRString : List Char := "String".toList

/-- GetWindowGeometry - get window geometry from the current resource database: the
value returned and the geometry in `geo` after the call. -/
def GetWindowGeometry (theDatabase : XrmDatabase) (name : List Char) (geo : SWindowGeometry) :
    Int × SWindowGeometry :=
  let fullName := name ++ ".geometry".toList
  match theDatabase fullName with
  | some (strType, str) =>
    if strType = XtRString then
      match strchr str 'x' with
      | some i1 =>
        let pt1 := str.drop (i1 + 1)
        match strchr pt1 '+' with
        | some i2 =>
          let pt2 := pt1.drop (i2 + 1)
          match strchr pt2 '+' with
          | some i3 =>
            let pt3 := pt2.drop (i3 + 1)
            (1, { width := atoi str, height := atoi pt1, x := atoi pt2, y := atoi pt3 })
          | none => (0, geo)
        | none => (0, geo)
      | none => (0, geo)
    else (0, geo)
  | none => (0, geo)

/-- The value of an `int` expression whose exact value is `z`, on a machine with two's
complement `int`s of 32 bits. -/
def wrapInt (z : Int) : Int := (z + 2147483648) % 4294967296 - 2147483648

/-- The offset from window resource position to actual window position. -/
structure WindowOffset where
  sWindowOffsetX : Int
  sWindowOffsetY : Int
  deriving DecidableEq

/-- SetWindowOffset - set offset from window resource position to actual window
position. -/
def SetWindowOffset (dx dy : Int) : WindowOffset := ⟨dx, dy⟩

/-- The database after `XrmPutStringResource`, for a specifier that is a full resource
name: its lookup gives the string value, every other lookup is as before. -/
def XrmPutStringResource (theDatabase : XrmDatabase) (specifier value : List Char) :
    XrmDatabase :=
  fun fullName => if fullName = specifier then some (XtRString, value) else theDatabase fullName

/-- SetWindowGeometry - set window geometry in current resource database. -/
def SetWindowGeometry (theDatabase : XrmDatabase) (offset : WindowOffset) (name : List Char)
    (geo : SWindowGeometry) : XrmDatabase :=
  XrmPutStringResource theDatabase (name ++ ".geometry".toList)
    (fmtInt geo.width ++ 'x' :: (fmtInt geo.height ++ '+' ::
      (fmtInt (wrapInt (geo.x - offset.sWindowOffsetX)) ++ '+' ::
        fmtInt (wrapInt (geo.y - offset.sWindowOffsetY)))))

/-! ## Writing the settings -/

/-- The application class name (`aged_class` without VAX). -/
def aged_class : List Char := "Aged".toList

/-- A call of `fprintf` whose result the program does not test for an error: the writer
after the call and the value returned, the number of characters written or -1. -/
def Writer.fprintf (ok : Nat → Bool) (s : List Char) (w : Writer) : Writer × Int :=
  if ok w.calls then (⟨w.data ++ s, w.calls + 1, w.write_err, Op.fprintf s :: w.log⟩, s.length)
  else (⟨w.data, w.calls + 1, w.write_err, Op.fprintf s :: w.log⟩, -1)

/-- The tab characters of WritePaddedLabel. -/
def tabChars : List Char := ['\t', '\t', '\t', '\t']

/-- The number of tabs that WritePaddedLabel writes after a label for which `fprintf`
returned `len`. -/
def numTabs (len : Int) : Int :=
  if 4 - Int.tdiv len 8 < 1 then 1 else 4 - Int.tdiv len 8

/-- The text that the format `%s.%s:` gives for an object name and a resource name. -/
def labelText (object_name res_name : List Char) : List Char :=
  object_name ++ '.' :: res_name ++ [':']

/-- WritePaddedLabel - write resource label to file, padding with tab characters. -/
def WritePaddedLabel (ok : Nat → Bool) (object_name res_name : List Char) (w : Writer) :
    Writer :=
  let r := w.fprintf ok (labelText object_name res_name)
  (r.1.fprintf ok (tabChars.take (numTabs r.2).toNat)).1

/-- The column of the next tab stop, with tab stops every 8 columns. -/
def nextTabStop (col : Nat) : Nat := 8 * (col / 8 + 1)

/-- The column reached from column `col` by `n` tab characters. -/
def afterTabs (col : Nat) : Nat → Nat
  | 0 => col
  | n + 1 => afterTabs (nextTabStop col) n

/-! ## The resource table -/

/-- The representation type of `int` resources. -/
def XtRInt : List Char := "Int".toList

/-- The representation type of `float` resources. -/
def XtRFloat : List Char := "Float".toList

/-- The representation type of pixel resources. -/
def XtRPixel : List Char := "Pixel".toList

/-- The representation type of font resources. -/
def XtRFontStruct : List Char := "FontStruct".toList

/-- The member of the resource structure that `XtOffset(AgedResPtr, ...)` designates: a
member given by its designator, or the element `colset[set][colour]` of the colour sets,
`colour` being the name of a colour number of the header. -/
inductive Field where
  | member (name : String)
  | colset (set : Nat) (colour : String)
  deriving DecidableEq

/-- An entry of the resource table: name, class, representation type and offset. -/
structure XtResource where
  resource_name : List Char
  resource_class : List Char
  resource_type : List Char
  resource_offset : Field
  deriving DecidableEq

/-- The entries of sResourceList that precede the entries compiled with ANTI_ALIAS. -/
def sResourceListHead : List XtResource :=
  [
    ⟨"resource_version".toList, "ResVer".toList, XtRFloat, .member "resource_version"⟩,
    ⟨"hist_bins".toList, "HistBins".toList, XtRInt, .member "hist_bins"⟩,
    ⟨"num_cols".toList, "NumCols".toList, XtRInt, .member "num_cols"⟩,
    ⟨"det_cols".toList, "DetCols".toList, XtRInt, .member "det_cols"⟩,
    ⟨"proj_min".toList, "ProjMin".toList, XtRFloat, .member "proj.proj_min"⟩,
    ⟨"proj_max".toList, "ProjMax".toList, XtRFloat, .member "proj.proj_max"⟩,
    ⟨"proj_screen".toList, "ProjScrn".toList, XtRFloat, .member "proj.proj_screen"⟩,
    ⟨"hist_font".toList, "HistFont".toList, XtRFontStruct, .member "hist_font"⟩,
    ⟨"label_font".toList, "LabelFont".toList, XtRFontStruct, .member "label_font"⟩,
    ⟨"label_big_font".toList, "LabelBigFont".toList, XtRFontStruct, .member "label_big_font"⟩
  ]

/-- The entries of sResourceList compiled with ANTI_ALIAS. -/
def sResourceListXft : List XtResource :=
  [
    ⟨"xft_hist_font".toList, "XftHistFont".toList, XtRString, .member "xft_hist_font_str"⟩,
    ⟨"xft_label_font".toList, "XftLabelFont".toList, XtRString, .member "xft_label_font_str"⟩,
    ⟨"xft_label_big_font".toList, "XftLabelBigFont".toList, XtRString, .member "xft_label_big_font_str"⟩
  ]

/-- The entries of sResourceList from `file_path` to the first resource saved. -/
def sResourceListUnsaved : List XtResource :=
  [
    ⟨"file_path".toList, "FilePath".toList, XtRString, .member "file_path"⟩,
    ⟨"black_col".toList, "BlackCol".toList, XtRPixel, .member "black_col"⟩,
    ⟨"white_col".toList, "WhiteCol".toList, XtRPixel, .member "white_col"⟩
  ]

/-- The entries of sResourceList from `version` to the colours. -/
def sResourceListSettings : List XtResource :=
  [
    ⟨"version".toList, "Version".toList, XtRString, .member "version"⟩,
    ⟨"open_windows".toList, "OpenWindows".toList, XtRInt, .member "open_windows"⟩,
    ⟨"open_windows2".toList, "OpenWindows2".toList, XtRInt, .member "open_windows2"⟩,
    ⟨"time_min".toList, "TimeMin".toList, XtRFloat, .member "time_min"⟩,
    ⟨"time_max".toList, "TimeMax".toList, XtRFloat, .member "time_max"⟩,
    ⟨"height_min".toList, "HeightMin".toList, XtRFloat, .member "height_min"⟩,
    ⟨"height_max".toList, "HeightMax".toList, XtRFloat, .member "height_max"⟩,
    ⟨"error_min".toList, "ErrorMin".toList, XtRFloat, .member "error_min"⟩,
    ⟨"error_max".toList, "ErrorMax".toList, XtRFloat, .member "error_max"⟩,
    ⟨"hex_id".toList, "HexID".toList, XtRInt, .member "hex_id"⟩,
    ⟨"smooth".toList, "Smooth".toList, XtRInt, .member "smooth"⟩,
    ⟨"time_zone".toList, "TimeZone".toList, XtRInt, .member "time_zone"⟩,
    ⟨"angle_rad".toList, "AngleRad".toList, XtRInt, .member "angle_rad"⟩,
    ⟨"hit_xyz".toList, "HitXYZ".toList, XtRInt, .member "hit_xyz"⟩,
    ⟨"log_scale".toList, "LogScale".toList, XtRInt, .member "log_scale"⟩,
    ⟨"hit_size".toList, "HitSize".toList, XtRFloat, .member "hit_size"⟩,
    ⟨"fit_size".toList, "NCDSize".toList, XtRFloat, .member "fit_size"⟩,
    ⟨"save_config".toList, "SaveConfig".toList, XtRInt, .member "save_config"⟩,
    ⟨"dataType".toList, "DataType".toList, XtRInt, .member "dataType"⟩,
    ⟨"projType".toList, "ProjType".toList, XtRInt, .member "projType"⟩,
    ⟨"shapeOption".toList, "ShapeOption".toList, XtRInt, .member "shapeOption"⟩,
    ⟨"bit_mask".toList, "BitMask".toList, XtRInt, .member "bit_mask"⟩,
    ⟨"show_detector".toList, "ShowDetector".toList, XtRInt, .member "show_detector"⟩,
    ⟨"show_fit".toList, "ShowVertex".toList, XtRInt, .member "show_fit"⟩,
    ⟨"time_interval".toList, "TimeInterval".toList, XtRFloat, .member "time_interval"⟩,
    ⟨"image_col".toList, "ImageCol".toList, XtRInt, .member "image_col"⟩,
    ⟨"print_to".toList, "PrintTo".toList, XtRInt, .member "print_to"⟩,
    ⟨"print_col".toList, "PrintCol".toList, XtRInt, .member "print_col"⟩,
    ⟨"print_label".toList, "PrintLabel".toList, XtRInt, .member "print_label"⟩,
    ⟨"show_label".toList, "ShowLabel".toList, XtRInt, .member "show_label"⟩,
    ⟨"label_format".toList, "LabelFormat".toList, XtRString, .member "label_format_pt"⟩,
    ⟨"print_command".toList, "PrintCommand".toList, XtRString, .member "print_string_pt[0]"⟩,
    ⟨"print_filename".toList, "PrintFilename".toList, XtRString, .member "print_string_pt[1]"⟩,
    ⟨"wave0_min".toList, "Wave0Min".toList, XtRInt, .member "wave_min[0]"⟩,
    ⟨"wave0_max".toList, "Wave0Max".toList, XtRInt, .member "wave_max[0]"⟩,
    ⟨"wave1_min".toList, "Wave0Min".toList, XtRInt, .member "wave_min[1]"⟩,
    ⟨"wave1_max".toList, "Wave0Max".toList, XtRInt, .member "wave_max[1]"⟩
  ]

/-- The colour entries of sResourceList. -/
def sResourceListColours : List XtResource :=
  [
    ⟨"bkg_col".toList, "BkgCol".toList, XtRPixel, .colset 0 "BKG_COL"⟩,
    ⟨"text_col".toList, "TextCol".toList, XtRPixel, .colset 0 "TEXT_COL"⟩,
    ⟨"hid_col".toList, "HidCol".toList, XtRPixel, .colset 0 "HID_COL"⟩,
    ⟨"frame_col".toList, "FrameCol".toList, XtRPixel, .colset 0 "FRAME_COL"⟩,
    ⟨"vdark_col".toList, "VDarkCol".toList, XtRPixel, .colset 0 "VDARK_COL"⟩,
    ⟨"vlit_col".toList, "VLitCol".toList, XtRPixel, .colset 0 "VLIT_COL"⟩,
    ⟨"axes_col".toList, "AxesCol".toList, XtRPixel, .colset 0 "AXES_COL"⟩,
    ⟨"cursor_col".toList, "CursorCol".toList, XtRPixel, .colset 0 "CURSOR_COL"⟩,
    ⟨"select_col".toList, "SelectCol".toList, XtRPixel, .colset 0 "SELECT_COL"⟩,
    ⟨"vertex_col".toList, "VertexCol".toList, XtRPixel, .colset 0 "VERTEX_COL"⟩,
    ⟨"fit_bad_col".toList, "FitBadCol".toList, XtRPixel, .colset 0 "FIT_BAD_COL"⟩,
    ⟨"fit_good_col".toList, "FitGoodCol".toList, XtRPixel, .colset 0 "FIT_GOOD_COL"⟩,
    ⟨"fit_seed_col".toList, "FitSeedCol".toList, XtRPixel, .colset 0 "FIT_SEED_COL"⟩,
    ⟨"fit_added_col".toList, "FitAddedCol".toList, XtRPixel, .colset 0 "FIT_ADDED_COL"⟩,
    ⟨"fit_second_col".toList, "FitSecondCol".toList, XtRPixel, .colset 0 "FIT_SECOND_COL"⟩,
    ⟨"fit_photon_col".toList, "FitPhotonCol".toList, XtRPixel, .colset 0 "FIT_PHOTON_COL"⟩,
    ⟨"scale_under".toList, "ScaleUnder".toList, XtRPixel, .colset 0 "SCALE_UNDER"⟩,
    ⟨"scale_col0".toList, "ScaleCol0".toList, XtRPixel, .colset 0 "SCALE_COL0"⟩,
    ⟨"scale_col1".toList, "ScaleCol1".toList, XtRPixel, .colset 0 "SCALE_COL1"⟩,
    ⟨"scale_col2".toList, "ScaleCol2".toList, XtRPixel, .colset 0 "SCALE_COL2"⟩,
    ⟨"scale_col3".toList, "ScaleCol3".toList, XtRPixel, .colset 0 "SCALE_COL3"⟩,
    ⟨"scale_col4".toList, "ScaleCol4".toList, XtRPixel, .colset 0 "SCALE_COL4"⟩,
    ⟨"scale_over".toList, "ScaleOver".toList, XtRPixel, .colset 0 "SCALE_OVER"⟩,
    ⟨"waveform_col".toList, "WaveformCol".toList, XtRPixel, .colset 0 "WAVEFORM_COL"⟩,
    ⟨"grid_col".toList, "GridCol".toList, XtRPixel, .colset 0 "GRID_COL"⟩
  ]

/-- The alternate colour entries of sResourceList. -/
def sResourceListAltColours : List XtResource :=
  [
    ⟨"alt_bkg_col".toList, "AltBkgCol".toList, XtRPixel, .colset 1 "BKG_COL"⟩,
    ⟨"alt_text_col".toList, "AltTextCol".toList, XtRPixel, .colset 1 "TEXT_COL"⟩,
    ⟨"alt_hid_col".toList, "AltHidCol".toList, XtRPixel, .colset 1 "HID_COL"⟩,
    ⟨"alt_frame_col".toList, "AltFrameCol".toList, XtRPixel, .colset 1 "FRAME_COL"⟩,
    ⟨"alt_vdark_col".toList, "AltVDarkCol".toList, XtRPixel, .colset 1 "VDARK_COL"⟩,
    ⟨"alt_vlit_col".toList, "AltVLitCol".toList, XtRPixel, .colset 1 "VLIT_COL"⟩,
    ⟨"alt_axes_col".toList, "AltAxesCol".toList, XtRPixel, .colset 1 "AXES_COL"⟩,
    ⟨"alt_cursor_col".toList, "AltCursorCol".toList, XtRPixel, .colset 1 "CURSOR_COL"⟩,
    ⟨"alt_select_col".toList, "AltSelectCol".toList, XtRPixel, .colset 1 "SELECT_COL"⟩,
    ⟨"alt_vertex_col".toList, "AltVertexCol".toList, XtRPixel, .colset 1 "VERTEX_COL"⟩,
    ⟨"alt_fit_bad_col".toList, "AltFitBadCol".toList, XtRPixel, .colset 1 "FIT_BAD_COL"⟩,
    ⟨"alt_fit_good_col".toList, "AltFitGoodCol".toList, XtRPixel, .colset 1 "FIT_GOOD_COL"⟩,
    ⟨"alt_fit_seed_col".toList, "AltFitSeedCol".toList, XtRPixel, .colset 1 "FIT_SEED_COL"⟩,
    ⟨"alt_fit_added_col".toList, "AltFitAddedCol".toList, XtRPixel, .colset 1 "FIT_ADDED_COL"⟩,
    ⟨"alt_fit_second_col".toList, "AltFitSecondCol".toList, XtRPixel, .colset 1 "FIT_SECOND_COL"⟩,
    ⟨"alt_fit_photon_col".toList, "AltFitPhotonCol".toList, XtRPixel, .colset 1 "FIT_PHOTON_COL"⟩,
    ⟨"alt_scale_under".toList, "AltScaleUnder".toList, XtRPixel, .colset 1 "SCALE_UNDER"⟩,
    ⟨"alt_scale_col0".toList, "AltScaleCol0".toList, XtRPixel, .colset 1 "SCALE_COL0"⟩,
    ⟨"alt_scale_col1".toList, "AltScaleCol1".toList, XtRPixel, .colset 1 "SCALE_COL1"⟩,
    ⟨"alt_scale_col2".toList, "AltScaleCol2".toList, XtRPixel, .colset 1 "SCALE_COL2"⟩,
    ⟨"alt_scale_col3".toList, "AltScaleCol3".toList, XtRPixel, .colset 1 "SCALE_COL3"⟩,
    ⟨"alt_scale_col4".toList, "AltScaleCol4".toList, XtRPixel, .colset 1 "SCALE_COL4"⟩,
    ⟨"alt_scale_over".toList, "AltScaleOver".toList, XtRPixel, .colset 1 "SCALE_OVER"⟩,
    ⟨"alt_waveform_col".toList, "AltWaveformCol".toList, XtRPixel, .colset 1 "WAVEFORM_COL"⟩,
    ⟨"alt_grid_col".toList, "AltGridCol".toList, XtRPixel, .colset 1 "GRID_COL"⟩
  ]

/-- The resource table sResourceList, without or with the entries compiled with
ANTI_ALIAS. -/
def sResourceList (antiAlias : Bool) : List XtResource :=
  sResourceListHead ++ (if antiAlias then sResourceListXft else []) ++ sResourceListUnsaved ++
    sResourceListSettings ++ sResourceListColours ++ sResourceListAltColours

/-! ## Command line options -/

/-- The kinds of command line options; the program uses XrmoptionSepArg only. -/
inductive XrmOptionKind where
  | XrmoptionNoArg
  | XrmoptionSepArg
  deriving DecidableEq

/-- A command line option: option string, resource specifier, kind and value (`none` for
NULL). -/
structure XrmOptionDescRec where
  option : List Char
  specifier : List Char
  argKind : XrmOptionKind
  value : Option (List Char)
  deriving DecidableEq

/-- Writing the bytes `data` at offset `off` of a block of memory; `none` when a byte
would fall outside the block. -/
def store (block : List Char) (off : Nat) (data : List Char) : Option (List Char) :=
  if off + data.length ≤ block.length then
    some (block.take off ++ data ++ block.drop (off + data.length))
  else none

/-- The C string that starts at offset `off` of a block of memory. -/
def cstrAt (block : List Char) (off : Nat) : List Char :=
  (block.drop off).takeWhile (fun c => c != '\x00')

/-- The body of the loop of GetCommandLineOptions for a resource name: the block of
`len * 2 + 4` bytes after the four writes, and the option that points into it; `none`
when a write falls outside the block.  `junk` is the byte that fills the block that
XtMalloc returns. -/
def makeOption (junk : Char) (resource_name : List Char) :
    Option (List Char × XrmOptionDescRec) :=
  let len := resource_name.length
  let pt := List.replicate (len * 2 + 4) junk
  (store pt 0 ['-']).bind fun pt1 =>
  (store pt1 1 (resource_name ++ ['\x00'])).bind fun pt2 =>
  (store pt2 (len + 2) ['*']).bind fun pt3 =>
  (store pt3 (len + 3) (cstrAt pt3 1 ++ ['\x00'])).bind fun pt4 =>
  some (pt4, { option := cstrAt pt4 0, specifier := cstrAt pt4 (len + 2),
               argKind := XrmOptionKind.XrmoptionSepArg, value := none })

/-- The static data of GetCommandLineOptions: the flag `init_options` and the array
`command_line_options`, an entry being `none` until it is set (or if a write fell outside
its block). -/
structure OptionState where
  init_options : Int
  command_line_options : List (Option XrmOptionDescRec)

/-- The static data when the program starts: the array has XtNumber(sResourceList)
entries. -/
def OptionState.initial (antiAlias : Bool) : OptionState :=
  ⟨0, List.replicate (sResourceList antiAlias).length none⟩

/-- GetCommandLineOptions: the static data after the call; the array returned is its
`command_line_options`. -/
def GetCommandLineOptions (antiAlias : Bool) (junk : Char) (st : OptionState) : OptionState :=
  if st.init_options = 0 then
    ⟨1, (sResourceList antiAlias).map fun r => (makeOption junk r.resource_name).map (·.2)⟩
  else st

/-- GetNumOptions. -/
def GetNumOptions (antiAlias : Bool) : Int := ((sResourceList antiAlias).length : Int)

/-! ## WriteSettings -/

/-- The values of the members of the resource structure that WriteSettings reads. -/
structure AgedResource where
  strings : Field → List Char
  ints : Field → Int
  floats : Field → ℚ

/-- The member `save_config`. -/
def AgedResource.save_config (res : AgedResource) : Int := res.ints (.member "save_config")

/-- A colour of the X server: pixel value and the three 16-bit channels. -/
structure XColor where
  pixel : Nat
  red : Nat
  green : Nat
  blue : Nat
  deriving DecidableEq

/-- An entry of the resource database as XrmEnumerateDatabase passes it to WriteGeoProc:
the names of its quarks, its representation type and its value. -/
structure DbEntry where
  quarks : List (List Char)
  type : List Char
  value : List Char
  deriving DecidableEq

/-- Two decimal digits of a number below 100. -/
def twoDigits (n : Nat) : List Char := [Nat.digitChar (n / 10 % 10), Nat.digitChar (n % 10)]

/-- The `%.2f` conversion of `fprintf` for a finite value. -/
def fmtFloat2 (x : ℚ) : List Char :=
  let n := roundHalfEven (|x| * 100)
  (if x < 0 then ['-'] else []) ++ fmtNat (n / 100) ++ '.' :: twoDigits (n % 100)

/-- The `%.2x` conversion of `fprintf`: lower-case hexadecimal, at least two digits. -/
def fmtHex2 (n : Nat) : List Char :=
  if n < 16 then ['0', Nat.digitChar n] else Nat.toDigits 16 n

/-- What WriteSettings cannot foresee, and the data of the program that it reads. -/
structure SaveEnv where
  /-- The stored settings file name. -/
  sSettingsFilename : List Char
  /-- The value of `getenv("HOME")`. -/
  home : Option (List Char)
  /-- The file system at the call. -/
  fs : FS
  /-- The value of save_config in the resource file, as the program has it. -/
  sResourceFileSaveConfig : Int
  /-- Whether the temporary file can be opened for writing. -/
  tempOk : Bool
  /-- Whether the n-th write to the temporary file, `fputs` or `fprintf`, succeeds (n counts
  from 0). -/
  writeOk : Nat → Bool
  /-- Whether `rename` succeeds. -/
  renameOk : Bool
  /-- The entries of the resource database, in the order of XrmEnumerateDatabase. -/
  database : List DbEntry
  /-- The colours sColours. -/
  sColours : Nat → XColor
  /-- Whether the program is compiled with ANTI_ALIAS. -/
  antiAlias : Bool
  /-- Whether the program is compiled with CHILD_WINDOWS. -/
  childWindows : Bool
  /-- The constant NUM_COLOURS of the header. -/
  NUM_COLOURS : Nat
  /-- The colour numbers of the header (BKG_COL, TEXT_COL, ...). -/
  colourNumber : String → Nat

/-- Result of WriteSettings: the file system left behind, the value of
sResourceFileSaveConfig and the library calls made on files, in order. -/
structure SaveOutcome where
  fs : FS
  sResourceFileSaveConfig : Int
  trace : List Op

/-- WriteGeoProc for one entry of the database; `name` is the resource name looked for
(`geometry`). -/
def WriteGeoProc (ok : Nat → Bool) (childWindows : Bool) (name : List Char) (entry : DbEntry)
    (w : Writer) : Writer :=
  let n := entry.quarks.length
  if 2 ≤ n ∧ entry.quarks.getLast? = some name then
    let object_name := entry.quarks.headD []
    if (if childWindows then object_name = "aged".toList else object_name ≠ "Aged".toList) then
      let res_name := List.intercalate ['.'] (entry.quarks.take (n - 1))
      let w1 := WritePaddedLabel ok res_name name w
      if entry.type = XtRString then (w1.fprintf ok (entry.value ++ ['\n'])).1 else w1
    else w
  else w

/-- WriteWindowGeometries - write all window geometry resources to file. -/
def WriteWindowGeometries (ok : Nat → Bool) (childWindows : Bool) :
    List DbEntry → Writer → Writer
  | [], w => w
  | entry :: rest, w =>
    WriteWindowGeometries ok childWindows rest
      (WriteGeoProc ok childWindows "geometry".toList entry w)

/-- The index `(Pixel *)res_pt - res->colset[0]` of a pixel resource.  A member outside
the array `colset` is taken to give an index outside of it. -/
def pixelIndex (e : SaveEnv) : Field → Int
  | .colset set colour => (set * e.NUM_COLOURS + e.colourNumber colour : Nat)
  | .member _ => -1

/-- The text that WriteSettings writes after the label of a resource. -/
def resourceValue (e : SaveEnv) (res : AgedResource) (r : XtResource) : List Char :=
  if r.resource_type = XtRString then res.strings r.resource_offset ++ ['\n']
  else if r.resource_type = XtRInt then fmtInt (res.ints r.resource_offset) ++ ['\n']
  else if r.resource_type = XtRFloat then fmtFloat2 (res.floats r.resource_offset) ++ ['\n']
  else if r.resource_type = XtRPixel then
    if 0 ≤ pixelIndex e r.resource_offset ∧
        pixelIndex e r.resource_offset < 2 * (e.NUM_COLOURS : Int) then
      "rgb:".toList ++
        fmtHex2 ((e.sColours (pixelIndex e r.resource_offset).toNat).red % 65536 / 256) ++ '/' ::
        fmtHex2 ((e.sColours (pixelIndex e r.resource_offset).toNat).green % 65536 / 256) ++
        '/' ::
        fmtHex2 ((e.sColours (pixelIndex e r.resource_offset).toNat).blue % 65536 / 256) ++
        ['\n']
    else "Black\n".toList
  else "0\n".toList

/-- The loop that writes the resources to the output file. -/
def writeResources (e : SaveEnv) (res : AgedResource) : List XtResource → Writer → Writer
  | [], w => w
  | r :: rest, w =>
    writeResources e res rest
      ((WritePaddedLabel e.writeOk aged_class r.resource_name w).fprintf e.writeOk
        (resourceValue e res r)).1

/-- The entries of the table from the one named `version`: the loop that looks for the
`version` resource in the list. -/
def fromVersion (table : List XtResource) : List XtResource :=
  table.dropWhile fun r => r.resource_name != "version".toList

/-- The loop that copies the settings file up to the auto string: the writer, whether
the auto string was found, and the strings still unread. -/
def copyUser (ok : Nat → Bool) : List (List Char) → Writer → Writer × Bool × List (List Char)
  | [], w => (w, false, [])
  | buff :: rest, w =>
    if buff = kAutoStr then (w, true, rest) else copyUser ok rest (w.fputs ok buff)

/-- The test `pt && *(pt-1)=='0'` on a string that holds `.save_config:`, `pt` being the
place of its newline. -/
def saveConfigIsZero (buff : List Char) : Bool :=
  match strchr buff '\n' with
  | some (k + 1) => buff.get? k == some '0'
  | _ => false

/-- The loop that copies the old configuration except for save_config: the writer when
the loop ends, and `none` when it ends by the return from WriteSettings, else whether
save_config was found. -/
def copyConfig (ok : Nat → Bool) (save_config : Int) :
    List (List Char) → Writer → Bool → Writer × Option Bool
  | [], w, found => (w, some found)
  | buff :: rest, w, found =>
    match strstr buff ".save_config:".toList with
    | some _ =>
      if saveConfigIsZero buff then (w, none)
      else
        copyConfig ok save_config rest
          ((WritePaddedLabel ok aged_class "save_config".toList w).fprintf ok
            (fmtInt save_config ++ ['\n'])).1 true
    | none => copyConfig ok save_config rest (w.fputs ok buff) found

/-- The end of WriteSettings: the files are closed, the state of save_config is updated
and the temporary file is renamed or erased. -/
def finishSettings (e : SaveEnv) (res : AgedResource) (settings temp : List Char)
    (trace : List Op) (w : Writer) : SaveOutcome :=
  if w.write_err then
    ⟨e.fs.set temp none, res.save_config, trace ++ w.log.reverse ++ [Op.unlink temp]⟩
  else if e.renameOk then
    ⟨(e.fs.set temp none).set settings (some w.data), res.save_config,
      trace ++ w.log.reverse ++ [Op.rename temp settings]⟩
  else
    ⟨e.fs.set temp none, res.save_config,
      trace ++ w.log.reverse ++ [Op.rename temp settings, Op.unlink temp]⟩

/-- The strings that fgets reads from the settings file in WriteSettings: none when the
file cannot be opened. -/
def sourceStrings (fs : FS) (settings : List Char) : List (List Char) :=
  match fs settings with
  | some old => fileLines old
  | none => []

/-- The writer of WriteSettings after the copy of the settings file up to the auto
string, the blank line written if there was none, and the auto string; with it, the
strings still unread. -/
def writeUser (ok : Nat → Bool) (source : List (List Char)) : Writer × List (List Char) :=
  let u := copyUser ok source ⟨[], 0, false, []⟩
  ((if u.2.1 then u.1 else u.1.fputs ok ['\n']).fputs ok kAutoStr, u.2.2)

/-- The part of WriteSettings that follows the opening of the output file `temp`. -/
def saveSettings (e : SaveEnv) (res : AgedResource) (force_save : Int)
    (settings temp : List Char) : SaveOutcome :=
  let trace := [Op.fopenWrite temp, Op.fopenRead settings]
  let u := writeUser e.writeOk (sourceStrings e.fs settings)
  if force_save ≠ 0 then
    let w3 := u.1.fputs e.writeOk ['\n']
    let w4 := WriteWindowGeometries e.writeOk e.childWindows e.database w3
    let w5 := writeResources e res (fromVersion (sResourceList e.antiAlias)) w4
    finishSettings e res settings temp trace (w5.fputs e.writeOk ['\n'])
  else
    let c := copyConfig e.writeOk res.save_config u.2 u.1 false
    match c.2 with
    | none =>
      ⟨e.fs.set temp none, e.sResourceFileSaveConfig,
        trace ++ c.1.log.reverse ++ [Op.unlink temp]⟩
    | some found_save_config =>
      if found_save_config then finishSettings e res settings temp trace c.1
      else
        finishSettings e res settings temp trace
          ((((WritePaddedLabel e.writeOk aged_class "save_config".toList
            (c.1.fputs e.writeOk ['\n'])).fprintf e.writeOk
              (fmtInt res.save_config ++ ['\n'])).1).fputs e.writeOk ['\n'])

/-- WriteSettings - write resources to file. -/
def WriteSettings (e : SaveEnv) (res : AgedResource) (force_save : Int) : SaveOutcome :=
  let force_save := if res.save_config ≠ 0 then 1 else force_save
  if res.save_config = 0 ∧ force_save = 0 ∧ e.sResourceFileSaveConfig = 0 then
    ⟨e.fs, e.sResourceFileSaveConfig, []⟩
  else
    let r := GetSettingsFilename e.sSettingsFilename e.home []
    if r.1 = 0 then ⟨e.fs, e.sResourceFileSaveConfig, []⟩
    else if e.tempOk then saveSettings e res force_save r.2 (r.2 ++ "_tmp".toList)
    else ⟨e.fs, e.sResourceFileSaveConfig, [Op.fopenWrite (r.2 ++ "_tmp".toList)]⟩

/-! ## Colours -/

/-- The constant MAX_COLOUR_SEEDS. -/
def MAX_COLOUR_SEEDS : Int := 10

/-- The constant MAX_COLOURS. -/
def MAX_COLOURS : Int := 256

/-- A pixel value of the X server. -/
abbrev Pixel := Nat

/-- The constants of the headers that the colour routines use; the headers are not part
of the sources.  `GREYSCALE_INTENSITY` tells whether that name is defined. -/
structure ColourConsts where
  NUM_COLOURS : Nat
  SCALE_UNDER : Nat
  SCALE_OVER : Nat
  VDARK_COL : Nat
  FRAME_COL : Nat
  kGreyscale : Int
  kWhiteBkg : Int
  kMessageResourceColoursChanged : Int
  GREYSCALE_INTENSITY : Bool

/-- What the colour routines ask of the X server, of the allocator and of the rest of the
program. -/
inductive XCall where
  | XtMalloc (pixels : Int)
  | XAllocColorCells (npixels : Int)
  | XQueryColors (pixels : List Pixel)
  | XAllocColor (red green blue : Nat)
  | XStoreColors (colours : List XColor)
  | XFreeColors (pixels : List Pixel)
  | newColours (count : Nat)
  | newFlags (count : Int)
  | Printf (text : String)
  | Speak (message : Int)
  deriving DecidableEq

/-- What the colour routines cannot foresee: the answers to their calls.  The number
given is the number of calls made before. -/
structure XServer where
  /-- Whether XtMalloc gives a block. -/
  XtMalloc : Nat → Bool
  /-- The colour cells that XAllocColorCells gives, none when it returns 0. -/
  XAllocColorCells : Nat → Option (List Pixel)
  /-- The colour that XQueryColors reports for a pixel. -/
  XQueryColors : Nat → Pixel → XColor
  /-- The colour that XAllocColor allocates for the colour asked, none when it returns
  0. -/
  XAllocColor : Nat → Nat → Nat → Nat → Option XColor
  /-- Whether `new XColor[NUM_COLOURS]` gives an array. -/
  newColours : Nat → Bool
  /-- Whether `new char[totalCols]` gives an array. -/
  newFlags : Nat → Bool

/-- The data of the resource manager that the colour routines read and write, and the
calls made so far.  A null pointer is `none`. -/
structure ColourState where
  image_col : Int
  num_cols : Int
  det_cols : Int
  /-- The working colours `sResource.colour`. -/
  colour : List Pixel
  /-- The two colour sets `sResource.colset`, one after the other. -/
  colset : List Pixel
  scale_col : Option (List Pixel)
  det_col : Option (List Pixel)
  sAllocFlags : List Nat
  sColours : List XColor
  calls : List XCall
  deriving DecidableEq

/-- How a colour routine ends without returning: by `quit`, with the calls made until
then, or by an operation that C leaves undefined. -/
inductive Stop where
  | quit (msg : String) (calls : List XCall)
  | undefined (what : String)
  deriving DecidableEq

instance {ε α : Type} [DecidableEq ε] [DecidableEq α] : DecidableEq (Except ε α)
  | .ok a, .ok b => if h : a = b then isTrue (congrArg Except.ok h)
    else isFalse fun e => h (Except.ok.inj e)
  | .error a, .error b => if h : a = b then isTrue (congrArg Except.error h)
    else isFalse fun e => h (Except.error.inj e)
  | .ok _, .error _ => isFalse fun e => Except.noConfusion e
  | .error _, .ok _ => isFalse fun e => Except.noConfusion e

/-- The element `a[i]` of an array; an element outside the array is read as the default
value. -/
def getAt {α : Type} [Inhabited α] (a : List α) (i : Int) : α :=
  if 0 ≤ i then a.getD i.toNat default else default

/-- The array after `a[i] = v`; a write outside the array is dropped. -/
def setAt {α : Type} (a : List α) (i : Int) (v : α) : List α :=
  if 0 ≤ i then a.set i.toNat v else a

instance : Inhabited XColor := ⟨⟨0, 0, 0, 0⟩⟩

/-- The conversion `(int)` of a float: the fraction is dropped. -/
def truncInt (x : ℚ) : Int := Int.tdiv x.num x.den

/-- The conversion `(unsigned short)` of a float. -/
def castUShort (x : ℚ) : Nat := (truncInt x % 65536).toNat

/-- The address passed to AllocColours as `col`: that of sResource.scale_col, that of
sResource.det_col, or another one. -/
inductive ColourPtr where
  | scale_col
  | det_col
  | other
  deriving DecidableEq

/-- The argument checks of AllocColours: the message of the first call of `quit`, none
when no check calls it. -/
def allocChecks (num : Int) (col : ColourPtr) (nseeds overscale : Int) : Option String :=
  if col = .other then some "AllocColours error"
  else if nseeds < (if overscale ≠ 0 then 4 else 2) then some "Too few colour seeds!"
  else if nseeds > MAX_COLOUR_SEEDS then some "Too many colour seeds!"
  else if num > MAX_COLOURS then some "Too many colours!"
  else none

/-- The value of type `float` that an operation with the exact result `x` gives: the
nearest number with 24 significant bits, ties to even, as in IEEE single-precision
arithmetic.  The range of the exponent is not limited (no overflow and no subnormal
numbers). -/
def roundSingle (x : ℚ) : ℚ :=
  if x = 0 then 0
  else if x < 0 then
    -((roundHalfEven (|x| / (2 : ℚ) ^ (binExp x - 23)) : ℚ) * (2 : ℚ) ^ (binExp x - 23))
  else (roundHalfEven (|x| / (2 : ℚ) ^ (binExp x - 23)) : ℚ) * (2 : ℚ) ^ (binExp x - 23)

/-- The base seed number `j` and the fraction `t` that AllocColours calculates for the
index `i`; none when the divisor is 0.  The products of integers are calculated in `int`;
each conversion to `float` and each operation on floats gives a value of type `float`. -/
def seedFraction (num nseeds overscale i : Int) : Option (Int × ℚ) :=
  if overscale ≠ 0 then
    if i = 0 then some (0, 0)
    else if i = num - 1 then some (nseeds - 2, 1)
    else if num - 3 = 0 then none
    else
      let t : ℚ := roundSingle (1 + roundSingle
        (roundSingle (((i - 1) * (nseeds - 3) : Int) : ℚ) / roundSingle ((num - 3 : Int) : ℚ)))
      let j := if truncInt t > nseeds - 3 then nseeds - 3 else truncInt t
      some (j, roundSingle (t - roundSingle (j : ℚ)))
  else if num - 1 = 0 then none
  else
    let t : ℚ := roundSingle
      (roundSingle (((i * (nseeds - 1) : Int) : ℚ)) / roundSingle ((num - 1 : Int) : ℚ))
    let j := if truncInt t > nseeds - 2 then nseeds - 2 else truncInt t
    some (j, roundSingle (t - roundSingle (j : ℚ)))

/-- The float `a * (1-t) + b * t`, for the values `a` and `b` that a channel has in the
seeds `j` and `j+1`: the values are converted to `float`, and the difference, the two
products and the sum are operations on floats. -/
def channel (a b : Nat) (t : ℚ) : ℚ :=
  roundSingle
    (roundSingle (roundSingle (a : ℚ) * roundSingle (1 - t)) + roundSingle (roundSingle (b : ℚ) * t))

/-- The interpolation of a colour value between the seeds `j` and `j+1`. -/
def interpolate (col_seeds : List XColor) (j : Int) (t : ℚ) : XColor :=
  { pixel := 0
    red := castUShort (channel (getAt col_seeds j).red (getAt col_seeds (j + 1)).red t)
    green := castUShort (channel (getAt col_seeds j).green (getAt col_seeds (j + 1)).green t)
    blue := castUShort (channel (getAt col_seeds j).blue (getAt col_seeds (j + 1)).blue t) }

/-- The colour `tmp_cols[i]` that AllocColours calculates, none when the divisor is 0. -/
def scaleColour (col_seeds : List XColor) (num nseeds overscale i : Int) : Option XColor :=
  (seedFraction num nseeds overscale i).map fun jt => interpolate col_seeds jt.1 jt.2

/-- The seeds of AllocColours after XQueryColors: the pixels `sResource.colour[first+i]`
with the colours that the server reports, stored in 16 bits each. -/
def querySeeds (x : XServer) (n : Nat) (colour : List Pixel) (first nseeds : Int) :
    List XColor :=
  (List.range nseeds.toNat).map fun (i : Nat) =>
    { pixel := getAt colour (first + i)
      red := (x.XQueryColors n (getAt colour (first + i))).red % 65536
      green := (x.XQueryColors n (getAt colour (first + i))).green % 65536
      blue := (x.XQueryColors n (getAt colour (first + i))).blue % 65536 }

/-- The variables that the main loop of AllocColours changes. -/
structure AllocLoop where
  /-- The block `*col`. -/
  block : List Pixel
  sAllocFlags : List Nat
  tmp_cols : List XColor
  no_color : Bool
  calls : List XCall
  deriving DecidableEq

/-- The main loop of AllocColours over the indices given; `flags` is the offset of
`alloc_flags` in sAllocFlags, `cells` tells whether colour cells were allocated. -/
def allocLoop (k : ColourConsts) (x : XServer) (colour : List Pixel) (col_seeds : List XColor)
    (num nseeds overscale flags : Int) (cells : Bool) :
    List Nat → AllocLoop → Except Stop AllocLoop
  | [], l => .ok l
  | i :: rest, l =>
    match scaleColour col_seeds num nseeds overscale i with
    | none => .error (.undefined "division by zero")
    | some c =>
      if cells then
        allocLoop k x colour col_seeds num nseeds overscale flags cells rest
          { l with
            tmp_cols := l.tmp_cols ++ [{ c with pixel := getAt l.block i }]
            sAllocFlags := setAt l.sAllocFlags (flags + i) 1 }
      else
        match x.XAllocColor l.calls.length c.red c.green c.blue with
        | some a =>
          allocLoop k x colour col_seeds num nseeds overscale flags cells rest
            { l with
              tmp_cols := l.tmp_cols ++ [a]
              block := setAt l.block i a.pixel
              sAllocFlags := setAt l.sAllocFlags (flags + i) 1
              calls := l.calls ++ [.XAllocColor c.red c.green c.blue] }
        | none =>
          allocLoop k x colour col_seeds num nseeds overscale flags cells rest
            { l with
              tmp_cols := l.tmp_cols ++ [c]
              block := setAt l.block i (getAt colour k.FRAME_COL)
              no_color := true
              sAllocFlags := setAt l.sAllocFlags (flags + i) 0
              calls := l.calls ++ [.XAllocColor c.red c.green c.blue] }

/-- The loop of AllocColours that adds the extra colours. -/
def addExtras (colour : List Pixel) (num first nseeds : Int) : List Nat → List Pixel → List Pixel
  | [], block => block
  | i :: rest, block =>
    addExtras colour num first nseeds rest
      (setAt block (num + i) (getAt colour (first + nseeds + i)))

/-- The block after XAllocColorCells has stored `num` pixel values in it. -/
def storeCells (pixels : List Pixel) : List Nat → List Pixel → List Pixel
  | [], block => block
  | i :: rest, block => storeCells pixels rest (setAt block i (getAt pixels i))

/-- The block `*col` of AllocColours. -/
def ColourState.block (s : ColourState) : ColourPtr → Option (List Pixel)
  | .scale_col => s.scale_col
  | .det_col => s.det_col
  | .other => none

/-- The state after `*col` has been set. -/
def ColourState.setBlock (s : ColourState) (col : ColourPtr) (block : List Pixel) :
    ColourState :=
  match col with
  | .scale_col => { s with scale_col := some block }
  | .det_col => { s with det_col := some block }
  | .other => s

/-- AllocColours from the queries of the seeds on: `block` is the block `*col`, `cells`
tells whether colour cells were allocated, `calls` are the calls made so far. -/
def allocColours (k : ColourConsts) (x : XServer) (num : Int) (col : ColourPtr)
    (first nseeds overscale extras : Int) (s : ColourState) (flags : Int)
    (block : List Pixel) (cells : Bool) (calls : List XCall) : Except Stop ColourState :=
  let col_seeds := querySeeds x calls.length s.colour first nseeds
  let calls1 := calls ++ [.XQueryColors (col_seeds.map fun c => c.pixel)]
  match allocLoop k x s.colour col_seeds num nseeds overscale flags cells
      (List.range num.toNat) ⟨block, s.sAllocFlags, [], false, calls1⟩ with
  | .error stop => .error stop
  | .ok l =>
    let calls2 := if cells then l.calls ++ [.XStoreColors l.tmp_cols] else l.calls
    let calls3 := if l.no_color then calls2 ++ [.Printf "Couldn't allocate colours\n"] else calls2
    .ok { s.setBlock col (addExtras s.colour num first nseeds (List.range extras.toNat) l.block)
          with sAllocFlags := l.sAllocFlags, calls := calls3 }

/-- AllocColours. -/
def AllocColours (k : ColourConsts) (x : XServer) (num : Int) (col : ColourPtr)
    (first nseeds overscale extras : Int) (s : ColourState) : Except Stop ColourState :=
  match allocChecks num col nseeds overscale with
  | some msg => .error (.quit msg s.calls)
  | none =>
    let flags : Int :=
      if col = .scale_col then k.NUM_COLOURS else (k.NUM_COLOURS : Int) + s.num_cols
    match s.block col with
    | none =>
      if x.XtMalloc s.calls.length then
        let calls := s.calls ++ [.XtMalloc (num + extras), .XAllocColorCells num]
        let block := List.replicate (num + extras).toNat 0
        match x.XAllocColorCells (s.calls.length + 1) with
        | some pixels =>
          allocColours k x num col first nseeds overscale extras s flags
            (storeCells pixels (List.range num.toNat) block) true calls
        | none =>
          allocColours k x num col first nseeds overscale extras s flags block false calls
      else
        .error (.quit "Not enough memory for colour allocation"
          (s.calls ++ [.XtMalloc (num + extras)]))
    | some block =>
      allocColours k x num col first nseeds overscale extras s flags block false s.calls

/-- The pointer passed to FreeAllocatedColours as `col`: sResource.colour,
sResource.scale_col, sResource.det_col, or a pointer that is none of them. -/
inductive PixelList where
  | colour
  | scale_col
  | det_col
  | other
  deriving DecidableEq

/-- The loop of FreeAllocatedColours that frees the colours individually. -/
def freeEach (block : List Pixel) (flags : Int) :
    List Nat → List Nat × List XCall → List Nat × List XCall
  | [], r => r
  | i :: rest, r =>
    if getAt r.1 (flags + i) ≠ 0 then
      freeEach block flags rest
        (setAt r.1 (flags + i) 0, r.2 ++ [.XFreeColors [getAt block i]])
    else freeEach block flags rest r

/-- The array after `memset(alloc_flags, 0, num)`. -/
def clearFlags (flags : Int) : List Nat → List Nat → List Nat
  | [], a => a
  | i :: rest, a => clearFlags flags rest (setAt a (flags + i) 0)

/-- FreeAllocatedColours from the choice of `alloc_flags` on: `block` is what `col`
points to and `flags` the offset of `alloc_flags` in sAllocFlags. -/
def freeAllocated (block : List Pixel) (flags : Int) (num : Int) (s : ColourState) :
    ColourState :=
  if 0 ≤ num ∧ ∀ i ∈ List.range num.toNat, getAt s.sAllocFlags (flags + i) ≠ 0 then
    { s with
      sAllocFlags := clearFlags flags (List.range num.toNat) s.sAllocFlags
      calls := s.calls ++
        [.XFreeColors ((List.range num.toNat).map fun (i : Nat) => getAt block (i : Int))] }
  else
    { s with
      sAllocFlags := (freeEach block flags (List.range num.toNat) (s.sAllocFlags, s.calls)).1
      calls := (freeEach block flags (List.range num.toNat) (s.sAllocFlags, s.calls)).2 }

/-- FreeAllocatedColours.  The array sResource.colour and the blocks of scale_col and
det_col are taken to be apart, so two of the pointers are equal only when both are null;
what a null pointer points to is taken as empty. -/
def FreeAllocatedColours (k : ColourConsts) (col : PixelList) (num : Int) (s : ColourState) :
    Except Stop ColourState :=
  match col with
  | .colour => .ok (freeAllocated s.colour 0 num s)
  | .scale_col => .ok (freeAllocated (s.scale_col.getD []) k.NUM_COLOURS num s)
  | .det_col =>
    if s.det_col = none ∧ s.scale_col = none then
      .ok (freeAllocated [] k.NUM_COLOURS num s)
    else .ok (freeAllocated (s.det_col.getD []) ((k.NUM_COLOURS : Int) + s.num_cols) num s)
  | .other => .error (.quit "Error in FreeAllocatedColours" s.calls)

/-- FreeColours - free allocated colours. -/
def FreeColours (k : ColourConsts) (s : ColourState) : Except Stop ColourState :=
  (FreeAllocatedColours k .colour k.NUM_COLOURS s).bind fun s1 =>
    (FreeAllocatedColours k .scale_col s1.num_cols s1).bind fun s2 =>
      FreeAllocatedColours k .det_col s2.det_cols s2

/-- The intensity mapping for greyscale scale colours. -/
def grey : List (List Nat) :=
  [[0x5555, 0x6666, 0x8888, 0xaaaa, 0xcccc, 0xeeee, 0xffff],
    [0xdddd, 0xbbbb, 0x9999, 0x7777, 0x5555, 0x3333, 0x0000]]

/-- The grey value `val` that CopyColours gives the colour `c`; `set` is 1 for the white
background. -/
def greyValue (k : ColourConsts) (set : Nat) (c : XColor) : Nat :=
  if k.GREYSCALE_INTENSITY then
    if set ≠ 0 then (c.red + c.green + c.blue) % 4294967296 / 3 % 65536
    else max (max c.red c.green) c.blue
  else (c.red * 2125 + c.green * 7154 + c.blue * 721 + 5000) / 10000 % 65536

/-- The loop of CopyColours that converts the colours of the set to greyscale values:
the array `tmp_cols` after it. -/
def greyColours (k : ColourConsts) (set : Nat) (sColours : List XColor) : List XColor :=
  (List.range k.NUM_COLOURS).map fun i =>
    { pixel := 0
      red := greyValue k set (getAt sColours ((i + set * k.NUM_COLOURS : Nat) : Int))
      green := greyValue k set (getAt sColours ((i + set * k.NUM_COLOURS : Nat) : Int))
      blue := greyValue k set (getAt sColours ((i + set * k.NUM_COLOURS : Nat) : Int)) }

/-- The loop of CopyColours that substitutes the scale colours. -/
def substituteScale (k : ColourConsts) (set : Nat) : List Nat → List XColor → List XColor
  | [], tmp_cols => tmp_cols
  | i :: rest, tmp_cols =>
    substituteScale k set rest
      (setAt tmp_cols ((i : Int) + k.SCALE_UNDER)
        { getAt tmp_cols ((i : Int) + k.SCALE_UNDER) with
          red := (grey.getD set []).getD i 0
          green := (grey.getD set []).getD i 0
          blue := (grey.getD set []).getD i 0 })

/-- The loop of CopyColours that allocates the grey colours: the working colours, the
allocation flags and the calls. -/
def allocGreys (k : ColourConsts) (x : XServer) (set : Nat) (colset : List Pixel)
    (tmp_cols : List XColor) :
    List Nat → List Pixel × List Nat × List XCall → List Pixel × List Nat × List XCall
  | [], r => r
  | i :: rest, r =>
    match x.XAllocColor r.2.2.length (getAt tmp_cols i).red (getAt tmp_cols i).green
        (getAt tmp_cols i).blue with
    | some a =>
      allocGreys k x set colset tmp_cols rest
        (setAt r.1 i a.pixel, setAt r.2.1 i 1,
          r.2.2 ++ [.XAllocColor (getAt tmp_cols i).red (getAt tmp_cols i).green
            (getAt tmp_cols i).blue])
    | none =>
      allocGreys k x set colset tmp_cols rest
        (setAt r.1 i (getAt colset ((set * k.NUM_COLOURS + i : Nat) : Int)), r.2.1,
          r.2.2 ++ [.XAllocColor (getAt tmp_cols i).red (getAt tmp_cols i).green
            (getAt tmp_cols i).blue])

/-- The array after `memcpy(dst, src + from, n * sizeof(Pixel))`. -/
def copyPixels (src : List Pixel) (start : Int) : List Nat → List Pixel → List Pixel
  | [], dst => dst
  | i :: rest, dst => copyPixels src start rest (setAt dst i (getAt src (start + i)))

/-- CopyColours - copy current colour set into working colours. -/
def CopyColours (k : ColourConsts) (x : XServer) (s : ColourState) : ColourState :=
  if Int.land s.image_col k.kGreyscale = 0 then
    { s with
      colour := copyPixels s.colset (s.image_col * k.NUM_COLOURS) (List.range k.NUM_COLOURS)
        s.colour }
  else
    let set : Nat := if Int.land s.image_col k.kWhiteBkg ≠ 0 then 1 else 0
    if x.newColours s.calls.length then
      let tmp_cols1 := substituteScale k set
        (List.range ((k.SCALE_OVER : Int) - k.SCALE_UNDER + 1).toNat)
        (greyColours k set s.sColours)
      let r := allocGreys k x set s.colset tmp_cols1 (List.range k.NUM_COLOURS)
        (s.colour, s.sAllocFlags, s.calls ++ [.newColours k.NUM_COLOURS])
      { s with colour := r.1, sAllocFlags := r.2.1, calls := r.2.2 }
    else
      { s with
        calls := s.calls ++
          [.newColours k.NUM_COLOURS, .Printf "Not enough memory to copy colours!"] }

/-- SetColours - change colour schemes. -/
def SetColours (k : ColourConsts) (x : XServer) (colourSet : Int) (s : ColourState) :
    Except Stop ColourState :=
  if s.image_col ≠ colourSet then
    (FreeColours k s).bind fun s1 =>
      let s2 := CopyColours k x { s1 with image_col := colourSet }
      (AllocColours k x s2.num_cols .scale_col k.SCALE_UNDER 7 1 1 s2).bind fun s3 =>
        (AllocColours k x s3.det_cols .det_col k.VDARK_COL 2 0 0 s3).bind fun s4 =>
          .ok { s4 with calls := s4.calls ++ [.Speak k.kMessageResourceColoursChanged] }
  else .ok s

/-- The range check of the colour set in InitResources: `(unsigned)image_col >= 4` for an
`int` of 32 bits. -/
def rangeCheck (image_col : Int) : Int :=
  if image_col % 4294967296 ≥ 4 then 0 else image_col

/-- The colours `sColours` after InitResources has set their pixels from the colour sets
and XQueryColors has stored the colours that the server reports, in 16 bits each. -/
def queryColours (k : ColourConsts) (x : XServer) (n : Nat) (colset : List Pixel) :
    List XColor :=
  (List.range (2 * k.NUM_COLOURS)).map fun (i : Nat) =>
    { pixel := getAt colset (i : Int)
      red := (x.XQueryColors n (getAt colset (i : Int))).red % 65536
      green := (x.XQueryColors n (getAt colset (i : Int))).green % 65536
      blue := (x.XQueryColors n (getAt colset (i : Int))).blue % 65536 }

/-- InitResources - initialize aged resources, from the range check of the colour set to
the allocation of the colours; `s` is the state after XtGetApplicationResources and
`initDone` the static variable of this name. -/
def InitResources (k : ColourConsts) (x : XServer) (initDone : Bool) (s : ColourState) :
    Except Stop ColourState :=
  if initDone then .ok s
  else
    let totalCols : Int := (k.NUM_COLOURS : Int) + s.num_cols + s.det_cols
    if x.newFlags s.calls.length then
      let calls := s.calls ++ [.newFlags totalCols]
      let s1 : ColourState :=
        { s with
          image_col := rangeCheck s.image_col
          sAllocFlags := List.replicate totalCols.toNat 0
          sColours := queryColours k x calls.length s.colset
          calls := calls ++
            [.XQueryColors ((List.range (2 * k.NUM_COLOURS)).map fun (i : Nat) =>
              getAt s.colset (i : Int))] }
      let s2 := CopyColours k x s1
      (AllocColours k x s2.num_cols .scale_col k.SCALE_UNDER 7 1 1 s2).bind fun s3 =>
        AllocColours k x s3.det_cols .det_col k.VDARK_COL 2 0 0 s3
    else .error (.quit "Out of memory" (s.calls ++ [.newFlags totalCols]))

/-! ## Label flags -/

/-- The enumeration ELabelFlags of `AgedWindow.h`: the names and values of the flags in
the order of their declaration. -/
def ELabelFlags : List (String × Nat) :=
  [
    ("kLabelRun", 0x00000001),
    ("kLabelEvID", 0x00000002),
    ("kLabelTime", 0x00000004),
    ("kLabelDate", 0x00000008),
    ("kLabelNhit", 0x00000010),
    ("kLabelNnormal", 0x00000020),
    ("kLabelNowl", 0x00000040),
    ("kLabelNlowGain", 0x00000080),
    ("kLabelNfecd", 0x00000100),
    ("kLabelNbutts", 0x00000200),
    ("kLabelNneck", 0x00000400),
    ("kLabelDataType", 0x00000800),
    ("kLabelDataMin", 0x00001000),
    ("kLabelDataMax", 0x00002000),
    ("kLabelPeak", 0x00004000),
    ("kLabelInt", 0x00008000),
    ("kLabelDiff", 0x00010000),
    ("kLabelTrigger", 0x00020000),
    ("kLabelEvtNum", 0x00040000),
    ("kLabelFileName", 0x00080000),
    ("kLabelFitPos", 0x00100000),
    ("kLabelFitDir", 0x00200000),
    ("kLabelFitRadius", 0x00400000),
    ("kLabelFitTime", 0x00800000),
    ("kLabelFitQuality", 0x01000000),
    ("kLabelNfit", 0x02000000),
    ("kLabelSunDir", 0x04000000),
    ("kLabelSunAngle", 0x08000000),
    ("kLabelPrevTime", 0x10000000),
    ("kLabelNextTime", 0x20000000),
    ("kLabelSubRun", 0x40000000)
  ]

/-- The values of the label flags. -/
def labelFlagValues : List Nat := ELabelFlags.map fun f => f.2

/-- The bitwise OR of a combination of flags. -/
def orFlags (flags : List Nat) : Nat := flags.foldl (fun a f => a ||| f) 0

/-! ## Lines of a text file -/

/-- The lines of a text: each line ends with its newline, but for a last line that has
none. -/
def textLines : List Char → List (List Char)
  | [] => []
  | c :: cs =>
    if c = '\n' then [c] :: textLines cs
    else
      match textLines cs with
      | [] => [[c]]
      | l :: ls => (c :: l) :: ls

/-! ## Sample inputs -/

/-- A home directory. -/
def sampleHome : List Char := "/home/u".toList

/-- The default settings file of that home directory. -/
def samplePath : List Char := "/home/u/.Aged".toList

/-- A valid source resource file. -/
def sampleSource : List Char := "Aged.resource_version: 3.5\nAged*background: Grey\n".toList

/-- The environment with the default settings file name and the home directory
`sampleHome`, in which the settings file and the source file are as given, no other file
exists and every operation succeeds. -/
def sampleEnv (old source : Option (List Char)) : Env :=
  { sSettingsFilename := defaultSettingsFilename
    home := some sampleHome
    fs := fun p => if p = samplePath then old else none
    source := source
    renameOk := true
    reopenOk := true
    createOk := true
    fputsOk := fun _ => true
    pad := '\x00' }

/-- A settings file of resource version 3.0. -/
def outdatedSettings : List Char := "Aged.resource_version: 3.0\nAged*background: Grey\n".toList

/-- A settings file whose only line is 258 characters long and gives version 3.5; its
first 255 characters end with `resource_version: 3`. -/
def longVersionLine : List Char :=
  List.replicate 236 ' ' ++ "resource_version: 3.5\n".toList

/-- A settings file of version 3.4 with a comment line of 255 exclamation marks that ends
with the text of the auto string, two settings, and the auto string between them. -/
def longMarkerSettings : List Char :=
  "Aged.resource_version: 3.4\n".toList ++ List.replicate 255 '!' ++ kAutoStr ++
    "Aged*X: 1\n".toList ++ kAutoStr ++ "Aged*Y: 2\n".toList

/-- A settings file of version 3.4 whose last line is 255 exclamation marks followed by
the text of the auto string; no line of it is the auto string. -/
def longCommentSettings : List Char :=
  "Aged.resource_version: 3.4\n".toList ++ List.replicate 255 '!' ++ kAutoStr

/-- A settings file of version 3.4 with two saved settings below the auto string. -/
def savedSettings : List Char :=
  "Aged.resource_version: 3.4\n".toList ++ kAutoStr ++
    "Aged.geometry: 100x100+0+0\nAged*Y: 2\n".toList

/-- A settings file of version 3.2 with the geometry of a window below the auto string. -/
def settings32 : List Char :=
  "Aged.resource_version: 3.2\n".toList ++ kAutoStr ++
    "aged.Event Display.geometry: 100x100+0+0\n".toList

/-- A source file of resource version 3.0. -/
def outdatedSource : List Char := "Aged.resource_version: 3.0\n".toList

/-- The environment `sampleEnv` in which `rename` fails. -/
def renameFailEnv (old source : Option (List Char)) : Env :=
  { sampleEnv old source with renameOk := false }

/-- A resource database that holds the geometry of the main window only. -/
def sampleDatabase : XrmDatabase :=
  fun n => if n = "Aged.geometry".toList then some (XtRString, "100x200+-5+7".toList) else none

/-- The part of the settings file that WriteSettings copies: the strings read that
precede the first one equal to the auto string, and a blank line if none is. -/
def userPart (lines : List (List Char)) : List Char :=
  (lines.takeWhile fun l => l != kAutoStr).flatten ++ (if kAutoStr ∈ lines then [] else ['\n'])

/-- The writer `w2` continues the writer `w1`: what `w1` has written is kept, and a write
error of `w1` stays. -/
def Writer.Continues (w1 w2 : Writer) : Prop :=
  w1.data <+: w2.data ∧ (w2.write_err = false → w1.write_err = false)

/-- What a successful WritePaddedLabel writes: the label and its tabs. -/
def paddedLabel (object_name res_name : List Char) : List Char :=
  labelText object_name res_name ++
    List.replicate (max 1 (4 - ((labelText object_name res_name).length : Int) / 8)).toNat '\t'

/-- What a successful WriteGeoProc writes for an entry of the database. -/
def geometryText (childWindows : Bool) (entry : DbEntry) : List Char :=
  if 2 ≤ entry.quarks.length ∧ entry.quarks.getLast? = some "geometry".toList then
    if (if childWindows then entry.quarks.headD [] = "aged".toList
        else entry.quarks.headD [] ≠ "Aged".toList) then
      paddedLabel (List.intercalate ['.'] (entry.quarks.take (entry.quarks.length - 1)))
          "geometry".toList ++
        (if entry.type = XtRString then entry.value ++ ['\n'] else [])
    else []
  else []

/-- What WriteSettings writes for a resource when its writes succeed: label, tabs, value
and newline. -/
def resourceText (e : SaveEnv) (res : AgedResource) (r : XtResource) : List Char :=
  paddedLabel aged_class r.resource_name ++ resourceValue e res r

/-- The line of save_config that WriteSettings writes when it does not save the
configuration. -/
def saveConfigText (save_config : Int) : List Char :=
  paddedLabel aged_class "save_config".toList ++ (fmtInt save_config ++ ['\n'])

/-- What the copy of the old configuration writes for a string read from the old file. -/
def configText (save_config : Int) (buff : List Char) : List Char :=
  if (strstr buff ".save_config:".toList).isSome then saveConfigText save_config else buff

/-- Whether a member of the resource structure lies in the colour sets. -/
def Field.inColset : Field → Bool
  | .colset set _ => decide (set < 2)
  | .member _ => false

/-- Resource values: the label format is `format`, save_config is `save_config`, other
strings are `aged`, other numbers 7 and 2.5. -/
def sampleResource (format : List Char) (save_config : Int) : AgedResource :=
  { strings := fun f => if f = .member "label_format_pt" then format else "aged".toList
    ints := fun f => if f = .member "save_config" then save_config else 7
    floats := fun _ => 5 / 2 }

/-- The environment of WriteSettings with the default settings file name and the home
directory `sampleHome`, in which the settings file is as given, save_config of the file
is `inFile`, and every operation succeeds. -/
def sampleSaveEnv (old : Option (List Char)) (inFile : Int) : SaveEnv :=
  { sSettingsFilename := defaultSettingsFilename
    home := some sampleHome
    fs := fun p => if p = samplePath then old else none
    sResourceFileSaveConfig := inFile
    tempOk := true
    writeOk := fun _ => true
    renameOk := true
    database := [⟨["Event Display".toList, "geometry".toList], XtRString, "100x200+5+7".toList⟩]
    sColours := fun n => ⟨n, 65535, 4660, 256 * n⟩
    antiAlias := false
    childWindows := false
    NUM_COLOURS := 25
    colourNumber := fun _ => 3 }

/-- The environment `sampleSaveEnv` in which the n-th write to the temporary file
fails. -/
def writeFailEnv (old : Option (List Char)) (inFile : Int) (n : Nat) : SaveEnv :=
  { sampleSaveEnv old inFile with writeOk := fun k => !(k == n) }

/-- A settings file without marker line: a setting, a comment line of 255 exclamation
marks that ends with the text of the auto string, and another setting. -/
def longUserSettings : List Char :=
  "Aged*X: 1\n".toList ++ List.replicate 255 '!' ++ kAutoStr ++ "Aged*Y: 2\n".toList

/-- A settings file whose automatic section records save_config as 1. -/
def savingSettings : List Char :=
  "Aged*X: 1\n".toList ++ kAutoStr ++ "Aged.save_config:\t\t1\nAged.smooth:\t\t\t3\n".toList

/-- A settings file whose automatic section records save_config as 0. -/
def notSavingSettings : List Char :=
  "Aged*X: 1\n".toList ++ kAutoStr ++ "Aged.save_config:\t\t0\nAged.smooth:\t\t\t3\n".toList

/-- A settings file whose automatic section records save_config as 10. -/
def savingTenSettings : List Char :=
  "Aged*X: 1\n".toList ++ kAutoStr ++ "Aged.save_config:\t\t10\nAged.smooth:\t\t\t3\n".toList

/-- A settings file whose automatic section has a line of 269 characters that holds
`.save_config:`, cut by the buffer after `.save_config: 1` and before `0 is off`. -/
def longSaveConfigSettings : List Char :=
  kAutoStr ++ List.replicate 236 ' ' ++ "Aged.save_config: 1\t!0 is off\n".toList

/-- Header constants for the samples: twelve colours, the scale colours from 3 to 9. -/
def sampleConsts : ColourConsts :=
  { NUM_COLOURS := 12
    SCALE_UNDER := 3
    SCALE_OVER := 9
    VDARK_COL := 1
    FRAME_COL := 0
    kGreyscale := 2
    kWhiteBkg := 1
    kMessageResourceColoursChanged := 77
    GREYSCALE_INTENSITY := false }

/-- A server without colour cells to give: every other call succeeds, the colour of the
pixel `p` has the channels `257 * p`, `2 * p` and `p`, and the pixel allocated by the call
number `n` is `1000 + n`. -/
def sampleServer : XServer :=
  { XtMalloc := fun _ => true
    XAllocColorCells := fun _ => none
    XQueryColors := fun _ p => ⟨p, 257 * p, 2 * p, p⟩
    XAllocColor := fun n r g b => some ⟨1000 + n, r, g, b⟩
    newColours := fun _ => true
    newFlags := fun _ => true }

/-- The colours before they are allocated: colour set 0 with the pixels 100 to 111 and
111 to 100, five scale colours and three detector colours. -/
def sampleColours : ColourState :=
  { image_col := 0
    num_cols := 5
    det_cols := 3
    colour := (List.range 12).map fun i => 100 + i
    colset := (List.range 12).map (fun i => 100 + i) ++ (List.range 12).map (fun i => 111 - i)
    scale_col := none
    det_col := none
    sAllocFlags := List.replicate 20 0
    sColours := (List.range 12).map (fun i => ⟨100 + i, 257 * i, 514 * i, 0⟩) ++
      (List.range 12).map (fun i => ⟨111 - i, 0, 257 * i, 514 * i⟩)
    calls := [] }

/-- The red, green and blue values of a colour. -/
def XColor.rgb (c : XColor) : Nat × Nat × Nat := (c.red, c.green, c.blue)

/-- The colours of `sampleColours` after an allocation in which the scale colour 2 could
not be allocated: the scale colours have the pixels 200 to 205, the detector colours the
pixels 300 to 302. -/
def allocatedColours : ColourState :=
  { sampleColours with
    scale_col := some [200, 201, 202, 203, 204, 205]
    det_col := some [300, 301, 302]
    sAllocFlags := List.replicate 12 0 ++ [1, 1, 0, 1, 1] ++ [1, 1, 1] }

/-- A server as `sampleServer` on which every pixel is white: its red, green and blue are
65535. -/
def whiteServer : XServer :=
  { sampleServer with XQueryColors := fun _ p => ⟨p, 65535, 65535, 65535⟩ }

/-- Whether a call is a message sent through the speaker. -/
def XCall.isSpeak : XCall → Bool
  | .Speak _ => true
  | _ => false

/-! ## Reading a file string by string -/

theorem readLine_prefix (k : Nat) (s : List Char) :
    readLine k s ++ s.drop (readLine k s).length = s := by
  induction k generalizing s with
  | zero => simp [readLine]
  | succ k ih =>
    cases s with
    | nil => simp [readLine]
    | cons c cs =>
      by_cases h : c = '\n'
      · simp [readLine, h]
      · simp [readLine, h, ih]

theorem readLine_length_pos (k : Nat) (s : List Char) (hs : s ≠ []) :
    0 < (readLine (k + 1) s).length := by
  cases s with
  | nil => exact absurd rfl hs
  | cons c cs =>
    by_cases h : c = '\n'
    · simp [readLine, h]
    · simp [readLine, h]

theorem fgets_nil : fgets kBuffSize [] = none := rfl

theorem fgets_cons (c : Char) (cs : List Char) :
    fgets kBuffSize (c :: cs) =
      some (readLine 255 (c :: cs), (c :: cs).drop (readLine 255 (c :: cs)).length) := rfl

theorem fgets_rest_length (c : Char) (cs : List Char) :
    ((c :: cs).drop (readLine 255 (c :: cs)).length).length ≤ cs.length := by
  have hpos : 0 < (readLine 255 (c :: cs)).length :=
    readLine_length_pos 254 (c :: cs) (by simp)
  simp only [List.length_drop, List.length_cons]
  omega

theorem readLines_flatten (fuel : Nat) (s : List Char) (h : s.length ≤ fuel) :
    (readLines fuel s).flatten = s := by
  induction fuel generalizing s with
  | zero =>
    have : s = [] := List.length_eq_zero.mp (Nat.le_zero.mp h)
    simp [readLines, this]
  | succ fuel ih =>
    cases s with
    | nil => simp [readLines, fgets_nil]
    | cons c cs =>
      simp only [readLines, fgets_cons, List.flatten_cons]
      rw [ih]
      · exact readLine_prefix 255 (c :: cs)
      · have := fgets_rest_length c cs
        simp only [List.length_cons] at h
        omega

theorem fileLines_flatten (s : List Char) : (fileLines s).flatten = s :=
  readLines_flatten _ _ (le_refl _)

theorem readLines_fuel (f1 f2 : Nat) (s : List Char) (h1 : s.length ≤ f1) (h2 : s.length ≤ f2) :
    readLines f1 s = readLines f2 s := by
  induction f1 generalizing f2 s with
  | zero =>
    have : s = [] := List.length_eq_zero.mp (Nat.le_zero.mp h1)
    subst this
    cases f2 <;> simp [readLines, fgets_nil]
  | succ f1 ih =>
    cases s with
    | nil => cases f2 <;> simp [readLines, fgets_nil]
    | cons c cs =>
      cases f2 with
      | zero => simp at h2
      | succ f2 =>
        have := fgets_rest_length c cs
        simp only [List.length_cons] at h1 h2
        simp only [readLines, fgets_cons]
        congr 1
        apply ih <;> omega

theorem fileLines_nil : fileLines [] = [] := rfl

theorem fileLines_cons (c : Char) (cs : List Char) :
    fileLines (c :: cs) =
      readLine 255 (c :: cs) :: fileLines ((c :: cs).drop (readLine 255 (c :: cs)).length) := by
  have := fgets_rest_length c cs
  simp only [fileLines, List.length_cons, readLines, fgets_cons]
  congr 1
  apply readLines_fuel <;> omega

/-! ## VerifySettingsFile -/

theorem fputs_ok_data (ok : Nat → Bool) (hok : ∀ n, ok n = true) (s : List Char) (w : Writer) :
    (w.fputs ok s).data = w.data ++ s ∧ (w.fputs ok s).write_err = w.write_err := by
  simp [Writer.fputs, hok]

theorem copySource_ok (ok : Nat → Bool) (hok : ∀ n, ok n = true) (ls : List (List Char))
    (w : Writer) :
    (copySource ok ls w).data = w.data ++ ls.flatten ∧
      (copySource ok ls w).write_err = w.write_err := by
  induction ls generalizing w with
  | nil => simp [copySource]
  | cons l ls ih =>
    have h := fputs_ok_data ok hok l w
    simp only [copySource, hok, if_true, List.flatten_cons]
    rw [(ih _).1, (ih _).2, h.1, h.2]
    simp

theorem copyOld_ok (ok : Nat → Bool) (hok : ∀ n, ok n = true) (ls : List (List Char))
    (w : Writer) :
    (copyOld ok ls w).data = w.data ++ ls.flatten ∧
      (copyOld ok ls w).write_err = w.write_err := by
  induction ls generalizing w with
  | nil => simp [copyOld]
  | cons l ls ih =>
    have h := fputs_ok_data ok hok l w
    simp only [copyOld, List.flatten_cons]
    rw [(ih _).1, (ih _).2, h.1, h.2]
    simp

theorem findAutoStr_append (pre rest : List (List Char)) (hpre : kAutoStr ∉ pre) :
    findAutoStr (pre ++ kAutoStr :: rest) = some rest := by
  induction pre with
  | nil => simp [findAutoStr]
  | cons l ls ih =>
    simp only [List.mem_cons, not_or] at hpre
    have hne : l ≠ kAutoStr := fun h => hpre.1 h.symm
    simp [findAutoStr, hne, ih hpre.2]

theorem findAutoStr_none (ls : List (List Char)) (h : kAutoStr ∉ ls) :
    findAutoStr ls = none := by
  induction ls with
  | nil => rfl
  | cons l ls ih =>
    simp only [List.mem_cons, not_or] at h
    have hne : l ≠ kAutoStr := fun e => h.1 e.symm
    simp [findAutoStr, hne, ih h.2]

theorem FS.set_same (fs : FS) (p : List Char) (v : Option (List Char)) : (fs.set p v) p = v := by
  simp [FS.set]

theorem FS.set_other (fs : FS) (p q : List Char) (v : Option (List Char)) (h : q ≠ p) :
    (fs.set p v) q = fs q := by
  simp [FS.set, h]

theorem backup_ne (p : List Char) : p ++ ['~'] ≠ p := by
  intro h
  have := congrArg List.length h
  simp at this


theorem version_good (v : CFloat) (h : v ≥ MINIMUM_RESOURCE_VERSION) :
    v > MINIMUM_RESOURCE_VERSION - 1 / 1000000 := by
  have ht : (MINIMUM_RESOURCE_VERSION - 1 / 1000000 : CFloat) =
      .finite (3940648548049277 / 1125899906842624) := by decide!
  have hm : MINIMUM_RESOURCE_VERSION = .finite (7 / 2) := by decide!
  rw [ht]
  rw [hm] at h
  cases v with
  | finite q =>
    have hq : (7 / 2 : ℚ) ≤ q := of_decide_eq_true h
    show decide ((3940648548049277 / 1125899906842624 : ℚ) < q) = true
    apply decide_eq_true
    have : (3940648548049277 / 1125899906842624 : ℚ) < 7 / 2 := by norm_num
    exact lt_of_lt_of_le this hq
  | infinity negative =>
    cases negative
    · rfl
    · cases h
  | nan => cases h

theorem getSettings_ne_zero (e : Env) (p : List Char)
    (hp : GetSettingsFilename e.sSettingsFilename e.home [] = (1, p)) :
    VerifySettingsFile e =
      match e.fs p with
      | some oldData =>
        if scanVersion (fileLines oldData) > MINIMUM_RESOURCE_VERSION - 1 / 1000000 then
          ⟨1, e.fs, [Op.fopenRead p]⟩
        else updateSettings e p (some oldData) (scanVersion (fileLines oldData)) [Op.fopenRead p]
      | none => updateSettings e p none 0 [Op.fopenRead p] := by
  simp only [VerifySettingsFile, hp]
  rfl

/-- C2 (amended).  If the settings file exists and the first of the strings read from it
by `fgets` (its lines, a line of more than 255 characters being read in pieces of 255
characters) that yields a non-zero resource version has a version of at least 3.5, then
VerifySettingsFile returns 1 and does nothing else: its only library call on files is
the `fopen` that read the settings file, and the file system is unchanged. -/
theorem C2_good_settings_file_untouched (e : Env) (p old : List Char)
    (hp : GetSettingsFilename e.sSettingsFilename e.home [] = (1, p))
    (hold : e.fs p = some old)
    (hv : scanVersion (fileLines old) ≥ MINIMUM_RESOURCE_VERSION) :
    (VerifySettingsFile e).ret = 1 ∧ (VerifySettingsFile e).fs = e.fs ∧
      (VerifySettingsFile e).trace = [Op.fopenRead p] := by
  have hgt : scanVersion (fileLines old) > MINIMUM_RESOURCE_VERSION - 1 / 1000000 :=
    version_good _ hv
  rw [getSettings_ne_zero e p hp, hold]
  simp only [if_pos hgt, and_self]

theorem createSettings_none (e : Env) (p src : List Char) (v : CFloat) (fs : FS)
    (t : List Op)
    (hcr : e.createOk = true) (hput : ∀ n, e.fputsOk n = true) :
    (createSettings e p src v none fs t).ret = 1 ∧
      (createSettings e p src v none fs t).fs = fs.set p (some src) := by
  have h := copySource_ok e.fputsOk hput (fileLines src) ⟨[], 0, false, []⟩
  simp only [List.nil_append, fileLines_flatten] at h
  simp only [createSettings, hcr, if_true, h.2, h.1, Bool.false_eq_true, if_false, and_self]

theorem createSettings_some (e : Env) (p src : List Char) (v : CFloat)
    (lines : List (List Char))
    (fs : FS) (t : List Op)
    (hcr : e.createOk = true) (hput : ∀ n, e.fputsOk n = true)
    (h32 : ¬ CFloat.fabs (v - 32 / 10) < 1 / 1000000) :
    (createSettings e p src v (some lines) fs t).ret = 1 ∧
      (createSettings e p src v (some lines) fs t).fs =
        fs.set p (some (src ++ '\n' :: kAutoStr ++ lines.flatten)) := by
  have h := copySource_ok e.fputsOk hput (fileLines src) ⟨[], 0, false, []⟩
  simp only [List.nil_append, fileLines_flatten] at h
  have h1 := fputs_ok_data e.fputsOk hput ['\n'] (copySource e.fputsOk (fileLines src) ⟨[], 0, false, []⟩)
  have h2 := fputs_ok_data e.fputsOk hput kAutoStr
    ((copySource e.fputsOk (fileLines src) ⟨[], 0, false, []⟩).fputs e.fputsOk ['\n'])
  have h3 := copyOld_ok e.fputsOk hput lines
    (((copySource e.fputsOk (fileLines src) ⟨[], 0, false, []⟩).fputs e.fputsOk ['\n']).fputs
      e.fputsOk kAutoStr)
  rw [h2.1, h2.2, h1.1, h1.2, h.1, h.2] at h3
  simp only [createSettings, hcr, if_true, if_neg h32, h3.2, h3.1, Bool.false_eq_true, if_false,
    true_and]
  simp

/-- C3 (amended).  When VerifySettingsFile updates an out-of-date settings file whose
resource version is not 3.2, the strings read from it by `fgets` (its lines, a line of more
than 255 characters being read in pieces of 255 characters) are `pre`, then the auto
string, then `rest`, with no auto string in `pre`, Aged.resource is valid and every file
operation succeeds, then it returns 1, the old contents are stored unchanged under the
settings path followed by `~`, and the new settings file is exactly the contents of
Aged.resource, a newline, the auto string and the strings `rest` in order: all that
followed the first auto string read from the old file. -/
theorem C3_update_keeps_lines_below_marker (e : Env) (p old src buff rest0 : List Char)
    (pre rest : List (List Char))
    (hp : GetSettingsFilename e.sSettingsFilename e.home [] = (1, p))
    (hold : e.fs p = some old)
    (hout : ¬ scanVersion (fileLines old) > MINIMUM_RESOURCE_VERSION - 1 / 1000000)
    (h32 : ¬ CFloat.fabs (scanVersion (fileLines old) - 32 / 10) < 1 / 1000000)
    (hmark : fileLines old = pre ++ kAutoStr :: rest) (hpre : kAutoStr ∉ pre)
    (hsrc : e.source = some src)
    (hfirst : fgets kBuffSize src = some (buff, rest0))
    (hvalid : ¬ ReadResourceVersion buff < MINIMUM_RESOURCE_VERSION - 1 / 1000000)
    (hren : e.renameOk = true) (hre : e.reopenOk = true) (hcr : e.createOk = true)
    (hput : ∀ n, e.fputsOk n = true) :
    (VerifySettingsFile e).ret = 1 ∧
      (VerifySettingsFile e).fs (p ++ ['~']) = some old ∧
      (VerifySettingsFile e).fs p = some (src ++ '\n' :: kAutoStr ++ rest.flatten) ∧
      old = pre.flatten ++ kAutoStr ++ rest.flatten := by
  have hfind : findAutoStr (fileLines old) = some rest := by
    rw [hmark]; exact findAutoStr_append pre rest hpre
  rw [getSettings_ne_zero e p hp, hold]
  simp only [if_neg hout, updateSettings, hsrc, hfirst, if_neg hvalid, hren, hre, if_true, hfind]
  have h := createSettings_some e p src (scanVersion (fileLines old)) rest
    (e.fs.rename p (p ++ ['~']))
    ([Op.fopenRead p] ++ [Op.openFile "Aged.resource".toList] ++ [Op.rename p (p ++ ['~'])] ++
      [Op.fopenRead (p ++ ['~'])]) hcr hput h32
  refine ⟨h.1, ?_, ?_, ?_⟩
  · rw [h.2, FS.set_other _ _ _ _ (backup_ne p)]
    simp [FS.rename, FS.set, hold]
  · rw [h.2, FS.set_same]
  · have hfl := fileLines_flatten old
    rw [hmark] at hfl
    simp only [List.flatten_append, List.flatten_cons] at hfl
    rw [← hfl, List.append_assoc]

/-- C6 (amended).  When no settings file exists, or an out-of-date one is renamed and none
of the strings read from it by `fgets` (its lines, a line of more than 255 characters being
read in pieces of 255 characters) is the auto string, and Aged.resource is valid, the
settings file can be created and all writes succeed, then VerifySettingsFile returns 1
and the settings file written has exactly the contents of Aged.resource. -/
theorem C6_new_settings_are_the_source (e : Env) (p src buff rest0 : List Char)
    (hp : GetSettingsFilename e.sSettingsFilename e.home [] = (1, p))
    (hold : e.fs p = none ∨
      ∃ old, e.fs p = some old ∧
        ¬ scanVersion (fileLines old) > MINIMUM_RESOURCE_VERSION - 1 / 1000000 ∧
        kAutoStr ∉ fileLines old ∧ e.renameOk = true)
    (hsrc : e.source = some src)
    (hfirst : fgets kBuffSize src = some (buff, rest0))
    (hvalid : ¬ ReadResourceVersion buff < MINIMUM_RESOURCE_VERSION - 1 / 1000000)
    (hcr : e.createOk = true) (hput : ∀ n, e.fputsOk n = true) :
    (VerifySettingsFile e).ret = 1 ∧ (VerifySettingsFile e).fs p = some src := by
  rw [getSettings_ne_zero e p hp]
  rcases hold with hnone | ⟨old, hold, hout, hno, hren⟩
  · rw [hnone]
    simp only [updateSettings, hsrc, hfirst, if_neg hvalid]
    have h := createSettings_none e p src 0 e.fs
      ([Op.fopenRead p] ++ [Op.openFile "Aged.resource".toList]) hcr hput
    exact ⟨h.1, by rw [h.2, FS.set_same]⟩
  · rw [hold]
    have hfind : (if e.reopenOk = true then findAutoStr (fileLines old) else none) = none := by
      rw [findAutoStr_none _ hno]; simp
    simp only [if_neg hout, updateSettings, hsrc, hfirst, if_neg hvalid, hren, if_true, hfind]
    have h := createSettings_none e p src (scanVersion (fileLines old))
      (e.fs.rename p (p ++ ['~']))
      ([Op.fopenRead p] ++ [Op.openFile "Aged.resource".toList] ++ [Op.rename p (p ++ ['~'])] ++
        [Op.fopenRead (p ++ ['~'])]) hcr hput
    exact ⟨h.1, by rw [h.2, FS.set_same]⟩

/-! ## Strings and numerals -/

theorem strstr_cons (c : Char) (cs needle : List Char) :
    strstr (c :: cs) needle =
      if needle.isPrefixOf (c :: cs) then some 0 else (strstr cs needle).map (· + 1) := rfl

theorem strstr_none (hay needle : List Char) (h : ¬ needle <:+: hay) :
    strstr hay needle = none := by
  induction hay with
  | nil =>
    have hne : needle ≠ [] := fun e => h (e ▸ List.infix_refl _)
    cases needle with
    | nil => exact absurd rfl hne
    | cons a l => simp [strstr]
  | cons c cs ih =>
    have h1 : ¬ needle <+: c :: cs := fun hp => h hp.isInfix
    have h2 : ¬ needle <:+: cs := fun hi => h (hi.trans (List.suffix_cons c cs).isInfix)
    have h3 : needle.isPrefixOf (c :: cs) = false := by
      rw [Bool.eq_false_iff]
      intro e
      exact h1 (List.isPrefixOf_iff_prefix.mp e)
    rw [strstr_cons, h3, ih h2]
    rfl

theorem strstr_first (pre needle tail : List Char) (hne : needle ≠ [])
    (h : ¬ needle <:+: pre ++ needle.dropLast) :
    strstr (pre ++ needle ++ tail) needle = some pre.length := by
  induction pre with
  | nil =>
    cases needle with
    | nil => exact absurd rfl hne
    | cons a l =>
      have : (a :: l).isPrefixOf (a :: (l ++ tail)) = true :=
        List.isPrefixOf_iff_prefix.mpr ⟨tail, rfl⟩
      show strstr (a :: (l ++ tail)) (a :: l) = some 0
      rw [strstr_cons, this]
      rfl
  | cons c pre ih =>
    have h2 : ¬ needle <:+: pre ++ needle.dropLast := fun hi =>
      h (hi.trans (List.suffix_cons c _).isInfix)
    have h3 : needle.isPrefixOf (c :: (pre ++ needle ++ tail)) = false := by
      rw [Bool.eq_false_iff]
      intro e
      have hp : needle <+: c :: (pre ++ needle ++ tail) := List.isPrefixOf_iff_prefix.mp e
      have hq : (c :: pre) ++ needle.dropLast <+: c :: (pre ++ needle ++ tail) := by
        have hs : needle = needle.dropLast ++ [needle.getLast hne] :=
          (List.dropLast_append_getLast hne).symm
        refine ⟨[needle.getLast hne] ++ tail, ?_⟩
        conv_rhs => rw [hs]
        simp
      have hlen : needle.length ≤ ((c :: pre) ++ needle.dropLast).length := by
        simp only [List.length_append, List.length_cons, List.length_dropLast]
        have : 0 < needle.length := List.length_pos.mpr hne
        omega
      exact h (List.prefix_of_prefix_length_le hp hq hlen).isInfix
    show strstr (c :: (pre ++ needle ++ tail)) needle = some (pre.length + 1)
    rw [strstr_cons, h3, ih h2]
    rfl

theorem while_append (p : Char → Bool) (a b : List Char) (ha : ∀ c ∈ a, p c = true)
    (hb : ∀ c t, b = c :: t → p c = false) :
    (a ++ b).dropWhile p = b ∧ (a ++ b).takeWhile p = a := by
  induction a with
  | nil =>
    cases b with
    | nil => simp
    | cons c t => simp [List.dropWhile_cons, List.takeWhile_cons, hb c t rfl]
  | cons x xs ih =>
    have hx := ha x (List.mem_cons_self _ _)
    have := ih (fun c hc => ha c (List.mem_cons_of_mem _ hc))
    simp [List.dropWhile_cons, List.takeWhile_cons, hx, this.1, this.2]

theorem strtok_none (ws : List Char) (h : ∀ c ∈ ws, c = ' ' ∨ c = '\t' ∨ c = '\r' ∨ c = '\n') :
    strtok ws [' ', '\t', '\n', '\r'] = none := by
  have h0 := while_append (fun c => [' ', '\t', '\n', '\r'].contains c) ws []
    (by
      intro c hc
      rcases h c hc with e | e | e | e <;> subst e <;> decide)
    (by intro c t e; cases e)
  rw [List.append_nil] at h0
  simp only [strtok, h0.1, List.isEmpty_nil, if_true]

theorem strtok_token (blanks tok rest : List Char)
    (hb : ∀ c ∈ blanks, c = ' ' ∨ c = '\t')
    (ht : ∀ c ∈ tok, [' ', '\t', '\n', '\r'].contains c = false) (hne : tok ≠ [])
    (hr : ∀ c t, rest = c :: t → c = ' ' ∨ c = '\t' ∨ c = '\n' ∨ c = '\r') :
    strtok (blanks ++ (tok ++ rest)) [' ', '\t', '\n', '\r'] = some tok := by
  have h1 := while_append (fun c => [' ', '\t', '\n', '\r'].contains c) blanks (tok ++ rest)
    (by
      intro c hc
      rcases hb c hc with e | e <;> subst e <;> decide)
    (by
      intro c t e
      cases tok with
      | nil => exact absurd rfl hne
      | cons a l =>
        simp only [List.cons_append, List.cons.injEq] at e
        exact e.1 ▸ ht a (List.mem_cons_self _ _))
  have h2 := while_append (fun c => !([' ', '\t', '\n', '\r'].contains c)) tok rest
    (by intro c hc; simp only [ht c hc, Bool.not_false])
    (by
      intro c t e
      rcases hr c t e with e | e | e | e <;> subst e <;> decide)
  cases tok with
  | nil => exact absurd rfl hne
  | cons a l =>
    simp only [strtok, h1.1, h2.2]
    rfl

theorem isdigit_bounds (c : Char) (h : isdigit c = true) : 48 ≤ c.toNat ∧ c.toNat ≤ 57 := by
  simp only [isdigit, Bool.and_eq_true, decide_eq_true_eq] at h
  exact ⟨h.1, h.2⟩

theorem isdigit_not_special (c : Char) (h : isdigit c = true) :
    isspace c = false ∧ c ≠ '-' ∧ c ≠ '+' ∧ c ≠ '.' ∧
      [' ', '\t', '\n', '\r'].contains c = false := by
  have hb := isdigit_bounds c h
  have hne : ∀ d : Char, (d.toNat < 48 ∨ 57 < d.toNat) → c ≠ d := by
    intro d hd e
    subst e
    omega
  have h1 := hne ' ' (by decide)
  have h2 := hne '\t' (by decide)
  have h3 := hne '\n' (by decide)
  have h4 := hne '\x0b' (by decide)
  have h5 := hne '\x0c' (by decide)
  have h6 := hne '\r' (by decide)
  refine ⟨?_, hne _ (by decide), hne _ (by decide), hne _ (by decide), ?_⟩
  · simp [isspace, h1, h2, h3, h4, h5, h6]
  · simp [h1, h2, h3, h6]

theorem takeSign_digit (c : Char) (t : List Char) (h : isdigit c = true) :
    takeSign (c :: t) = (false, c :: t) := by
  have hs := isdigit_not_special c h
  unfold takeSign
  split
  · rename_i e; cases e; exact absurd rfl hs.2.1
  · rename_i e; cases e; exact absurd rfl hs.2.2.1
  · rfl

theorem digitsVal_append (a b : List Char) :
    digitsVal (a ++ b) = digitsVal a * 10 ^ b.length + digitsVal b := by
  induction b using List.reverseRecOn with
  | nil => simp [digitsVal]
  | append_singleton l c ih =>
    have e1 : digitsVal (a ++ (l ++ [c])) = digitsVal (a ++ l) * 10 + digitVal c := by
      simp [digitsVal, List.foldl_append]
    have e2 : digitsVal (l ++ [c]) = digitsVal l * 10 + digitVal c := by
      simp [digitsVal, List.foldl_append]
    rw [e1, e2, ih]
    simp only [List.length_append, List.length_singleton, pow_succ]
    ring

theorem scale10_neg (m n : Nat) : scale10 m (0 - (n : Int)) = (m : ℚ) / (10 : ℚ) ^ n := by
  unfold scale10
  by_cases h : n = 0
  · subst h; simp
  · have : ¬ (0 : Int) ≤ 0 - (n : Int) := by omega
    rw [if_neg this]
    have e : (-(0 - (n : Int))).toNat = n := by omega
    rw [e]
    push_cast
    rfl

theorem digit_ne (a d : Char) (ha : isdigit a = true) (hd : d.toNat < 48 ∨ 57 < d.toNat) :
    (a == d) = false := by
  have hb := isdigit_bounds a ha
  rw [beq_eq_false_iff_ne]
  intro e
  subst e
  omega

theorem startsNoCase_digit (w : Char) (ws : List Char) (a : Char) (t : List Char)
    (ha : isdigit a = true) (hw : w.toNat < 48 ∨ 57 < w.toNat)
    (hu : w.toUpper.toNat < 48 ∨ 57 < w.toUpper.toNat) :
    startsNoCase (w :: ws) (a :: t) = false := by
  unfold startsNoCase
  rw [digit_ne a w ha hw, digit_ne a w.toUpper ha hu]
  rfl

theorem hexNumeral_none (s : List Char)
    (h : ∀ x t, s = '0' :: x :: t → (x == 'x') = false ∧ (x == 'X') = false) :
    hexNumeral s = none := by
  unfold hexNumeral
  split
  · rename_i x t
    rw [(h x t rfl).1, (h x t rfl).2]
    rfl
  · rfl

theorem hexNumeral_digits (a : Char) (l rest : List Char)
    (hl : ∀ c ∈ l, isdigit c = true)
    (hr : ∀ c t, rest = c :: t → c = '.') :
    hexNumeral (a :: (l ++ rest)) = none := by
  apply hexNumeral_none
  intro x t e
  have e2 : l ++ rest = x :: t := (List.cons.inj e).2
  cases l with
  | nil =>
    have := hr x t e2
    subst this
    exact ⟨by decide, by decide⟩
  | cons b l2 =>
    have hb : b = x := (List.cons.inj e2).1
    subst hb
    have hd := hl b (List.mem_cons_self _ _)
    exact ⟨digit_ne b 'x' hd (by decide), digit_ne b 'X' hd (by decide)⟩

theorem decimalNumeral_frac (ip fp : List Char) (hne : ip ≠ [])
    (hip : ∀ c ∈ ip, isdigit c = true) (hfp : ∀ c ∈ fp, isdigit c = true) :
    decimalNumeral (ip ++ '.' :: fp) =
      (digitsVal ip : ℚ) + (digitsVal fp : ℚ) / (10 : ℚ) ^ fp.length := by
  cases ip with
  | nil => exact absurd rfl hne
  | cons a l =>
    have h2 := while_append isdigit (a :: l) ('.' :: fp) hip
      (by intro c t e; cases e; decide)
    have h3 := while_append isdigit fp [] hfp (by intro c t e; cases e)
    rw [List.append_nil] at h3
    simp only [List.cons_append] at h2
    simp only [decimalNumeral, List.cons_append, h2.1, h2.2, h3.1, h3.2, List.isEmpty_cons,
      Bool.false_and, Bool.false_eq_true, if_false, exponent, digitsVal_append, scale10_neg]
    have : ((10 : ℚ) ^ fp.length) ≠ 0 := by positivity
    field_simp
    rw [show a :: (l ++ fp) = (a :: l) ++ fp from rfl, digitsVal_append]
    push_cast
    ring

theorem decimalNumeral_int (ip : List Char) (hne : ip ≠ [])
    (hip : ∀ c ∈ ip, isdigit c = true) :
    decimalNumeral ip = (digitsVal ip : ℚ) := by
  cases ip with
  | nil => exact absurd rfl hne
  | cons a l =>
    have h2 := while_append isdigit (a :: l) [] hip (by intro c t e; cases e)
    rw [List.append_nil] at h2
    simp only [decimalNumeral, h2.1, h2.2, List.isEmpty_cons,
      Bool.false_and, Bool.false_eq_true, if_false, exponent, List.append_nil, List.length_nil]
    simp [scale10]

theorem atof_digit (a : Char) (l rest : List Char) (ha : isdigit a = true)
    (hl : ∀ c ∈ l, isdigit c = true) (hr : ∀ c t, rest = c :: t → c = '.') :
    atof (a :: (l ++ rest)) = CFloat.double (decimalNumeral (a :: (l ++ rest))) := by
  have hs := isdigit_not_special a ha
  have h1 : (a :: (l ++ rest)).dropWhile isspace = a :: (l ++ rest) := by
    simp [List.dropWhile_cons, hs.1]
  have hsign : takeSign (a :: (l ++ rest)) = (false, a :: (l ++ rest)) :=
    takeSign_digit a _ ha
  have hinf : startsNoCase "inf".toList (a :: (l ++ rest)) = false :=
    startsNoCase_digit _ _ a _ ha (by decide) (by decide)
  have hnan : startsNoCase "nan".toList (a :: (l ++ rest)) = false :=
    startsNoCase_digit _ _ a _ ha (by decide) (by decide)
  simp only [atof, h1, hsign, hinf, hnan, hexNumeral_digits a l rest hl hr,
    Bool.false_eq_true, if_false]

theorem atof_numeral_frac (ip fp : List Char) (hne : ip ≠ [])
    (hip : ∀ c ∈ ip, isdigit c = true) (hfp : ∀ c ∈ fp, isdigit c = true) :
    atof (ip ++ '.' :: fp) =
      CFloat.double ((digitsVal ip : ℚ) + (digitsVal fp : ℚ) / (10 : ℚ) ^ fp.length) := by
  rw [← decimalNumeral_frac ip fp hne hip hfp]
  cases ip with
  | nil => exact absurd rfl hne
  | cons a l =>
    exact atof_digit a l ('.' :: fp) (hip a (List.mem_cons_self _ _))
      (fun c hc => hip c (List.mem_cons_of_mem _ hc)) (by intro c t e; cases e; rfl)

theorem atof_numeral_int (ip : List Char) (hne : ip ≠ [])
    (hip : ∀ c ∈ ip, isdigit c = true) :
    atof ip = CFloat.double (digitsVal ip : ℚ) := by
  rw [← decimalNumeral_int ip hne hip]
  cases ip with
  | nil => exact absurd rfl hne
  | cons a l =>
    have := atof_digit a l [] (hip a (List.mem_cons_self _ _))
      (fun c hc => hip c (List.mem_cons_of_mem _ hc)) (by intro c t e; cases e)
    rw [List.append_nil] at this
    exact this

/-! ## The claims on sample inputs -/

/-- C1 (defect of the code).  A settings file of version 3.0 exists at the settings
path.  With an empty Aged.resource, and also with a valid Aged.resource when `rename`
fails, VerifySettingsFile returns 0 and the settings file is still there. -/
theorem C1_returns_zero_though_settings_file_exists :
    (GetSettingsFilename defaultSettingsFilename (some sampleHome) [] = (1, samplePath) ∧
      (sampleEnv (some outdatedSettings) (some [])).fs samplePath = some outdatedSettings ∧
      (VerifySettingsFile (sampleEnv (some outdatedSettings) (some []))).ret = 0 ∧
      (VerifySettingsFile (sampleEnv (some outdatedSettings) (some []))).fs samplePath =
        some outdatedSettings) ∧
    ((renameFailEnv (some outdatedSettings) (some sampleSource)).fs samplePath =
        some outdatedSettings ∧
      (VerifySettingsFile (renameFailEnv (some outdatedSettings) (some sampleSource))).ret = 0 ∧
      (VerifySettingsFile (renameFailEnv (some outdatedSettings) (some sampleSource))).fs
        samplePath = some outdatedSettings) := by
  decide!

/-- C2, counterexample.  The settings file `longVersionLine` has one line, which yields
resource version 3.5; yet VerifySettingsFile reads version 3 from its first 255
characters, opens the source file, renames the settings file and writes a new one. -/
theorem C2_long_line_counterexample :
    (sampleEnv (some longVersionLine) (some sampleSource)).fs samplePath =
        some longVersionLine ∧
      textLines longVersionLine = [longVersionLine] ∧
      ReadResourceVersion longVersionLine = 35 / 10 ∧
      scanVersion (textLines longVersionLine) ≥ MINIMUM_RESOURCE_VERSION ∧
      Op.openFile "Aged.resource".toList ∈
        (VerifySettingsFile (sampleEnv (some longVersionLine) (some sampleSource))).trace ∧
      Op.rename samplePath (samplePath ++ ['~']) ∈
        (VerifySettingsFile (sampleEnv (some longVersionLine) (some sampleSource))).trace ∧
      (VerifySettingsFile (sampleEnv (some longVersionLine) (some sampleSource))).fs samplePath =
        some sampleSource ∧
      (VerifySettingsFile (sampleEnv (some longVersionLine) (some sampleSource))).fs
        (samplePath ++ ['~']) = some longVersionLine := by
  decide!

/-- C2, witness: a settings file of version 3.5 is left alone. -/
theorem C2_good_settings_file_untouched_witness :
    (VerifySettingsFile (sampleEnv (some sampleSource) (some outdatedSource))).ret = 1 ∧
      (VerifySettingsFile (sampleEnv (some sampleSource) (some outdatedSource))).fs =
        (sampleEnv (some sampleSource) (some outdatedSource)).fs ∧
      (VerifySettingsFile (sampleEnv (some sampleSource) (some outdatedSource))).trace =
        [Op.fopenRead samplePath] :=
  C2_good_settings_file_untouched (sampleEnv (some sampleSource) (some outdatedSource))
    samplePath sampleSource (by decide!) (by decide!) (by decide!)

/-- C3, counterexample.  The out-of-date settings file `longMarkerSettings` has one line
equal to the auto string, followed by the line `Aged*Y: 2`; the new settings file also
holds the line `Aged*X: 1` and a second auto string, which precede that line in the old
file. -/
theorem C3_long_line_counterexample :
    kAutoStr ∈ textLines longMarkerSettings ∧
      findAutoStr (textLines longMarkerSettings) = some ["Aged*Y: 2\n".toList] ∧
      scanVersion (textLines longMarkerSettings) = CFloat.toFloat (34 / 10) ∧
      scanVersion (fileLines longMarkerSettings) = CFloat.toFloat (34 / 10) ∧
      (VerifySettingsFile (sampleEnv (some longMarkerSettings) (some sampleSource))).fs
          samplePath =
        some (sampleSource ++ '\n' :: kAutoStr ++ "Aged*X: 1\n".toList ++ kAutoStr ++
          "Aged*Y: 2\n".toList) ∧
      (VerifySettingsFile (sampleEnv (some longMarkerSettings) (some sampleSource))).fs
          samplePath ≠
        some (sampleSource ++ '\n' :: kAutoStr ++ "Aged*Y: 2\n".toList) := by
  decide!

/-- C3, witness: the settings saved below the auto string of `savedSettings` are kept. -/
theorem C3_update_keeps_lines_below_marker_witness :
    (VerifySettingsFile (sampleEnv (some savedSettings) (some sampleSource))).ret = 1 ∧
      (VerifySettingsFile (sampleEnv (some savedSettings) (some sampleSource))).fs
        (samplePath ++ ['~']) = some savedSettings ∧
      (VerifySettingsFile (sampleEnv (some savedSettings) (some sampleSource))).fs samplePath =
        some (sampleSource ++ '\n' :: kAutoStr ++
          ["Aged.geometry: 100x100+0+0\n".toList, "Aged*Y: 2\n".toList].flatten) ∧
      savedSettings = ["Aged.resource_version: 3.4\n".toList].flatten ++ kAutoStr ++
        ["Aged.geometry: 100x100+0+0\n".toList, "Aged*Y: 2\n".toList].flatten :=
  C3_update_keeps_lines_below_marker (sampleEnv (some savedSettings) (some sampleSource))
    samplePath savedSettings sampleSource "Aged.resource_version: 3.5\n".toList
    "Aged*background: Grey\n".toList ["Aged.resource_version: 3.4\n".toList]
    ["Aged.geometry: 100x100+0+0\n".toList, "Aged*Y: 2\n".toList]
    (by decide!) (by decide!) (by decide!) (by decide!) (by decide!) (by decide!) rfl
    (by decide!) (by decide!) rfl rfl rfl (fun _ => rfl)

/-- C4 (defect of the code).  The old settings file `settings32` has resource version 3.2,
read as the `float` 3.2, which is within 0.000001 of the `double` 3.2, and, below the auto
string, a line that starts with `aged.` and holds `geometry:` further along; the new
settings file holds that line unchanged, with its leading `aged.`. -/
theorem C4_geometry_line_not_translated :
    scanVersion (fileLines settings32) = CFloat.toFloat (32 / 10) ∧
      CFloat.fabs (scanVersion (fileLines settings32) - 32 / 10) < 1 / 1000000 ∧
      findAutoStr (fileLines settings32) =
        some ["aged.Event Display.geometry: 100x100+0+0\n".toList] ∧
      (VerifySettingsFile (sampleEnv (some settings32) (some sampleSource))).fs samplePath =
        some (sampleSource ++ '\n' :: kAutoStr ++
          "aged.Event Display.geometry: 100x100+0+0\n".toList) := by
  decide!

/-- C6, counterexample.  No line of the out-of-date settings file `longCommentSettings` is
the auto string, yet the settings file written is Aged.resource followed by a newline
and the auto string. -/
theorem C6_long_line_counterexample :
    kAutoStr ∉ textLines longCommentSettings ∧
      scanVersion (textLines longCommentSettings) = CFloat.toFloat (34 / 10) ∧
      (VerifySettingsFile (sampleEnv (some longCommentSettings) (some sampleSource))).fs
          samplePath = some (sampleSource ++ '\n' :: kAutoStr) ∧
      (VerifySettingsFile (sampleEnv (some longCommentSettings) (some sampleSource))).fs
          samplePath ≠ some sampleSource := by
  decide!

/-- C6, witness: an out-of-date settings file without auto string is replaced by the
source. -/
theorem C6_new_settings_are_the_source_witness :
    (VerifySettingsFile (sampleEnv (some outdatedSettings) (some sampleSource))).ret = 1 ∧
      (VerifySettingsFile (sampleEnv (some outdatedSettings) (some sampleSource))).fs
        samplePath = some sampleSource :=
  C6_new_settings_are_the_source (sampleEnv (some outdatedSettings) (some sampleSource))
    samplePath sampleSource "Aged.resource_version: 3.5\n".toList
    "Aged*background: Grey\n".toList (by decide!)
    (Or.inr ⟨outdatedSettings, by decide!, by decide!, by decide!, rfl⟩) rfl (by decide!)
    (by decide!) rfl (fun _ => rfl)

/-! ## ReadResourceVersion and the settings file name -/

theorem readResourceVersion_at (pre tail : List Char)
    (h : ¬ resource_label <:+: pre ++ resource_label.dropLast) :
    ReadResourceVersion (pre ++ resource_label ++ tail) =
      match strtok tail [' ', '\t', '\n', '\r'] with
      | some tok => (atof tok).toFloat
      | none => 0 := by
  have hs := strstr_first pre resource_label tail (by decide) h
  have hd : (pre ++ resource_label ++ tail).drop (pre.length + resource_label.length) = tail := by
    rw [← List.length_append]
    exact List.drop_left _ _
  simp only [ReadResourceVersion, hs, hd]

/-- C7 (amended).  ReadResourceVersion returns 0 for every line that does not contain the
text `resource_version:`, and for every line in which the first occurrence of that text
is followed only by spaces, tabs, carriage returns and newlines; for a line in which the
first occurrence of the label is followed by blanks and a decimal numeral (digits, or
digits, a point and digits) that ends the line or is followed by white space, it returns
the `float` that the `double` nearest to that numeral's value is converted to, whatever
text without the label precedes it. -/
theorem C7_read_resource_version :
    (∀ line : List Char, ¬ resource_label <:+: line → ReadResourceVersion line = 0) ∧
    (∀ pre ws : List Char, ¬ resource_label <:+: pre ++ resource_label.dropLast →
      (∀ c ∈ ws, c = ' ' ∨ c = '\t' ∨ c = '\r' ∨ c = '\n') →
      ReadResourceVersion (pre ++ resource_label ++ ws) = 0) ∧
    (∀ pre blanks ip fp rest : List Char,
      ¬ resource_label <:+: pre ++ resource_label.dropLast →
      (∀ c ∈ blanks, c = ' ' ∨ c = '\t') →
      ip ≠ [] → (∀ c ∈ ip, isdigit c = true) → (∀ c ∈ fp, isdigit c = true) →
      (∀ c t, rest = c :: t → c = ' ' ∨ c = '\t' ∨ c = '\n' ∨ c = '\r') →
      ReadResourceVersion (pre ++ resource_label ++ (blanks ++ (ip ++ rest))) =
          CFloat.toFloat (CFloat.double (digitsVal ip : ℚ)) ∧
        ReadResourceVersion (pre ++ resource_label ++ (blanks ++ ((ip ++ '.' :: fp) ++ rest))) =
          CFloat.toFloat
            (CFloat.double ((digitsVal ip : ℚ) + (digitsVal fp : ℚ) / (10 : ℚ) ^ fp.length))) := by
  refine ⟨?_, ?_, ?_⟩
  · intro line h
    simp only [ReadResourceVersion, strstr_none line resource_label h]
  · intro pre ws h hws
    rw [readResourceVersion_at pre ws h, strtok_none ws hws]
  · intro pre blanks ip fp rest h hb hne hip hfp hr
    constructor
    · rw [readResourceVersion_at pre _ h,
        strtok_token blanks ip rest hb (fun c hc => (isdigit_not_special c (hip c hc)).2.2.2.2)
          hne hr]
      exact congrArg CFloat.toFloat (atof_numeral_int ip hne hip)
    · have htok : ∀ c ∈ ip ++ '.' :: fp, [' ', '\t', '\n', '\r'].contains c = false := by
        intro c hc
        rcases List.mem_append.mp hc with h1 | h1
        · exact (isdigit_not_special c (hip c h1)).2.2.2.2
        · rcases List.mem_cons.mp h1 with h2 | h2
          · subst h2; decide
          · exact (isdigit_not_special c (hfp c h2)).2.2.2.2
      rw [readResourceVersion_at pre _ h,
        strtok_token blanks (ip ++ '.' :: fp) rest hb htok (by simp) hr]
      exact congrArg CFloat.toFloat (atof_numeral_frac ip fp hne hip hfp)

/-- C7, witness: the version line of a resource file; 3.5 is a `float`. -/
theorem C7_read_resource_version_witness :
    ReadResourceVersion "Aged.resource_version: 3.5\n".toList = 35 / 10 := by
  have h := (C7_read_resource_version.2.2 "Aged.".toList [' '] ['3'] ['5'] ['\n']
    (by decide!) (by decide) (by decide) (by decide) (by decide)
    (by intro c t e; cases e; decide)).2
  refine Eq.trans h ?_
  decide!

/-- C7, counterexample.  In the first line the label is followed by a blank and the
numeral 3.5, and the text before it holds the label too: the result is 0.  In the second
line the label is followed only by a newline, and the result is 3.5.  In the third line
the label is followed by a blank and the numeral 3.2: the result is the `float` nearest
to it, 13421773/4194304, which is not 3.2. -/
theorem C7_label_and_float_counterexample :
    ReadResourceVersion ("resource_version: ".toList ++ resource_label ++ " 3.5\n".toList) = 0 ∧
      ReadResourceVersion ("resource_version: 3.5 ".toList ++ resource_label ++ "\n".toList) =
        35 / 10 ∧
      ReadResourceVersion "resource_version: 3.2\n".toList =
        .finite (13421773 / 4194304) ∧
      (13421773 / 4194304 : ℚ) ≠ 32 / 10 := by
  decide!

theorem memcmp0_tilde (s : List Char) :
    memcmp0 (cimage s) (cimage ['~', '/']) 2 = true ↔ ['~', '/'] <+: s := by
  cases s with
  | nil => simp [memcmp0, cimage]
  | cons a t =>
    cases t with
    | nil =>
      simp only [memcmp0, cimage, List.cons_append, List.nil_append, List.take_succ_cons,
        List.take_zero, beq_iff_eq, List.cons.injEq, and_true]
      constructor
      · intro h; exact absurd h.2 (by decide)
      · intro h
        have := h.length_le
        simp at this
    | cons b u =>
      simp only [memcmp0, cimage, List.cons_append, List.take_succ_cons, List.take_zero,
        beq_iff_eq, List.cons.injEq, and_true]
      constructor
      · intro h; rw [h.1, h.2]; exact ⟨u, rfl⟩
      · rintro ⟨v, hv⟩
        simp only [List.cons_append, List.cons.injEq] at hv
        exact ⟨hv.1.symm, hv.2.1.symm⟩

theorem getSettingsFilename_plain (stored outName : List Char) (home : Option (List Char))
    (hs : ¬ ['~', '/'] <+: stored) :
    GetSettingsFilename stored home outName = (1, stored) := by
  have : memcmp0 (cimage stored) (cimage ['~', '/']) 2 = false := by
    rw [Bool.eq_false_iff]
    exact fun e => hs ((memcmp0_tilde stored).mp e)
  simp only [GetSettingsFilename, this, Bool.false_eq_true, if_false]

/-- C8.  GetSettingsFilename converts a leading `~/` to the home directory: if the stored
name starts with `~/` and HOME is `h`, the output is `h` followed by the stored name
without its leading `~` and the result is 1; if the stored name starts with `~/` and HOME
is unset, the result is 0 and the output buffer is not written; if the stored name does
not start with `~/`, the output is the stored name and the result is 1. -/
theorem C8_get_settings_filename (stored outName : List Char) :
    (∀ h : List Char, ['~', '/'] <+: stored →
      GetSettingsFilename stored (some h) outName = (1, h ++ stored.drop 1)) ∧
    (['~', '/'] <+: stored → GetSettingsFilename stored none outName = (0, outName)) ∧
    (¬ ['~', '/'] <+: stored →
      ∀ home : Option (List Char), GetSettingsFilename stored home outName = (1, stored)) := by
  refine ⟨?_, ?_, ?_⟩
  · intro h hs
    simp only [GetSettingsFilename, (memcmp0_tilde stored).mpr hs, if_true]
  · intro hs
    simp only [GetSettingsFilename, (memcmp0_tilde stored).mpr hs, if_true]
  · intro hs home
    exact getSettingsFilename_plain stored outName home hs

/-- C8, witness: the default settings file name in the home directory `/home/u`. -/
theorem C8_get_settings_filename_witness :
    GetSettingsFilename defaultSettingsFilename (some sampleHome) [] =
      (1, sampleHome ++ defaultSettingsFilename.drop 1) :=
  (C8_get_settings_filename defaultSettingsFilename []).1 sampleHome (by decide)

/-- C9.  `kMax` is the constant kMaxSettingsFilenameLen, an `int`.  For every name shorter
than `kMax` that does not start with `~/`, SetSettingsFilename followed by
GetSettingsFilename returns 1 and yields exactly the name; for every name of length
`kMax` or more, SetSettingsFilename leaves the stored settings file name unchanged. -/
theorem C9_set_then_get_settings_filename (kMax : Nat) (hk : kMax < 2 ^ 31)
    (stored name outName : List Char) (home : Option (List Char)) :
    (name.length < kMax → ¬ ['~', '/'] <+: name →
      GetSettingsFilename (SetSettingsFilename kMax stored name) home outName = (1, name)) ∧
    (kMax ≤ name.length → SetSettingsFilename kMax stored name = stored) := by
  have hmod : kMax % 2 ^ 32 = kMax := Nat.mod_eq_of_lt (by omega)
  constructor
  · intro hlen hs
    have : SetSettingsFilename kMax stored name = name := by
      simp only [SetSettingsFilename, hmod, if_pos hlen]
    rw [this]
    exact getSettingsFilename_plain name outName home hs
  · intro hlen
    simp only [SetSettingsFilename, hmod, if_neg (Nat.not_lt.mpr hlen)]

/-- C9, witness: the name `aged.settings` with a limit of 256 characters. -/
theorem C9_set_then_get_settings_filename_witness :
    GetSettingsFilename (SetSettingsFilename 256 defaultSettingsFilename "aged.settings".toList)
      none [] = (1, "aged.settings".toList) :=
  (C9_set_then_get_settings_filename 256 (by decide) defaultSettingsFilename
    "aged.settings".toList [] none).1 (by decide) (by decide)

/-! ## The translation from version 3.2 -/

theorem strstr_bound (hay needle : List Char) (off : Nat) (h : strstr hay needle = some off) :
    off + needle.length ≤ hay.length := by
  induction hay generalizing off with
  | nil =>
    cases needle with
    | nil => simp [strstr] at h; omega
    | cons a l => simp [strstr] at h
  | cons c cs ih =>
    rw [strstr_cons] at h
    by_cases hp : needle.isPrefixOf (c :: cs) = true
    · rw [if_pos hp] at h
      have := (List.isPrefixOf_iff_prefix.mp hp).length_le
      cases h
      omega
    · rw [if_neg hp] at h
      cases hs : strstr cs needle with
      | none => rw [hs] at h; cases h
      | some k =>
        rw [hs] at h
        cases h
        have := ih k hs
        simp only [List.length_cons]
        omega

/-- The translation from version 3.2 changes no string: `memcmp` compares the seven
bytes of `"aged."`, its NUL and the byte after it, and no string that holds `geometry:`
beyond offset 7 has a NUL as its sixth byte. -/
theorem translateGeometry_unchanged (pad : Char) (buff : List Char) (h0 : '\x00' ∉ buff) :
    translateGeometry pad buff = buff := by
  unfold translateGeometry
  cases hs : strstr buff "geometry:".toList with
  | none => rfl
  | some off =>
    have hb := strstr_bound buff _ off hs
    by_cases hoff : off > kPrefixLen
    · have hlen : 7 ≤ buff.length := by
        have : kPrefixLen = 7 := rfl
        omega
      match buff, h0, hlen with
      | b0 :: b1 :: b2 :: b3 :: b4 :: b5 :: b6 :: rest, h0, _ =>
        have h5 : b5 ≠ '\x00' := by
          intro e
          apply h0
          rw [← e]
          simp
        have hm : memcmp0 (cimage (b0 :: b1 :: b2 :: b3 :: b4 :: b5 :: b6 :: rest))
            (cimage "aged.".toList ++ [pad]) kPrefixLen = false := by
          rw [Bool.eq_false_iff]
          intro e
          simp only [memcmp0, cimage, kPrefixLen, List.cons_append, List.take_succ_cons,
            List.take_zero, beq_iff_eq] at e
          have e' : (b0 :: b1 :: b2 :: b3 :: b4 :: b5 :: [b6]) =
              List.take 7 ("aged.".toList ++ ['\x00'] ++ [pad]) := e
          have : b5 = '\x00' := by
            have := congrArg (fun l => l.get? 5) e'
            simpa using this
          exact h5 this
        simp only [hm, Bool.and_false, Bool.false_eq_true, if_false]
    · simp only [decide_eq_false hoff, Bool.false_and, Bool.false_eq_true, if_false]

/-! ## GetWindowGeometry -/

theorem strchr_cons (d c : Char) (ds : List Char) :
    strchr (d :: ds) c = if d == c then some 0 else (strchr ds c).map (· + 1) := rfl

theorem strchr_none (s : List Char) (c : Char) (h : c ∉ s) : strchr s c = none := by
  induction s with
  | nil => rfl
  | cons d ds ih =>
    simp only [List.mem_cons, not_or] at h
    have hd : (d == c) = false := by
      rw [beq_eq_false_iff_ne]; exact fun e => h.1 e.symm
    rw [strchr_cons, hd, ih h.2]
    rfl

theorem strchr_first (a b : List Char) (c : Char) (h : c ∉ a) :
    strchr (a ++ c :: b) c = some a.length := by
  induction a with
  | nil =>
    show strchr (c :: b) c = some 0
    rw [strchr_cons]
    simp
  | cons d ds ih =>
    simp only [List.mem_cons, not_or] at h
    have hd : (d == c) = false := by
      rw [beq_eq_false_iff_ne]; exact fun e => h.1 e.symm
    show strchr (d :: (ds ++ c :: b)) c = some (ds.length + 1)
    rw [strchr_cons, hd, ih h.2]
    rfl

theorem digitChar_isdigit (d : Nat) (h : d < 10) :
    isdigit (Nat.digitChar d) = true ∧ digitVal (Nat.digitChar d) = d := by
  interval_cases d <;> decide

theorem fmtDigits (l : List Nat) (h : ∀ d ∈ l, d < 10) :
    (∀ c ∈ l.reverse.map Nat.digitChar, isdigit c = true) ∧
      digitsVal (l.reverse.map Nat.digitChar) = Nat.ofDigits 10 l := by
  induction l with
  | nil => simp [digitsVal]
  | cons a l ih =>
    have ha := digitChar_isdigit a (h a (List.mem_cons_self _ _))
    have ih' := ih (fun d hd => h d (List.mem_cons_of_mem _ hd))
    constructor
    · intro c hc
      simp only [List.reverse_cons, List.map_append, List.map_cons, List.map_nil,
        List.mem_append, List.mem_singleton] at hc
      rcases hc with hc | hc
      · exact ih'.1 c hc
      · rw [hc]; exact ha.1
    · have e : digitsVal ((a :: l).reverse.map Nat.digitChar) =
          digitsVal (l.reverse.map Nat.digitChar) * 10 + digitVal (Nat.digitChar a) := by
        simp [digitsVal, List.foldl_append]
      rw [e, ih'.2, ha.2, Nat.ofDigits_cons]
      ring

theorem fmtNat_spec (n : Nat) :
    fmtNat n ≠ [] ∧ (∀ c ∈ fmtNat n, isdigit c = true) ∧ digitsVal (fmtNat n) = n := by
  unfold fmtNat
  by_cases h : n = 0
  · subst h
    simp only [if_true]
    decide
  · simp only [if_neg h]
    have hd := fmtDigits (Nat.digits 10 n) (fun d hd => Nat.digits_lt_base (by norm_num) hd)
    refine ⟨?_, hd.1, ?_⟩
    · simp [Nat.digits_eq_nil_iff_eq_zero, h]
    · rw [hd.2, Nat.ofDigits_digits]

theorem atoi_digits (ds rest : List Char) (hne : ds ≠ []) (hd : ∀ c ∈ ds, isdigit c = true)
    (hr : ∀ c t, rest = c :: t → isdigit c = false) :
    atoi (ds ++ rest) = ((digitsVal ds : Int) + 2 ^ 31) % 2 ^ 32 - 2 ^ 31 ∧
      atoi ('-' :: (ds ++ rest)) = (-(digitsVal ds : Int) + 2 ^ 31) % 2 ^ 32 - 2 ^ 31 := by
  cases ds with
  | nil => exact absurd rfl hne
  | cons a l =>
    have ha := hd a (List.mem_cons_self _ _)
    have hs := isdigit_not_special a ha
    have h2 := while_append isdigit (a :: l) rest hd hr
    have hsign : takeSign (a :: (l ++ rest)) = (false, a :: (l ++ rest)) :=
      takeSign_digit a _ ha
    constructor
    · have h1 : (a :: l ++ rest).dropWhile isspace = a :: l ++ rest := by
        simp [List.dropWhile_cons, hs.1]
      simp only [List.cons_append] at h1 h2
      simp only [atoi, List.cons_append, h1, hsign, h2.2, Bool.false_eq_true, if_false]
    · have h1 : ('-' :: (a :: l ++ rest)).dropWhile isspace = '-' :: (a :: l ++ rest) := by
        rw [List.dropWhile_cons]
        have : isspace '-' = false := by decide
        simp [this]
      have hm : takeSign ('-' :: (a :: l ++ rest)) = (true, a :: l ++ rest) := rfl
      simp only [atoi, h1, hm, h2.2, if_true]

theorem atoi_fmtInt (z : Int) (rest : List Char) (hlo : -2 ^ 31 ≤ z) (hhi : z < 2 ^ 31)
    (hr : ∀ c t, rest = c :: t → isdigit c = false) :
    atoi (fmtInt z ++ rest) = z := by
  have hs := fmtNat_spec z.natAbs
  have ha := atoi_digits (fmtNat z.natAbs) rest hs.1 hs.2.1 hr
  unfold fmtInt
  by_cases hz : z < 0
  · rw [if_pos hz]
    show atoi ('-' :: (fmtNat z.natAbs ++ rest)) = z
    rw [ha.2, hs.2.2]
    omega
  · rw [if_neg hz, ha.1, hs.2.2]
    omega

theorem fmtInt_chars (z : Int) : ∀ c ∈ fmtInt z, c = '-' ∨ isdigit c = true := by
  have hs := fmtNat_spec z.natAbs
  intro c hc
  unfold fmtInt at hc
  by_cases hz : z < 0
  · rw [if_pos hz] at hc
    rcases List.mem_cons.mp hc with h | h
    · exact Or.inl h
    · exact Or.inr (hs.2.1 c h)
  · rw [if_neg hz] at hc
    exact Or.inr (hs.2.1 c hc)

theorem fmtInt_no (z : Int) (c : Char) (h1 : c ≠ '-') (h2 : isdigit c = false) :
    c ∉ fmtInt z := by
  intro hc
  rcases fmtInt_chars z c hc with h | h
  · exact h1 h
  · rw [h] at h2; cases h2

theorem getWindowGeometry_string (db : XrmDatabase) (name str : List Char) (geo : SWindowGeometry)
    (hdb : db (name ++ ".geometry".toList) = some (XtRString, str)) :
    GetWindowGeometry db name geo =
      match strchr str 'x' with
      | some i1 =>
        match strchr (str.drop (i1 + 1)) '+' with
        | some i2 =>
          match strchr ((str.drop (i1 + 1)).drop (i2 + 1)) '+' with
          | some i3 =>
            (1, { width := atoi str, height := atoi (str.drop (i1 + 1)),
                  x := atoi ((str.drop (i1 + 1)).drop (i2 + 1)),
                  y := atoi (((str.drop (i1 + 1)).drop (i2 + 1)).drop (i3 + 1)) })
          | none => (0, geo)
        | none => (0, geo)
      | none => (0, geo) := by
  simp only [GetWindowGeometry, hdb, if_true]

theorem drop_past (a b : List Char) (c : Char) : (a ++ c :: b).drop (a.length + 1) = b := by
  have : a ++ c :: b = (a ++ [c]) ++ b := by simp
  rw [this]
  have hl : a.length + 1 = (a ++ [c]).length := by simp
  rw [hl]
  exact List.drop_left _ _

/-- C10.  GetWindowGeometry(name, geo) returns non-zero if the geometry was found: when
the lookup of `<name>.geometry` gives a string resource whose value is `<W>x<H>+<X>+<Y>`
with `int` values written in decimal, it returns 1 and sets `geo` to width W, height H,
x X and y Y; when the lookup fails, or the value has no `x`, no `+` after the first `x`,
or no second `+` after that, it returns 0 and leaves `geo` unchanged. -/
theorem C10_get_window_geometry (db : XrmDatabase) (name : List Char) (geo : SWindowGeometry) :
    (∀ W H X Y : Int,
      (-2 ^ 31 ≤ W ∧ W < 2 ^ 31) → (-2 ^ 31 ≤ H ∧ H < 2 ^ 31) →
      (-2 ^ 31 ≤ X ∧ X < 2 ^ 31) → (-2 ^ 31 ≤ Y ∧ Y < 2 ^ 31) →
      db (name ++ ".geometry".toList) =
        some (XtRString, fmtInt W ++ 'x' :: (fmtInt H ++ '+' :: (fmtInt X ++ '+' :: fmtInt Y))) →
      GetWindowGeometry db name geo = (1, { width := W, height := H, x := X, y := Y })) ∧
    (db (name ++ ".geometry".toList) = none → GetWindowGeometry db name geo = (0, geo)) ∧
    (∀ str : List Char, db (name ++ ".geometry".toList) = some (XtRString, str) →
      'x' ∉ str → GetWindowGeometry db name geo = (0, geo)) ∧
    (∀ a b : List Char, db (name ++ ".geometry".toList) = some (XtRString, a ++ 'x' :: b) →
      'x' ∉ a → '+' ∉ b → GetWindowGeometry db name geo = (0, geo)) ∧
    (∀ a b c : List Char,
      db (name ++ ".geometry".toList) = some (XtRString, a ++ 'x' :: (b ++ '+' :: c)) →
      'x' ∉ a → '+' ∉ b → '+' ∉ c → GetWindowGeometry db name geo = (0, geo)) := by
  refine ⟨?_, ?_, ?_, ?_, ?_⟩
  · intro W H X Y hW hH hX hY hdb
    have nx : ∀ z : Int, 'x' ∉ fmtInt z := fun z => fmtInt_no z 'x' (by decide) (by decide)
    have np : ∀ z : Int, '+' ∉ fmtInt z := fun z => fmtInt_no z '+' (by decide) (by decide)
    rw [getWindowGeometry_string db name _ geo hdb]
    simp only [strchr_first _ _ 'x' (nx W), drop_past, strchr_first _ _ '+' (np H),
      strchr_first _ _ '+' (np X)]
    have e1 := atoi_fmtInt W ('x' :: (fmtInt H ++ '+' :: (fmtInt X ++ '+' :: fmtInt Y)))
      hW.1 hW.2 (by intro c t e; cases e; decide)
    have e2 := atoi_fmtInt H ('+' :: (fmtInt X ++ '+' :: fmtInt Y))
      hH.1 hH.2 (by intro c t e; cases e; decide)
    have e3 := atoi_fmtInt X ('+' :: fmtInt Y) hX.1 hX.2 (by intro c t e; cases e; decide)
    have e4 := atoi_fmtInt Y [] hY.1 hY.2 (by intro c t e; cases e)
    rw [List.append_nil] at e4
    rw [e1, e2, e3, e4]
  · intro hdb
    simp only [GetWindowGeometry, hdb]
  · intro str hdb hx
    rw [getWindowGeometry_string db name _ geo hdb, strchr_none str 'x' hx]
  · intro a b hdb hx hp
    rw [getWindowGeometry_string db name _ geo hdb]
    simp only [strchr_first a b 'x' hx, drop_past, strchr_none b '+' hp]
  · intro a b c hdb hx hp hp2
    rw [getWindowGeometry_string db name _ geo hdb]
    simp only [strchr_first a _ 'x' hx, drop_past, strchr_first b c '+' hp,
      strchr_none c '+' hp2]

/-- C10, witness: the geometry `100x200+-5+7` of the window `Aged`. -/
theorem C10_get_window_geometry_witness :
    GetWindowGeometry sampleDatabase "Aged".toList ⟨0, 0, 0, 0⟩ =
      (1, { width := 100, height := 200, x := -5, y := 7 }) := by
  apply (C10_get_window_geometry sampleDatabase "Aged".toList ⟨0, 0, 0, 0⟩).1 100 200 (-5) 7
    (by decide) (by decide) (by decide) (by decide)
  have e : fmtInt 100 ++ 'x' :: (fmtInt 200 ++ '+' :: (fmtInt (-5) ++ '+' :: fmtInt 7)) =
      "100x200+-5+7".toList := by
    simp [fmtInt, fmtNat]
    decide
  rw [e]
  decide

/-! ## WritePaddedLabel -/

theorem numTabs_nat (n : Nat) : numTabs (n : Int) = max 1 (4 - (n : Int) / 8) := by
  have h : Int.tdiv (n : Int) 8 = (n : Int) / 8 := by
    rw [Int.tdiv_eq_ediv] <;> omega
  unfold numTabs
  rw [h]
  split <;> omega

theorem tabs_written (len : Int) :
    1 ≤ (tabChars.take (numTabs len).toNat).length ∧
      (tabChars.take (numTabs len).toNat).length ≤ 4 := by
  have h1 : 1 ≤ numTabs len := by
    unfold numTabs
    split <;> omega
  simp only [List.length_take, tabChars, List.length_cons, List.length_nil]
  omega

theorem tabs_replicate (k : Nat) (hk : k ≤ 4) : tabChars.take k = List.replicate k '\t' := by
  interval_cases k <;> rfl

theorem afterTabs_32 (len : Nat) (h : len < 32) : afterTabs len (4 - len / 8) = 32 := by
  interval_cases len <;> rfl

theorem writePaddedLabel_ok (ok : Nat → Bool) (hok : ∀ n, ok n = true)
    (object_name res_name : List Char) (w : Writer) :
    (WritePaddedLabel ok object_name res_name w).data =
        w.data ++ labelText object_name res_name ++
          List.replicate (max 1 (4 - ((labelText object_name res_name).length : Int) / 8)).toNat
            '\t' ∧
      (WritePaddedLabel ok object_name res_name w).write_err = w.write_err := by
  have hn := numTabs_nat (labelText object_name res_name).length
  have hk : (max 1 (4 - ((labelText object_name res_name).length : Int) / 8)).toNat ≤ 4 := by
    omega
  simp only [WritePaddedLabel, Writer.fprintf, hok, if_true, hn, and_true]
  rw [tabs_replicate _ hk]

/-- C20.  WritePaddedLabel pads with tabs up to the 4th tab stop: when its writes succeed
it writes `<object>.<resource>:` followed by max(1, 4 - len div 8) tabs, where len is the
length of that label; from column len these tabs lead exactly to column 32 whenever
len < 32, there is exactly one tab whenever len >= 32, and the number of tabs is between
1 and 4 (which holds for every value that the first `fprintf` returns). -/
theorem C20_write_padded_label (ok : Nat → Bool) (hok : ∀ n, ok n = true)
    (object_name res_name : List Char) (w : Writer) :
    (WritePaddedLabel ok object_name res_name w).data =
        w.data ++ labelText object_name res_name ++
          List.replicate (max 1 (4 - ((labelText object_name res_name).length : Int) / 8)).toNat
            '\t' ∧
      ((labelText object_name res_name).length < 32 →
        afterTabs (labelText object_name res_name).length
          (max 1 (4 - ((labelText object_name res_name).length : Int) / 8)).toNat = 32) ∧
      (32 ≤ (labelText object_name res_name).length →
        (max 1 (4 - ((labelText object_name res_name).length : Int) / 8)).toNat = 1) ∧
      1 ≤ (max 1 (4 - ((labelText object_name res_name).length : Int) / 8)).toNat ∧
      (max 1 (4 - ((labelText object_name res_name).length : Int) / 8)).toNat ≤ 4 ∧
      (∀ len : Int, 1 ≤ (tabChars.take (numTabs len).toNat).length ∧
        (tabChars.take (numTabs len).toNat).length ≤ 4) := by
  refine ⟨(writePaddedLabel_ok ok hok object_name res_name w).1, ?_, ?_, ?_, ?_, tabs_written⟩
  · intro h
    have : (max 1 (4 - ((labelText object_name res_name).length : Int) / 8)).toNat =
        4 - (labelText object_name res_name).length / 8 := by omega
    rw [this]
    exact afterTabs_32 _ h
  · intro h
    omega
  · omega
  · omega

/-- C20, witness: the label of the resource `version`, 13 characters and 3 tabs. -/
theorem C20_write_padded_label_witness :
    (WritePaddedLabel (fun _ => true) aged_class "version".toList ⟨[], 0, false, []⟩).data =
      "Aged.version:\t\t\t".toList :=
  (C20_write_padded_label (fun _ => true) (fun _ => rfl) aged_class "version".toList
    ⟨[], 0, false, []⟩).1

/-! ## GetCommandLineOptions -/

theorem store_at (a old data rest : List Char) (h : old.length = data.length) :
    store (a ++ old ++ rest) a.length data = some (a ++ data ++ rest) := by
  unfold store
  have h1 : a.length + data.length ≤ (a ++ old ++ rest).length := by
    simp only [List.length_append]; omega
  rw [if_pos h1]
  have h2 : (a ++ old ++ rest).take a.length = a := by
    rw [List.append_assoc, List.take_left]
  have h3 : (a ++ old ++ rest).drop (a.length + data.length) = rest := by
    have : a.length + data.length = (a ++ old).length := by
      simp only [List.length_append]; omega
    rw [this, List.drop_left]
  rw [h2, h3]

theorem cstrAt_at (a s rest : List Char) (hs : '\x00' ∉ s) :
    cstrAt (a ++ s ++ '\x00' :: rest) a.length = s := by
  unfold cstrAt
  rw [List.append_assoc, List.drop_left]
  have := while_append (fun c => c != '\x00') s ('\x00' :: rest)
    (by
      intro c hc
      have : c ≠ '\x00' := fun e => hs (e ▸ hc)
      simpa using this)
    (by intro c t e; cases e; rfl)
  exact this.2

theorem makeOption_spec (junk : Char) (r : List Char) (hr : '\x00' ∉ r) :
    makeOption junk r =
      some ('-' :: r ++ '\x00' :: '*' :: r ++ ['\x00'],
        { option := '-' :: r, specifier := '*' :: r,
          argKind := XrmOptionKind.XrmoptionSepArg, value := none }) := by
  have e0 : List.replicate (r.length * 2 + 4) junk =
      [] ++ [junk] ++ (List.replicate (r.length + 1) junk ++
        (junk :: List.replicate (r.length + 1) junk)) := by
    rw [show r.length * 2 + 4 = 1 + ((r.length + 1) + (1 + (r.length + 1))) by omega]
    simp only [List.replicate_add, List.replicate_one, List.nil_append, List.singleton_append,
      List.cons_append]
  have s1 := store_at [] [junk] ['-'] (List.replicate (r.length + 1) junk ++
        (junk :: List.replicate (r.length + 1) junk)) rfl
  have s2 := store_at ['-'] (List.replicate (r.length + 1) junk) (r ++ ['\x00'])
    (junk :: List.replicate (r.length + 1) junk) (by simp)
  have s3 := store_at (['-'] ++ (r ++ ['\x00'])) [junk] ['*']
    (List.replicate (r.length + 1) junk) rfl
  have c3 := cstrAt_at ['-'] r ('*' :: List.replicate (r.length + 1) junk) hr
  have s4 := store_at (['-'] ++ (r ++ ['\x00']) ++ ['*']) (List.replicate (r.length + 1) junk)
    (r ++ ['\x00']) [] (by simp)
  have c4 := cstrAt_at [] ('-' :: r) ('*' :: (r ++ ['\x00']))
    (by
      intro h
      rcases List.mem_cons.mp h with h | h
      · exact absurd h (by decide)
      · exact hr h)
  have c5 := cstrAt_at ('-' :: r ++ ['\x00']) ('*' :: r) []
    (by
      intro h
      rcases List.mem_cons.mp h with h | h
      · exact absurd h (by decide)
      · exact hr h)
  simp only [List.length_nil, List.length_singleton, List.length_append, List.length_cons,
    List.nil_append, List.append_nil, List.singleton_append, List.cons_append,
    List.append_assoc] at s1 s2 s3 c3 s4 c4 c5 e0
  have l3 : r.length + 1 + 1 = r.length + 2 := rfl
  have l4 : r.length + 1 + 1 + 1 = r.length + 3 := rfl
  have l5 : 0 + 1 = 1 := rfl
  simp only [l3, l4, l5] at s1 s2 s3 c3 s4 c4 c5
  unfold makeOption
  simp only [e0, s1, Option.bind_some, Option.some_bind, s2, s3, c3, s4, c4, c5,
    List.cons_append, List.append_assoc, List.nil_append, List.singleton_append]

theorem resource_names_nul_free (antiAlias : Bool) :
    ∀ r ∈ sResourceList antiAlias, '\x00' ∉ r.resource_name := by
  cases antiAlias <;> decide

/-- C19.  GetCommandLineOptions gives every resource a command-line equivalent: after the
first call, option i has the option string `-` followed by the name r of entry i of the
resource table, the specifier `*` followed by r, the kind XrmoptionSepArg and a NULL
value; the four writes into the block of 2*strlen(r)+4 bytes stay inside it and fill it
with the two strings and their terminators; GetNumOptions returns the number of entries
of the table, which is the number of options; a second call changes nothing. -/
theorem C19_command_line_options (antiAlias : Bool) (junk : Char) :
    (GetCommandLineOptions antiAlias junk (OptionState.initial antiAlias)).command_line_options =
        (sResourceList antiAlias).map (fun r =>
          some { option := '-' :: r.resource_name, specifier := '*' :: r.resource_name,
                 argKind := XrmOptionKind.XrmoptionSepArg, value := none }) ∧
      (sResourceList antiAlias).map (fun r => (makeOption junk r.resource_name).map (·.1)) =
        (sResourceList antiAlias).map (fun r =>
          some (('-' :: r.resource_name ++ ['\x00']) ++ ('*' :: r.resource_name ++ ['\x00']))) ∧
      (∀ r : List Char,
        (('-' :: r ++ ['\x00']) ++ ('*' :: r ++ ['\x00'])).length = 2 * r.length + 4) ∧
      GetNumOptions antiAlias = (sResourceList antiAlias).length ∧
      (GetCommandLineOptions antiAlias junk
        (OptionState.initial antiAlias)).command_line_options.length =
          (sResourceList antiAlias).length ∧
      GetCommandLineOptions antiAlias junk
          (GetCommandLineOptions antiAlias junk (OptionState.initial antiAlias)) =
        GetCommandLineOptions antiAlias junk (OptionState.initial antiAlias) := by
  have hn := resource_names_nul_free antiAlias
  refine ⟨?_, ?_, ?_, rfl, ?_, rfl⟩
  · simp only [GetCommandLineOptions, OptionState.initial, if_true]
    apply List.map_congr_left
    intro r hr
    rw [makeOption_spec junk r.resource_name (hn r hr)]
    rfl
  · apply List.map_congr_left
    intro r hr
    rw [makeOption_spec junk r.resource_name (hn r hr)]
    simp
  · intro r
    simp only [List.length_append, List.length_cons, List.length_nil]
    omega
  · simp only [GetCommandLineOptions, OptionState.initial, if_true, List.length_map]

/-! ## WriteSettings -/

theorem continues_refl (w : Writer) : w.Continues w := ⟨List.prefix_refl _, id⟩

theorem continues_trans {a b c : Writer} (h1 : a.Continues b) (h2 : b.Continues c) :
    a.Continues c := ⟨h1.1.trans h2.1, fun h => h1.2 (h2.2 h)⟩

theorem continues_fputs (ok : Nat → Bool) (s : List Char) (w : Writer) :
    w.Continues (w.fputs ok s) := by
  unfold Writer.fputs Writer.Continues
  split
  · exact ⟨List.prefix_append _ _, id⟩
  · exact ⟨List.prefix_refl _, fun h => by cases h⟩

theorem continues_fprintf (ok : Nat → Bool) (s : List Char) (w : Writer) :
    w.Continues (w.fprintf ok s).1 := by
  unfold Writer.fprintf Writer.Continues
  split
  · exact ⟨List.prefix_append _ _, id⟩
  · exact ⟨List.prefix_refl _, id⟩

theorem continues_writePaddedLabel (ok : Nat → Bool) (a b : List Char) (w : Writer) :
    w.Continues (WritePaddedLabel ok a b w) :=
  continues_trans (continues_fprintf ok _ w) (continues_fprintf ok _ _)

theorem continues_writeGeoProc (ok : Nat → Bool) (cw : Bool) (name : List Char) (entry : DbEntry)
    (w : Writer) : w.Continues (WriteGeoProc ok cw name entry w) := by
  unfold WriteGeoProc
  dsimp only
  split_ifs <;>
    first
    | exact continues_refl w
    | exact continues_writePaddedLabel ok _ _ w
    | exact continues_trans (continues_writePaddedLabel ok _ _ w) (continues_fprintf ok _ _)

theorem continues_writeWindowGeometries (ok : Nat → Bool) (cw : Bool) (db : List DbEntry)
    (w : Writer) : w.Continues (WriteWindowGeometries ok cw db w) := by
  induction db generalizing w with
  | nil => exact continues_refl w
  | cons entry rest ih =>
    exact continues_trans (continues_writeGeoProc ok cw _ entry w) (ih _)

theorem continues_writeResources (e : SaveEnv) (res : AgedResource) (table : List XtResource)
    (w : Writer) : w.Continues (writeResources e res table w) := by
  induction table generalizing w with
  | nil => exact continues_refl w
  | cons r rest ih =>
    exact continues_trans
      (continues_trans (continues_writePaddedLabel e.writeOk _ _ w) (continues_fprintf _ _ _))
      (ih _)

theorem continues_copyConfig (ok : Nat → Bool) (v : Int) (lines : List (List Char)) (w : Writer)
    (found : Bool) : w.Continues (copyConfig ok v lines w found).1 := by
  induction lines generalizing w found with
  | nil => exact continues_refl w
  | cons buff rest ih =>
    unfold copyConfig
    split
    · split
      · exact continues_refl w
      · exact continues_trans
          (continues_trans (continues_writePaddedLabel ok _ _ w) (continues_fprintf _ _ _))
          (ih _ _)
    · exact continues_trans (continues_fputs ok buff w) (ih _ _)

theorem fputs_no_error (ok : Nat → Bool) (s : List Char) (w : Writer)
    (h : (w.fputs ok s).write_err = false) :
    (w.fputs ok s).data = w.data ++ s ∧ w.write_err = false := by
  unfold Writer.fputs at h ⊢
  split
  · rename_i hok
    rw [if_pos hok] at h
    exact ⟨rfl, h⟩
  · rename_i hok
    rw [if_neg hok] at h
    cases h

theorem copyUser_spec (ok : Nat → Bool) (lines : List (List Char)) (w : Writer) :
    ((copyUser ok lines w).1.write_err = false →
      (copyUser ok lines w).1.data =
          w.data ++ (lines.takeWhile fun l => l != kAutoStr).flatten ∧
        w.write_err = false) ∧
      (copyUser ok lines w).2.1 = decide (kAutoStr ∈ lines) ∧
      (copyUser ok lines w).2.2 = (lines.dropWhile fun l => l != kAutoStr).tail := by
  induction lines generalizing w with
  | nil => simp [copyUser]
  | cons buff rest ih =>
    by_cases hb : buff = kAutoStr
    · subst hb
      simp [copyUser]
    · have hb' : (buff != kAutoStr) = true := by simpa using hb
      have hne : ¬ kAutoStr = buff := fun e => hb e.symm
      simp only [copyUser, if_neg hb, List.takeWhile_cons, hb', if_true, List.flatten_cons,
        List.dropWhile_cons, List.mem_cons, hne, false_or]
      refine ⟨?_, (ih _).2.1, (ih _).2.2⟩
      intro h
      have h1 := (ih (w.fputs ok buff)).1 h
      have h2 := fputs_no_error ok buff w h1.2
      rw [h1.1, h2.1, List.append_assoc]
      exact ⟨rfl, h2.2⟩

theorem temp_ne (p : List Char) : p ≠ p ++ "_tmp".toList := by
  intro h
  have := congrArg List.length h
  simp at this

theorem finishSettings_fs (e : SaveEnv) (res : AgedResource) (p : List Char) (trace : List Op)
    (w : Writer) :
    (finishSettings e res p (p ++ "_tmp".toList) trace w).fs p = e.fs p ∨
      (w.write_err = false ∧
        (finishSettings e res p (p ++ "_tmp".toList) trace w).fs p = some w.data) := by
  unfold finishSettings
  by_cases hw : w.write_err = true
  · left
    rw [if_pos hw]
    exact FS.set_other _ _ _ _ (temp_ne p)
  · rw [if_neg hw]
    by_cases hr : e.renameOk = true
    · right
      rw [if_pos hr]
      exact ⟨by simpa using hw, FS.set_same _ _ _⟩
    · left
      rw [if_neg hr]
      exact FS.set_other _ _ _ _ (temp_ne p)

theorem saveSettings_fs (e : SaveEnv) (res : AgedResource) (force_save : Int) (p : List Char)
    (lines : List (List Char))
    (hl : lines = sourceStrings e.fs p) :
    (saveSettings e res force_save p (p ++ "_tmp".toList)).fs p = e.fs p ∨
      ∃ w : Writer, w.write_err = false ∧ (writeUser e.writeOk lines).1.Continues w ∧
        (saveSettings e res force_save p (p ++ "_tmp".toList)).fs p = some w.data := by
  subst hl
  unfold saveSettings
  dsimp only
  by_cases hf : force_save ≠ 0
  · rw [if_pos hf]
    rcases finishSettings_fs e res p ([Op.fopenWrite (p ++ "_tmp".toList), Op.fopenRead p])
      _ with h | h
    · exact Or.inl h
    · refine Or.inr ⟨_, h.1, ?_, h.2⟩
      exact continues_trans (continues_fputs _ _ _)
        (continues_trans (continues_writeWindowGeometries _ _ _ _)
          (continues_trans (continues_writeResources _ _ _ _) (continues_fputs _ _ _)))
  · rw [if_neg hf]
    have hc := continues_copyConfig e.writeOk res.save_config
      (writeUser e.writeOk (sourceStrings e.fs p)).2
      (writeUser e.writeOk (sourceStrings e.fs p)).1 false
    split
    · left
      exact FS.set_other _ _ _ _ (temp_ne p)
    · split
      · rcases finishSettings_fs e res p ([Op.fopenWrite (p ++ "_tmp".toList), Op.fopenRead p])
          _ with h | h
        · exact Or.inl h
        · exact Or.inr ⟨_, h.1, hc, h.2⟩
      · rcases finishSettings_fs e res p ([Op.fopenWrite (p ++ "_tmp".toList), Op.fopenRead p])
          _ with h | h
        · exact Or.inl h
        · refine Or.inr ⟨_, h.1, ?_, h.2⟩
          exact continues_trans hc
            (continues_trans (continues_fputs _ _ _)
              (continues_trans (continues_writePaddedLabel _ _ _ _)
                (continues_trans (continues_fprintf _ _ _) (continues_fputs _ _ _))))

theorem writeSettings_cases (e : SaveEnv) (res : AgedResource) (force_save : Int) (p : List Char)
    (hp : GetSettingsFilename e.sSettingsFilename e.home [] = (1, p)) :
    WriteSettings e res force_save =
      if res.save_config = 0 ∧ force_save = 0 ∧ e.sResourceFileSaveConfig = 0 then
        ⟨e.fs, e.sResourceFileSaveConfig, []⟩
      else if e.tempOk then
        saveSettings e res (if res.save_config ≠ 0 then 1 else force_save) p
          (p ++ "_tmp".toList)
      else ⟨e.fs, e.sResourceFileSaveConfig, [Op.fopenWrite (p ++ "_tmp".toList)]⟩ := by
  unfold WriteSettings
  simp only [hp]
  by_cases hs : res.save_config = 0
  · simp only [hs, ne_eq, not_true_eq_false, if_false, true_and, one_ne_zero]
  · simp only [hs, ne_eq, not_false_eq_true, if_true, false_and, if_false, one_ne_zero]

theorem writeUser_data (ok : Nat → Bool) (lines : List (List Char))
    (h : (writeUser ok lines).1.write_err = false) :
    (writeUser ok lines).1.data = userPart lines ++ kAutoStr := by
  unfold writeUser at h ⊢
  dsimp only at h ⊢
  have hc := copyUser_spec ok lines ⟨[], 0, false, []⟩
  have h1 := fputs_no_error ok kAutoStr _ h
  rw [h1.1]
  unfold userPart
  by_cases hm : kAutoStr ∈ lines
  · have hf : (copyUser ok lines ⟨[], 0, false, []⟩).2.1 = true := by
      rw [hc.2.1]; simpa using hm
    rw [hf] at h1 ⊢
    simp only [if_true] at h1 ⊢
    rw [(hc.1 h1.2).1, if_pos hm]
    simp
  · have hf : (copyUser ok lines ⟨[], 0, false, []⟩).2.1 = false := by
      rw [hc.2.1]; simpa using hm
    rw [hf] at h1 ⊢
    simp only [Bool.false_eq_true, if_false] at h1 ⊢
    have h2 := fputs_no_error ok ['\n'] _ h1.2
    rw [h2.1, (hc.1 h2.2).1, if_neg hm]
    simp

theorem writeSettings_fs (e : SaveEnv) (res : AgedResource) (force_save : Int) (p : List Char)
    (hp : GetSettingsFilename e.sSettingsFilename e.home [] = (1, p))
    (lines : List (List Char))
    (hl : lines = sourceStrings e.fs p) :
    (WriteSettings e res force_save).fs p = e.fs p ∨
      ∃ tail : List Char,
        (WriteSettings e res force_save).fs p = some (userPart lines ++ kAutoStr ++ tail) := by
  rw [writeSettings_cases e res force_save p hp]
  by_cases h1 : res.save_config = 0 ∧ force_save = 0 ∧ e.sResourceFileSaveConfig = 0
  · rw [if_pos h1]
    exact Or.inl rfl
  · rw [if_neg h1]
    by_cases h2 : e.tempOk = true
    · rw [if_pos h2]
      rcases saveSettings_fs e res (if res.save_config ≠ 0 then 1 else force_save) p lines hl
        with h | ⟨w, hw, hc, h⟩
      · exact Or.inl h
      · right
        have hd := writeUser_data e.writeOk lines (hc.2 hw)
        obtain ⟨tail, ht⟩ := hc.1
        exact ⟨tail, by rw [h, ← ht, hd]⟩
    · rw [if_neg h2]
      exact Or.inl rfl


theorem fprintf_ok (ok : Nat → Bool) (hok : ∀ n, ok n = true) (s : List Char) (w : Writer) :
    (w.fprintf ok s).1.data = w.data ++ s ∧ (w.fprintf ok s).1.write_err = w.write_err := by
  simp [Writer.fprintf, hok]

theorem writePaddedLabel_ok' (ok : Nat → Bool) (hok : ∀ n, ok n = true)
    (a b : List Char) (w : Writer) :
    (WritePaddedLabel ok a b w).data = w.data ++ paddedLabel a b ∧
      (WritePaddedLabel ok a b w).write_err = w.write_err := by
  have h := writePaddedLabel_ok ok hok a b w
  rw [h.1, h.2]
  simp [paddedLabel]

theorem writeGeoProc_ok (ok : Nat → Bool) (hok : ∀ n, ok n = true) (cw : Bool) (entry : DbEntry)
    (w : Writer) :
    (WriteGeoProc ok cw "geometry".toList entry w).data = w.data ++ geometryText cw entry ∧
      (WriteGeoProc ok cw "geometry".toList entry w).write_err = w.write_err := by
  unfold WriteGeoProc geometryText
  dsimp only
  split_ifs <;>
    simp [(fprintf_ok ok hok _ _).1, (fprintf_ok ok hok _ _).2,
      (writePaddedLabel_ok' ok hok _ _ _).1, (writePaddedLabel_ok' ok hok _ _ _).2]

theorem writeWindowGeometries_ok (ok : Nat → Bool) (hok : ∀ n, ok n = true) (cw : Bool)
    (db : List DbEntry) (w : Writer) :
    (WriteWindowGeometries ok cw db w).data = w.data ++ (db.map (geometryText cw)).flatten ∧
      (WriteWindowGeometries ok cw db w).write_err = w.write_err := by
  induction db generalizing w with
  | nil => simp [WriteWindowGeometries]
  | cons entry rest ih =>
    have h := writeGeoProc_ok ok hok cw entry w
    simp only [WriteWindowGeometries, (ih _).1, (ih _).2, h.1, h.2, List.map_cons,
      List.flatten_cons, List.append_assoc, and_self]

theorem writeResources_ok (e : SaveEnv) (hok : ∀ n, e.writeOk n = true) (res : AgedResource)
    (table : List XtResource) (w : Writer) :
    (writeResources e res table w).data = w.data ++ (table.map (resourceText e res)).flatten ∧
      (writeResources e res table w).write_err = w.write_err := by
  induction table generalizing w with
  | nil => simp [writeResources]
  | cons r rest ih =>
    have h1 := writePaddedLabel_ok' e.writeOk hok aged_class r.resource_name w
    have h2 := fprintf_ok e.writeOk hok (resourceValue e res r)
      (WritePaddedLabel e.writeOk aged_class r.resource_name w)
    simp only [writeResources, (ih _).1, (ih _).2, h2.1, h2.2, h1.1, h1.2, List.map_cons,
      List.flatten_cons, List.append_assoc, and_self, resourceText]

theorem copyUser_ok (ok : Nat → Bool) (hok : ∀ n, ok n = true) (lines : List (List Char))
    (w : Writer) : (copyUser ok lines w).1.write_err = w.write_err := by
  induction lines generalizing w with
  | nil => rfl
  | cons buff rest ih =>
    unfold copyUser
    split
    · rfl
    · rw [ih, (fputs_ok_data ok hok buff w).2]

theorem writeUser_ok (ok : Nat → Bool) (hok : ∀ n, ok n = true) (lines : List (List Char)) :
    (writeUser ok lines).1.data = userPart lines ++ kAutoStr ∧
      (writeUser ok lines).1.write_err = false ∧
      (writeUser ok lines).2 = (lines.dropWhile fun l => l != kAutoStr).tail := by
  have he : (writeUser ok lines).1.write_err = false := by
    unfold writeUser
    dsimp only
    rw [(fputs_ok_data ok hok _ _).2]
    split
    · exact copyUser_ok ok hok lines _
    · rw [(fputs_ok_data ok hok _ _).2]
      exact copyUser_ok ok hok lines _
  exact ⟨writeUser_data ok lines he, he, (copyUser_spec ok lines _).2.2⟩

theorem copyConfig_ok (ok : Nat → Bool) (hok : ∀ n, ok n = true) (v : Int)
    (lines : List (List Char)) (w : Writer) (found : Bool)
    (hz : ∀ b ∈ lines, (strstr b ".save_config:".toList).isSome = true →
      saveConfigIsZero b = false) :
    (copyConfig ok v lines w found).1.data = w.data ++ (lines.map (configText v)).flatten ∧
      (copyConfig ok v lines w found).1.write_err = w.write_err ∧
      (copyConfig ok v lines w found).2 =
        some (found || lines.any fun b => (strstr b ".save_config:".toList).isSome) := by
  induction lines generalizing w found with
  | nil => simp [copyConfig]
  | cons buff rest ih =>
    have hz' : ∀ b ∈ rest, (strstr b ".save_config:".toList).isSome = true →
        saveConfigIsZero b = false := fun b hb => hz b (List.mem_cons_of_mem _ hb)
    unfold copyConfig
    cases hs : strstr buff ".save_config:".toList with
    | none =>
      have h1 := fputs_ok_data ok hok buff w
      simp only [(ih _ _ hz').1, (ih _ _ hz').2.1, (ih _ _ hz').2.2, h1.1, h1.2, List.map_cons,
        List.flatten_cons, configText, hs, Option.isSome_none, Bool.false_eq_true, if_false,
        List.append_assoc, List.any_cons, Bool.false_or, and_self]
    | some k =>
      have hnz := hz buff (List.mem_cons_self _ _) (by rw [hs]; rfl)
      have h1 := writePaddedLabel_ok' ok hok aged_class "save_config".toList w
      have h2 := fprintf_ok ok hok (fmtInt v ++ ['\n'])
        (WritePaddedLabel ok aged_class "save_config".toList w)
      simp only [hnz, Bool.false_eq_true, if_false, (ih _ _ hz').1, (ih _ _ hz').2.1,
        (ih _ _ hz').2.2, h2.1, h2.2, h1.1, h1.2, List.map_cons, List.flatten_cons, configText,
        hs, Option.isSome_some, if_true, List.append_assoc, List.any_cons, Bool.true_or,
        Bool.or_true, saveConfigText, and_self]

theorem copyConfig_return (ok : Nat → Bool) (v : Int) (r1 r2 : List (List Char))
    (b : List Char) (w : Writer) (found : Bool)
    (hz : ∀ c ∈ r1, (strstr c ".save_config:".toList).isSome = true →
      saveConfigIsZero c = false)
    (hb : (strstr b ".save_config:".toList).isSome = true) (hb0 : saveConfigIsZero b = true) :
    (copyConfig ok v (r1 ++ b :: r2) w found).2 = none := by
  induction r1 generalizing w found with
  | nil =>
    show (copyConfig ok v (b :: r2) w found).2 = none
    unfold copyConfig
    cases hs : strstr b ".save_config:".toList with
    | none => rw [hs] at hb; cases hb
    | some k => simp only [hb0, if_true]
  | cons c rest ih =>
    have hz' : ∀ d ∈ rest, (strstr d ".save_config:".toList).isSome = true →
        saveConfigIsZero d = false := fun d hd => hz d (List.mem_cons_of_mem _ hd)
    show (copyConfig ok v (c :: (rest ++ b :: r2)) w found).2 = none
    unfold copyConfig
    cases hs : strstr c ".save_config:".toList with
    | none => exact ih _ _ hz'
    | some k =>
      have hnz := hz c (List.mem_cons_self _ _) (by rw [hs]; rfl)
      simp only [hnz, Bool.false_eq_true, if_false]
      exact ih _ _ hz'

theorem finishSettings_ok (e : SaveEnv) (res : AgedResource) (p : List Char) (trace : List Op)
    (w : Writer) (hw : w.write_err = false) (hr : e.renameOk = true) :
    (finishSettings e res p (p ++ "_tmp".toList) trace w).fs p = some w.data ∧
      (finishSettings e res p (p ++ "_tmp".toList) trace w).fs (p ++ "_tmp".toList) = none ∧
      (finishSettings e res p (p ++ "_tmp".toList) trace w).sResourceFileSaveConfig =
        res.save_config := by
  unfold finishSettings
  rw [hw]
  simp only [Bool.false_eq_true, if_false, hr, if_true, and_true]
  exact ⟨FS.set_same _ _ _, by
    rw [FS.set_other _ _ _ _ (temp_ne p).symm, FS.set_same]⟩

theorem saveSettings_force (e : SaveEnv) (res : AgedResource) (force_save : Int) (p : List Char)
    (hf : force_save ≠ 0) (hok : ∀ n, e.writeOk n = true) (hr : e.renameOk = true)
    (lines : List (List Char))
    (hl : lines = sourceStrings e.fs p) :
    (saveSettings e res force_save p (p ++ "_tmp".toList)).fs p =
        some (userPart lines ++ kAutoStr ++
          ('\n' :: (e.database.map (geometryText e.childWindows)).flatten ++
            ((fromVersion (sResourceList e.antiAlias)).map (resourceText e res)).flatten ++
            ['\n'])) ∧
      (saveSettings e res force_save p (p ++ "_tmp".toList)).fs (p ++ "_tmp".toList) = none ∧
      (saveSettings e res force_save p (p ++ "_tmp".toList)).sResourceFileSaveConfig =
        res.save_config := by
  subst hl
  unfold saveSettings
  dsimp only
  rw [if_pos hf]
  generalize hL : sourceStrings e.fs p = lines
  have hu := writeUser_ok e.writeOk hok lines
  have h3 := fputs_ok_data e.writeOk hok ['\n'] (writeUser e.writeOk lines).1
  have h4 := writeWindowGeometries_ok e.writeOk hok e.childWindows e.database
    ((writeUser e.writeOk lines).1.fputs e.writeOk ['\n'])
  have h5 := writeResources_ok e hok res (fromVersion (sResourceList e.antiAlias))
    (WriteWindowGeometries e.writeOk e.childWindows e.database
      ((writeUser e.writeOk lines).1.fputs e.writeOk ['\n']))
  have h6 := fputs_ok_data e.writeOk hok ['\n']
    (writeResources e res (fromVersion (sResourceList e.antiAlias))
      (WriteWindowGeometries e.writeOk e.childWindows e.database
        ((writeUser e.writeOk lines).1.fputs e.writeOk ['\n'])))
  have hw : (Writer.fputs e.writeOk ['\n']
      (writeResources e res (fromVersion (sResourceList e.antiAlias))
        (WriteWindowGeometries e.writeOk e.childWindows e.database
          ((writeUser e.writeOk lines).1.fputs e.writeOk ['\n'])))).write_err = false := by
    rw [h6.2, h5.2, h4.2, h3.2, hu.2.1]
  have hf := finishSettings_ok e res p [Op.fopenWrite (p ++ "_tmp".toList), Op.fopenRead p] _
    hw hr
  refine ⟨?_, hf.2.1, hf.2.2⟩
  rw [hf.1, h6.1, h5.1, h4.1, h3.1, hu.1]
  simp

theorem saveSettings_copy (e : SaveEnv) (res : AgedResource) (p : List Char)
    (hok : ∀ n, e.writeOk n = true) (hr : e.renameOk = true)
    (lines : List (List Char))
    (hl : lines = sourceStrings e.fs p)
    (hz : ∀ b ∈ (lines.dropWhile fun l => l != kAutoStr).tail,
      (strstr b ".save_config:".toList).isSome = true → saveConfigIsZero b = false) :
    (saveSettings e res 0 p (p ++ "_tmp".toList)).fs p =
        some (userPart lines ++ kAutoStr ++
          (((lines.dropWhile fun l => l != kAutoStr).tail.map
              (configText res.save_config)).flatten ++
            (if ((lines.dropWhile fun l => l != kAutoStr).tail.any fun b =>
                (strstr b ".save_config:".toList).isSome) then []
              else '\n' :: saveConfigText res.save_config ++ ['\n']))) ∧
      (saveSettings e res 0 p (p ++ "_tmp".toList)).fs (p ++ "_tmp".toList) = none ∧
      (saveSettings e res 0 p (p ++ "_tmp".toList)).sResourceFileSaveConfig =
        res.save_config := by
  subst hl
  unfold saveSettings
  dsimp only
  rw [if_neg (by decide : ¬ (0 : Int) ≠ 0)]
  generalize hL : sourceStrings e.fs p = lines at hz ⊢
  have hu := writeUser_ok e.writeOk hok lines
  rw [← hu.2.2] at hz ⊢
  have hc := copyConfig_ok e.writeOk hok res.save_config (writeUser e.writeOk lines).2
    (writeUser e.writeOk lines).1 false hz
  rw [hc.2.2]
  dsimp only
  by_cases hany : ((writeUser e.writeOk lines).2.any fun b =>
      (strstr b ".save_config:".toList).isSome) = true
  · simp only [Bool.false_or, hany, if_true]
    have hw : (copyConfig e.writeOk res.save_config (writeUser e.writeOk lines).2
        (writeUser e.writeOk lines).1 false).1.write_err = false := by
      rw [hc.2.1, hu.2.1]
    have hf := finishSettings_ok e res p [Op.fopenWrite (p ++ "_tmp".toList), Op.fopenRead p] _
      hw hr
    refine ⟨?_, hf.2.1, hf.2.2⟩
    rw [hf.1, hc.1, hu.1]
    simp
  · simp only [Bool.false_or, hany, Bool.false_eq_true, if_false]
    have h1 := fputs_ok_data e.writeOk hok ['\n']
      (copyConfig e.writeOk res.save_config (writeUser e.writeOk lines).2
        (writeUser e.writeOk lines).1 false).1
    have h2 := writePaddedLabel_ok' e.writeOk hok aged_class "save_config".toList
      ((copyConfig e.writeOk res.save_config (writeUser e.writeOk lines).2
        (writeUser e.writeOk lines).1 false).1.fputs e.writeOk ['\n'])
    have h3 := fprintf_ok e.writeOk hok (fmtInt res.save_config ++ ['\n'])
      (WritePaddedLabel e.writeOk aged_class "save_config".toList
        ((copyConfig e.writeOk res.save_config (writeUser e.writeOk lines).2
          (writeUser e.writeOk lines).1 false).1.fputs e.writeOk ['\n']))
    have h4 := fputs_ok_data e.writeOk hok ['\n']
      (Writer.fprintf e.writeOk (fmtInt res.save_config ++ ['\n'])
        (WritePaddedLabel e.writeOk aged_class "save_config".toList
          ((copyConfig e.writeOk res.save_config (writeUser e.writeOk lines).2
            (writeUser e.writeOk lines).1 false).1.fputs e.writeOk ['\n']))).1
    have hw : (Writer.fputs e.writeOk ['\n']
        (Writer.fprintf e.writeOk (fmtInt res.save_config ++ ['\n'])
          (WritePaddedLabel e.writeOk aged_class "save_config".toList
            ((copyConfig e.writeOk res.save_config (writeUser e.writeOk lines).2
              (writeUser e.writeOk lines).1 false).1.fputs e.writeOk ['\n']))).1).write_err =
        false := by
      rw [h4.2, h3.2, h2.2, h1.2, hc.2.1, hu.2.1]
    have hf := finishSettings_ok e res p [Op.fopenWrite (p ++ "_tmp".toList), Op.fopenRead p] _
      hw hr
    refine ⟨?_, hf.2.1, hf.2.2⟩
    rw [hf.1, h4.1, h3.1, h2.1, h1.1, hc.1, hu.1]
    simp [saveConfigText]

theorem saveSettings_return (e : SaveEnv) (res : AgedResource) (p : List Char)
    (lines r1 r2 : List (List Char)) (b : List Char)
    (hl : lines = sourceStrings e.fs p)
    (hrest : (writeUser e.writeOk lines).2 = r1 ++ b :: r2)
    (hz : ∀ c ∈ r1, (strstr c ".save_config:".toList).isSome = true →
      saveConfigIsZero c = false)
    (hb : (strstr b ".save_config:".toList).isSome = true) (hb0 : saveConfigIsZero b = true) :
    (saveSettings e res 0 p (p ++ "_tmp".toList)).fs p = e.fs p ∧
      (saveSettings e res 0 p (p ++ "_tmp".toList)).fs (p ++ "_tmp".toList) = none ∧
      (saveSettings e res 0 p (p ++ "_tmp".toList)).sResourceFileSaveConfig =
        e.sResourceFileSaveConfig := by
  subst hl
  unfold saveSettings
  dsimp only
  rw [if_neg (by decide : ¬ (0 : Int) ≠ 0)]
  rw [hrest, copyConfig_return e.writeOk res.save_config r1 r2 b _ false hz hb hb0]
  exact ⟨FS.set_other _ _ _ _ (temp_ne p), FS.set_same _ _ _, rfl⟩

theorem strstr_isSome (hay needle : List Char) (h : needle <:+: hay) :
    (strstr hay needle).isSome = true := by
  induction hay with
  | nil =>
    have : needle = [] := List.eq_nil_of_infix_nil h
    subst this
    rfl
  | cons c cs ih =>
    rw [strstr_cons]
    by_cases hp : needle.isPrefixOf (c :: cs) = true
    · rw [if_pos hp]; rfl
    · rw [if_neg hp]
      have hi : needle <:+: cs := by
        rcases List.infix_cons_iff.mp h with h1 | h1
        · exact absurd (List.isPrefixOf_iff_prefix.mpr h1) hp
        · exact h1
      have := ih hi
      cases hs : strstr cs needle with
      | none => rw [hs] at this; cases this
      | some k => rfl

theorem saveConfigIsZero_zero (a : List Char) (h : '\n' ∉ a) :
    saveConfigIsZero (a ++ ['0', '\n']) = true := by
  have h1 : '\n' ∉ a ++ ['0'] := by
    simp only [List.mem_append, List.mem_singleton, not_or]
    exact ⟨h, by decide⟩
  have h2 : strchr (a ++ ['0', '\n']) '\n' = some (a.length + 1) := by
    have := strchr_first (a ++ ['0']) [] '\n' h1
    simpa using this
  unfold saveConfigIsZero
  rw [h2]
  show ((a ++ ['0', '\n']).get? a.length == some '0') = true
  rw [List.get?_eq_getElem?, List.getElem?_append_right (le_refl _)]
  simp

theorem hexDigits (n : Nat) (h : n < 256) :
    fmtHex2 n = [Nat.digitChar (n / 16), Nat.digitChar (n % 16)] := by
  revert n
  decide!

theorem digitChar_isDigit (n : Nat) (h : n < 10) : (Nat.digitChar n).isDigit = true := by
  revert n
  decide

theorem savedEntries (a : Bool) : ∀ r ∈ fromVersion (sResourceList a),
    (r.resource_type = XtRString ∨ r.resource_type = XtRInt ∨ r.resource_type = XtRFloat ∨
      r.resource_type = XtRPixel) ∧
    (r.resource_type = XtRPixel → r.resource_offset.inColset = true) := by
  cases a <;> decide!

theorem fromVersion_table (a : Bool) :
    fromVersion (sResourceList a) =
      sResourceListSettings ++ sResourceListColours ++ sResourceListAltColours := by
  cases a <;> decide!

theorem pixelIndex_range (e : SaveEnv) (f : Field) (hf : f.inColset = true)
    (hc : ∀ c, e.colourNumber c < e.NUM_COLOURS) :
    0 ≤ pixelIndex e f ∧ pixelIndex e f < 2 * (e.NUM_COLOURS : Int) := by
  cases f with
  | member n => cases hf
  | colset set c =>
    have hs : set < 2 := of_decide_eq_true hf
    have := hc c
    constructor
    · exact Int.ofNat_nonneg _
    · show ((set * e.NUM_COLOURS + e.colourNumber c : Nat) : Int) < 2 * (e.NUM_COLOURS : Int)
      have h2 : set * e.NUM_COLOURS + e.colourNumber c < 2 * e.NUM_COLOURS := by
        interval_cases set <;> omega
      exact_mod_cast h2

theorem writeSettings_force (e : SaveEnv) (res : AgedResource) (force_save : Int) (p : List Char)
    (hp : GetSettingsFilename e.sSettingsFilename e.home [] = (1, p))
    (hf : force_save ≠ 0 ∨ res.save_config ≠ 0)
    (ht : e.tempOk = true) (hok : ∀ n, e.writeOk n = true) (hr : e.renameOk = true) :
    (WriteSettings e res force_save).fs p =
      some (userPart (sourceStrings e.fs p) ++ kAutoStr ++
        ('\n' :: (e.database.map (geometryText e.childWindows)).flatten ++
          ((sResourceListSettings ++ sResourceListColours ++ sResourceListAltColours).map
            (resourceText e res)).flatten ++ ['\n'])) := by
  have h1 : ¬ (res.save_config = 0 ∧ force_save = 0 ∧ e.sResourceFileSaveConfig = 0) := by
    rintro ⟨a, b, -⟩
    rcases hf with h | h
    · exact h b
    · exact h a
  have h2 : (if res.save_config ≠ 0 then (1 : Int) else force_save) ≠ 0 := by
    by_cases hs : res.save_config = 0
    · rw [if_neg (not_not.mpr hs)]
      rcases hf with h | h
      · exact h
      · exact absurd hs h
    · rw [if_pos hs]
      decide
  rw [writeSettings_cases e res force_save p hp, if_neg h1, if_pos ht,
    ← fromVersion_table e.antiAlias]
  exact (saveSettings_force e res _ p h2 hok hr _ rfl).1

/-! ## The claims on WriteSettings -/

/-- C11.  When save_config of the resources, force_save and sResourceFileSaveConfig are
all 0, WriteSettings leaves every file as it is, makes no library call on a file and
leaves sResourceFileSaveConfig as it is; when save_config of the resources is not 0, the
call is the call with force_save 1, whatever force_save is. -/
theorem C11_write_settings_nothing_to_do (e : SaveEnv) (res : AgedResource) (force_save : Int) :
    (res.save_config = 0 → force_save = 0 → e.sResourceFileSaveConfig = 0 →
      (WriteSettings e res force_save).fs = e.fs ∧
        (WriteSettings e res force_save).sResourceFileSaveConfig = e.sResourceFileSaveConfig ∧
        (WriteSettings e res force_save).trace = []) ∧
    (res.save_config ≠ 0 → WriteSettings e res force_save = WriteSettings e res 1) := by
  constructor
  · intro hs hf hc
    unfold WriteSettings
    simp only [hs, hf, hc, ne_eq, not_true_eq_false, if_false, and_self, if_true]
  · intro hs
    unfold WriteSettings
    simp only [hs, ne_eq, not_false_eq_true, if_true]

/-- C11, witness: nothing is to be saved and the file records save_config 0; and a call
with save_config 1 and force_save 0. -/
theorem C11_write_settings_nothing_to_do_witness :
    ((WriteSettings (sampleSaveEnv (some notSavingSettings) 0) (sampleResource [] 0) 0).fs =
        (sampleSaveEnv (some notSavingSettings) 0).fs ∧
      (WriteSettings (sampleSaveEnv (some notSavingSettings) 0) (sampleResource [] 0)
        0).sResourceFileSaveConfig = 0 ∧
      (WriteSettings (sampleSaveEnv (some notSavingSettings) 0) (sampleResource [] 0)
        0).trace = []) ∧
    WriteSettings (sampleSaveEnv (some notSavingSettings) 0) (sampleResource [] 1) 0 =
      WriteSettings (sampleSaveEnv (some notSavingSettings) 0) (sampleResource [] 1) 1 :=
  ⟨(C11_write_settings_nothing_to_do (sampleSaveEnv (some notSavingSettings) 0)
      (sampleResource [] 0) 0).1 rfl rfl rfl,
    (C11_write_settings_nothing_to_do (sampleSaveEnv (some notSavingSettings) 0)
      (sampleResource [] 1) 0).2 (by decide)⟩

/-- C12, counterexample.  No line of the settings file `longUserSettings` is the auto
string, and its last line is `Aged*Y: 2`.  The file that WriteSettings writes when it
saves the configuration starts with the first line and the 255 exclamation marks,
followed at once by the auto string: there is no blank line before the auto string, and
the line `Aged*Y: 2` is not a line of the new file. -/
theorem C12_long_line_counterexample :
    kAutoStr ∉ textLines longUserSettings ∧
      "Aged*Y: 2\n".toList ∈ textLines longUserSettings ∧
      ("Aged*X: 1\n".toList ++ List.replicate 255 '!' ++ kAutoStr ++ ['\n']) <+:
        ((WriteSettings (sampleSaveEnv (some longUserSettings) 1) (sampleResource [] 1)
          0).fs samplePath).getD [] ∧
      "Aged*Y: 2\n".toList ∉
        textLines (((WriteSettings (sampleSaveEnv (some longUserSettings) 1)
          (sampleResource [] 1) 0).fs samplePath).getD []) ∧
      ¬ (longUserSettings ++ '\n' :: kAutoStr) <+:
        ((WriteSettings (sampleSaveEnv (some longUserSettings) 1) (sampleResource [] 1)
          0).fs samplePath).getD [] := by
  rw [writeSettings_force (sampleSaveEnv (some longUserSettings) 1) (sampleResource [] 1) 0
    samplePath (by decide!) (Or.inr (by decide)) rfl (fun _ => rfl) rfl]
  decide!

/-- C12.  `p` is the path of the settings file.  When the settings file exists, the
settings file after WriteSettings either has its old contents or starts with the strings
that fgets reads from the old file through the 256-byte buffer which precede the first of
them equal to the auto string, unchanged and in order, followed by the auto string; when
none of these strings is the auto string, all of them are copied, followed by a blank line
and the auto string.  When no settings file exists, there is none afterwards or it starts
with a blank line and the auto string. -/
theorem C12_user_part_kept (e : SaveEnv) (res : AgedResource) (force_save : Int)
    (p : List Char) (hp : GetSettingsFilename e.sSettingsFilename e.home [] = (1, p)) :
    (∀ old : List Char, e.fs p = some old →
      (WriteSettings e res force_save).fs p = some old ∨
        ∃ tail : List Char, (WriteSettings e res force_save).fs p =
          some (userPart (fileLines old) ++ kAutoStr ++ tail)) ∧
    (e.fs p = none →
      (WriteSettings e res force_save).fs p = none ∨
        ∃ tail : List Char,
          (WriteSettings e res force_save).fs p = some ('\n' :: kAutoStr ++ tail)) := by
  constructor
  · intro old hold
    have := writeSettings_fs e res force_save p hp (fileLines old)
      (by unfold sourceStrings; rw [hold])
    rw [hold] at this
    exact this
  · intro hnone
    have := writeSettings_fs e res force_save p hp []
      (by unfold sourceStrings; rw [hnone])
    rw [hnone] at this
    exact this

/-- C12, witness: the settings file `savingSettings`, with one line before the auto
string. -/
theorem C12_user_part_kept_witness :
    (WriteSettings (sampleSaveEnv (some savingSettings) 1) (sampleResource [] 1) 0).fs
        samplePath = some savingSettings ∨
      ∃ tail : List Char,
        (WriteSettings (sampleSaveEnv (some savingSettings) 1) (sampleResource [] 1) 0).fs
          samplePath = some (userPart (fileLines savingSettings) ++ kAutoStr ++ tail) :=
  (C12_user_part_kept (sampleSaveEnv (some savingSettings) 1) (sampleResource [] 1) 0
    samplePath (by decide!)).1 savingSettings (by decide!)

theorem fmtFloat2_decimals (x : ℚ) :
    ∃ whole : List Char, ∃ d1 d2 : Char, fmtFloat2 x = whole ++ ['.', d1, d2] ∧
      d1.isDigit = true ∧ d2.isDigit = true := by
  refine ⟨(if x < 0 then ['-'] else []) ++ fmtNat (roundHalfEven (|x| * 100) / 100),
    Nat.digitChar (roundHalfEven (|x| * 100) % 100 / 10 % 10),
    Nat.digitChar (roundHalfEven (|x| * 100) % 100 % 10), ?_, ?_, ?_⟩
  · simp [fmtFloat2, twoDigits]
  · exact digitChar_isDigit _ (Nat.mod_lt _ (by decide))
  · exact digitChar_isDigit _ (Nat.mod_lt _ (by decide))

theorem resourceValue_pixel (e : SaveEnv) (res : AgedResource) (r : XtResource)
    (ht : r.resource_type = XtRPixel) (hf : r.resource_offset.inColset = true)
    (hc : ∀ c, e.colourNumber c < e.NUM_COLOURS) :
    resourceValue e res r =
      "rgb:".toList ++
        fmtHex2 ((e.sColours (pixelIndex e r.resource_offset).toNat).red % 65536 / 256) ++ '/' ::
        fmtHex2 ((e.sColours (pixelIndex e r.resource_offset).toNat).green % 65536 / 256) ++
        '/' ::
        fmtHex2 ((e.sColours (pixelIndex e r.resource_offset).toNat).blue % 65536 / 256) ++
        ['\n'] := by
  unfold resourceValue
  rw [ht, if_neg (by decide), if_neg (by decide), if_neg (by decide), if_pos rfl,
    if_pos (pixelIndex_range e _ hf hc)]

theorem channel_lt (n : Nat) : n % 65536 / 256 < 256 := by omega

theorem unsaved_names :
    (sResourceListHead ++ sResourceListUnsaved).map (fun r => r.resource_name) =
      ["resource_version".toList, "hist_bins".toList, "num_cols".toList, "det_cols".toList,
        "proj_min".toList, "proj_max".toList, "proj_screen".toList, "hist_font".toList,
        "label_font".toList, "label_big_font".toList, "file_path".toList, "black_col".toList,
        "white_col".toList] ∧
      sResourceListXft.map (fun r => r.resource_name) =
        ["xft_hist_font".toList, "xft_label_font".toList, "xft_label_big_font".toList] ∧
      sResourceListSettings.head?.map (fun r => r.resource_name) = some "version".toList := by
  decide!

theorem savedEntries_list : ∀ r ∈ sResourceListSettings ++ sResourceListColours ++
    sResourceListAltColours,
    (r.resource_type = XtRString ∨ r.resource_type = XtRInt ∨ r.resource_type = XtRFloat ∨
      r.resource_type = XtRPixel) ∧
    (r.resource_type = XtRPixel → r.resource_offset.inColset = true) := by
  intro r hr
  rw [← fromVersion_table false] at hr
  exact savedEntries false r hr

/-- C13, counterexample.  The label format of the resources holds a newline, a string that
a resource file gives with the escape `\n`.  The saved file has the line of label_format
with the text up to the newline, and then the line `Event: %ev`, which is not the line of
an entry of the table. -/
theorem C13_newline_in_string_counterexample :
    (sampleResource "Run: %rn\nEvent: %ev".toList 1).strings (.member "label_format_pt") =
        "Run: %rn\nEvent: %ev".toList ∧
      "Aged.label_format:\t\tRun: %rn\n".toList ∈
        textLines (((WriteSettings (sampleSaveEnv (some savingSettings) 1)
          (sampleResource "Run: %rn\nEvent: %ev".toList 1) 0).fs samplePath).getD []) ∧
      "Event: %ev\n".toList ∈
        textLines (((WriteSettings (sampleSaveEnv (some savingSettings) 1)
          (sampleResource "Run: %rn\nEvent: %ev".toList 1) 0).fs samplePath).getD []) := by
  rw [writeSettings_force (sampleSaveEnv (some savingSettings) 1)
    (sampleResource "Run: %rn\nEvent: %ev".toList 1) 0 samplePath (by decide!)
    (Or.inr (by decide)) rfl (fun _ => rfl) rfl]
  decide!

/-- C13.  `p` is the path of the settings file.  When force_save or save_config is not 0,
the temporary file can be created, every write and the rename succeed and the colour
numbers of the header are below NUM_COLOURS, the settings file written is: the user's part
and the auto string, a blank line, the texts of the window geometries, then for each entry
of the resource table from the one named `version` to the end of the table, in table
order, the text `Aged.<name>:` plus tabs plus value plus newline, then a blank line.  The
entries of the table before `version` are resource_version, hist_bins, num_cols, det_cols,
proj_min, proj_max, proj_screen, the fonts, file_path, black_col and white_col, and none
of them has a text.  The value of a string is the string as it is, that of an integer its
decimal numeral, that of a float a numeral with exactly two decimals, and that of a pixel
is `rgb:rr/gg/bb`, where rr, gg and bb are the two lower-case hexadecimal digits of the
top 8 bits of the 16-bit channels of its stored colour. -/
theorem C13_saved_configuration (e : SaveEnv) (res : AgedResource) (force_save : Int)
    (p : List Char) (hp : GetSettingsFilename e.sSettingsFilename e.home [] = (1, p))
    (hf : force_save ≠ 0 ∨ res.save_config ≠ 0)
    (ht : e.tempOk = true) (hok : ∀ n, e.writeOk n = true) (hr : e.renameOk = true)
    (hc : ∀ c, e.colourNumber c < e.NUM_COLOURS) :
    (WriteSettings e res force_save).fs p =
        some (userPart (sourceStrings e.fs p) ++ kAutoStr ++
          ('\n' :: (e.database.map (geometryText e.childWindows)).flatten ++
            ((sResourceListSettings ++ sResourceListColours ++ sResourceListAltColours).map
              (resourceText e res)).flatten ++ ['\n'])) ∧
      sResourceList e.antiAlias =
        sResourceListHead ++ (if e.antiAlias then sResourceListXft else []) ++
          sResourceListUnsaved ++
          (sResourceListSettings ++ sResourceListColours ++ sResourceListAltColours) ∧
      (sResourceListHead ++ sResourceListUnsaved).map (fun r => r.resource_name) =
        ["resource_version".toList, "hist_bins".toList, "num_cols".toList, "det_cols".toList,
          "proj_min".toList, "proj_max".toList, "proj_screen".toList, "hist_font".toList,
          "label_font".toList, "label_big_font".toList, "file_path".toList,
          "black_col".toList, "white_col".toList] ∧
      sResourceListXft.map (fun r => r.resource_name) =
        ["xft_hist_font".toList, "xft_label_font".toList, "xft_label_big_font".toList] ∧
      sResourceListSettings.head?.map (fun r => r.resource_name) = some "version".toList ∧
      ∀ r ∈ sResourceListSettings ++ sResourceListColours ++ sResourceListAltColours,
        resourceText e res r =
            "Aged.".toList ++ r.resource_name ++ [':'] ++
              List.replicate (max 1 (4 - ((r.resource_name.length + 6 : Nat) : Int) / 8)).toNat
                '\t' ++ resourceValue e res r ∧
          (r.resource_type = XtRString ∨ r.resource_type = XtRInt ∨
            r.resource_type = XtRFloat ∨ r.resource_type = XtRPixel) ∧
          (r.resource_type = XtRString →
            resourceValue e res r = res.strings r.resource_offset ++ ['\n']) ∧
          (r.resource_type = XtRInt →
            resourceValue e res r = fmtInt (res.ints r.resource_offset) ++ ['\n']) ∧
          (r.resource_type = XtRFloat →
            resourceValue e res r = fmtFloat2 (res.floats r.resource_offset) ++ ['\n'] ∧
              ∃ whole : List Char, ∃ d1 d2 : Char,
                fmtFloat2 (res.floats r.resource_offset) = whole ++ ['.', d1, d2] ∧
                  d1.isDigit = true ∧ d2.isDigit = true) ∧
          (r.resource_type = XtRPixel →
            ∃ k : Nat, pixelIndex e r.resource_offset = (k : Int) ∧ k < 2 * e.NUM_COLOURS ∧
              resourceValue e res r =
                "rgb:".toList ++
                  [Nat.digitChar ((e.sColours k).red % 65536 / 256 / 16),
                    Nat.digitChar ((e.sColours k).red % 65536 / 256 % 16), '/',
                    Nat.digitChar ((e.sColours k).green % 65536 / 256 / 16),
                    Nat.digitChar ((e.sColours k).green % 65536 / 256 % 16), '/',
                    Nat.digitChar ((e.sColours k).blue % 65536 / 256 / 16),
                    Nat.digitChar ((e.sColours k).blue % 65536 / 256 % 16), '\n']) := by
  refine ⟨writeSettings_force e res force_save p hp hf ht hok hr, ?_, unsaved_names.1,
    unsaved_names.2.1, unsaved_names.2.2, ?_⟩
  · unfold sResourceList
    simp only [List.append_assoc]
  intro r hmem
  have hs := savedEntries_list r hmem
  refine ⟨?_, hs.1, ?_, ?_, ?_, ?_⟩
  · unfold resourceText paddedLabel labelText aged_class
    have hl : ("Aged".toList ++ '.' :: r.resource_name ++ [':']).length =
        r.resource_name.length + 6 := by
      simp only [List.length_append, List.length_cons, List.length_singleton]
      show 4 + (r.resource_name.length + 1) + 1 = _
      omega
    rw [hl]
    simp
  · intro h
    unfold resourceValue
    rw [if_pos h]
  · intro h
    unfold resourceValue
    rw [h, if_neg (by decide), if_pos rfl]
  · intro h
    refine ⟨?_, fmtFloat2_decimals _⟩
    unfold resourceValue
    rw [h, if_neg (by decide), if_neg (by decide), if_pos rfl]
  · intro h
    have hrange := pixelIndex_range e r.resource_offset (hs.2 h) hc
    refine ⟨(pixelIndex e r.resource_offset).toNat, (Int.toNat_of_nonneg hrange.1).symm, ?_, ?_⟩
    · have := hrange.2
      omega
    · rw [resourceValue_pixel e res r h (hs.2 h) hc, hexDigits _ (channel_lt _),
        hexDigits _ (channel_lt _), hexDigits _ (channel_lt _)]
      rfl

/-- C13, witness: the configuration saved over the settings file `savingSettings`. -/
theorem C13_saved_configuration_witness :
    (WriteSettings (sampleSaveEnv (some savingSettings) 1) (sampleResource [] 1) 0).fs
        samplePath =
      some (userPart (sourceStrings (sampleSaveEnv (some savingSettings) 1).fs samplePath) ++
        kAutoStr ++
        ('\n' :: ((sampleSaveEnv (some savingSettings) 1).database.map
            (geometryText false)).flatten ++
          ((sResourceListSettings ++ sResourceListColours ++ sResourceListAltColours).map
            (resourceText (sampleSaveEnv (some savingSettings) 1)
              (sampleResource [] 1))).flatten ++ ['\n'])) :=
  (C13_saved_configuration (sampleSaveEnv (some savingSettings) 1) (sampleResource [] 1) 0
    samplePath (by decide!) (Or.inr (by decide)) rfl (fun _ => rfl) rfl
    (fun _ => show 3 < 25 by decide)).1

theorem writeUser_rest (ok : Nat → Bool) (lines : List (List Char)) :
    (writeUser ok lines).2 = (lines.dropWhile fun l => l != kAutoStr).tail :=
  (copyUser_spec ok lines _).2.2

theorem writeSettings_copy (e : SaveEnv) (res : AgedResource) (p : List Char)
    (hp : GetSettingsFilename e.sSettingsFilename e.home [] = (1, p))
    (hs : res.save_config = 0) (hc : e.sResourceFileSaveConfig ≠ 0) (ht : e.tempOk = true) :
    WriteSettings e res 0 = saveSettings e res 0 p (p ++ "_tmp".toList) := by
  have h1 : ¬ (res.save_config = 0 ∧ (0 : Int) = 0 ∧ e.sResourceFileSaveConfig = 0) :=
    fun h => hc h.2.2
  rw [writeSettings_cases e res 0 p hp, if_neg h1, if_pos ht, if_neg (not_not.mpr hs)]

theorem saveConfigText_zero : saveConfigText 0 = "Aged.save_config:\t\t0\n".toList := by
  decide!

/-- The value of save_config that WriteSettings finds recorded in a settings file whose
automatic section records 10: the file is left as it is. -/
theorem writeSettings_abandons_on_ten :
    "Aged.save_config:\t\t10\n".toList ∈ fileLines savingTenSettings ∧
      (WriteSettings (sampleSaveEnv (some savingTenSettings) 1) (sampleResource [] 0) 0).fs
        samplePath = some savingTenSettings ∧
      (WriteSettings (sampleSaveEnv (some savingTenSettings) 1) (sampleResource [] 0)
        0).trace.getLast? = some (Op.unlink (samplePath ++ "_tmp".toList)) := by
  decide!

/-- C14, counterexample.  The automatic section of `longSaveConfigSettings` is one line of
269 characters that holds `.save_config:`; the file written holds the line of save_config
and, after it, the end of the old line as a line of its own. -/
theorem C14_long_line_counterexample :
    textLines longSaveConfigSettings =
        [kAutoStr, List.replicate 236 ' ' ++ "Aged.save_config: 1\t!0 is off\n".toList] ∧
      (sampleResource [] 0).save_config = 0 ∧
      (WriteSettings (sampleSaveEnv (some longSaveConfigSettings) 1) (sampleResource [] 0)
        0).fs samplePath =
        some (kAutoStr ++ "Aged.save_config:\t\t0\n\t!0 is off\n".toList) := by
  decide!

/-- C14.  `p` is the path of the settings file; save_config of the resources and
force_save are 0, sResourceFileSaveConfig is not, and the temporary file can be created.
The strings of the automatic section are the strings that fgets reads from the old file
after the first one equal to the auto string.  If the character before the newline is not
`0` in any of them that holds `.save_config:`, and every write and the rename succeed, the
settings file written is the user's part, the auto string, and each string of the
automatic section, one that holds `.save_config:` replaced by the line
`Aged.save_config:` with two tabs and 0, followed when no string holds `.save_config:` by
a blank line, that line and a blank line.  If the first string that holds `.save_config:`
ends with blanks, `0` and the newline after it, the settings file and
sResourceFileSaveConfig are left as they are and there is no temporary file. -/
theorem C14_configuration_copied (e : SaveEnv) (res : AgedResource) (p : List Char)
    (hp : GetSettingsFilename e.sSettingsFilename e.home [] = (1, p))
    (hs : res.save_config = 0) (hc : e.sResourceFileSaveConfig ≠ 0) (ht : e.tempOk = true) :
    ((∀ n, e.writeOk n = true) → e.renameOk = true →
      (∀ b ∈ ((sourceStrings e.fs p).dropWhile fun l => l != kAutoStr).tail,
        (strstr b ".save_config:".toList).isSome = true → saveConfigIsZero b = false) →
      (WriteSettings e res 0).fs p =
          some (userPart (sourceStrings e.fs p) ++ kAutoStr ++
            ((((sourceStrings e.fs p).dropWhile fun l => l != kAutoStr).tail.map
              fun b => if (strstr b ".save_config:".toList).isSome
                then "Aged.save_config:\t\t0\n".toList else b).flatten ++
              (if (((sourceStrings e.fs p).dropWhile fun l => l != kAutoStr).tail.any fun b =>
                  (strstr b ".save_config:".toList).isSome) then []
                else "\nAged.save_config:\t\t0\n\n".toList))) ∧
        (WriteSettings e res 0).fs (p ++ "_tmp".toList) = none) ∧
    (∀ r1 r2 : List (List Char), ∀ pre ws : List Char,
      ((sourceStrings e.fs p).dropWhile fun l => l != kAutoStr).tail =
        r1 ++ (pre ++ ".save_config:".toList ++ ws ++ ['0', '\n']) :: r2 →
      (∀ c ∈ r1, strstr c ".save_config:".toList = none) →
      '\n' ∉ pre → (∀ c ∈ ws, c = ' ' ∨ c = '\t') →
      (WriteSettings e res 0).fs p = e.fs p ∧
        (WriteSettings e res 0).fs (p ++ "_tmp".toList) = none ∧
        (WriteSettings e res 0).sResourceFileSaveConfig = e.sResourceFileSaveConfig) := by
  rw [writeSettings_copy e res p hp hs hc ht]
  constructor
  · intro hok hr hz
    have h := saveSettings_copy e res p hok hr _ rfl hz
    refine ⟨?_, h.2.1⟩
    rw [h.1, hs]
    have hct : (fun b => if (strstr b ".save_config:".toList).isSome = true
        then "Aged.save_config:\t\t0\n".toList else b) = configText 0 := by
      funext b
      unfold configText
      rw [saveConfigText_zero]
    rw [hct, saveConfigText_zero]
    rfl
  · intro r1 r2 pre ws hrest hr1 hpre hws
    have hb : (strstr (pre ++ ".save_config:".toList ++ ws ++ ['0', '\n'])
        ".save_config:".toList).isSome = true :=
      strstr_isSome _ _ ⟨pre, ws ++ ['0', '\n'], by simp only [List.append_assoc]⟩
    have hn : '\n' ∉ pre ++ ".save_config:".toList ++ ws := by
      simp only [List.mem_append, not_or]
      refine ⟨⟨hpre, by decide⟩, ?_⟩
      intro hm
      rcases hws _ hm with h | h <;> exact absurd h (by decide)
    have hb0 := saveConfigIsZero_zero _ hn
    have hz : ∀ c ∈ r1, (strstr c ".save_config:".toList).isSome = true →
        saveConfigIsZero c = false := by
      intro c hc1 hsome
      rw [hr1 c hc1] at hsome
      cases hsome
    exact saveSettings_return e res p _ r1 r2 _ rfl
      ((writeUser_rest e.writeOk _).trans hrest) hz hb hb0

/-- C14, witness: the settings file `savingSettings` records save_config 1 and is
rewritten; the settings file `notSavingSettings` records 0 and is left as it is. -/
theorem C14_configuration_copied_witness :
    (WriteSettings (sampleSaveEnv (some savingSettings) 1) (sampleResource [] 0) 0).fs
        samplePath =
      some ("Aged*X: 1\n".toList ++ kAutoStr ++
        "Aged.save_config:\t\t0\nAged.smooth:\t\t\t3\n".toList) ∧
    (WriteSettings (sampleSaveEnv (some notSavingSettings) 1) (sampleResource [] 0) 0).fs
        samplePath = some notSavingSettings := by
  constructor
  · have h := ((C14_configuration_copied (sampleSaveEnv (some savingSettings) 1)
      (sampleResource [] 0) samplePath (by decide!) rfl (by decide) rfl).1
      (fun _ => rfl) rfl (by decide!)).1
    refine h.trans ?_
    decide!
  · have h := ((C14_configuration_copied (sampleSaveEnv (some notSavingSettings) 1)
      (sampleResource [] 0) samplePath (by decide!) rfl (by decide) rfl).2
      [] ["Aged.smooth:\t\t\t3\n".toList] "Aged".toList "\t\t".toList (by decide!)
      (by decide) (by decide) (by decide)).1
    refine h.trans ?_
    decide!

/-- C15 (defect of the code).  The settings file is `savingSettings` and the configuration
is saved; the fourth write to the temporary file fails, the `fprintf` of WritePaddedLabel
that writes the label of the window geometry.  No error is noticed: the temporary file is
renamed over the settings file, which then holds the geometry without its label. -/
theorem C15_failed_write_goes_unnoticed :
    (writeFailEnv (some savingSettings) 1 3).writeOk 3 = false ∧
      (WriteSettings (writeFailEnv (some savingSettings) 1 3) (sampleResource [] 1) 0).trace.take
          6 =
        [Op.fopenWrite (samplePath ++ "_tmp".toList), Op.fopenRead samplePath,
          Op.fputs "Aged*X: 1\n".toList, Op.fputs kAutoStr, Op.fputs ['\n'],
          Op.fprintf "Event Display.geometry:".toList] ∧
      (WriteSettings (writeFailEnv (some savingSettings) 1 3) (sampleResource [] 1)
          0).trace.getLast? =
        some (Op.rename (samplePath ++ "_tmp".toList) samplePath) ∧
      (WriteSettings (writeFailEnv (some savingSettings) 1 3) (sampleResource [] 1) 0).fs
          samplePath ≠ some savingSettings ∧
      ("Aged*X: 1\n".toList ++ kAutoStr ++ "\n\t\t\t\t100x200+5+7\nAged.version:".toList) <+:
        ((WriteSettings (writeFailEnv (some savingSettings) 1 3) (sampleResource [] 1) 0).fs
          samplePath).getD [] := by
  decide!

/-! ## AllocColours -/

theorem allocLoop_error (k : ColourConsts) (x : XServer) (colour : List Pixel)
    (col_seeds : List XColor) (num nseeds overscale flags : Int) (cells : Bool)
    (idx : List Nat) (l : AllocLoop) (stop : Stop)
    (h : allocLoop k x colour col_seeds num nseeds overscale flags cells idx l = .error stop) :
    stop = .undefined "division by zero" := by
  induction idx generalizing l with
  | nil => cases h
  | cons i rest ih =>
    unfold allocLoop at h
    split at h
    · cases h; rfl
    · split at h
      · exact ih _ h
      · split at h
        · exact ih _ h
        · exact ih _ h

theorem allocColours_error (k : ColourConsts) (x : XServer) (num : Int) (col : ColourPtr)
    (first nseeds overscale extras : Int) (s : ColourState) (flags : Int)
    (block : List Pixel) (cells : Bool) (calls : List XCall) (stop : Stop)
    (h : allocColours k x num col first nseeds overscale extras s flags block cells calls =
      .error stop) :
    stop = .undefined "division by zero" := by
  unfold allocColours at h
  dsimp only at h
  split at h
  · rename_i e he
    cases h
    exact allocLoop_error _ _ _ _ _ _ _ _ _ _ _ _ he
  · cases h

theorem allocChecks_isSome (num : Int) (col : ColourPtr) (nseeds overscale : Int) :
    (allocChecks num col nseeds overscale).isSome = true ↔
      ((col ≠ .scale_col ∧ col ≠ .det_col) ∨ nseeds < (if overscale ≠ 0 then 4 else 2) ∨
        nseeds > 10 ∨ num > 256) := by
  unfold allocChecks MAX_COLOUR_SEEDS MAX_COLOURS
  by_cases h1 : col = .other
  · rw [if_pos h1]
    subst h1
    simp
  · have h1' : col = .scale_col ∨ col = .det_col := by
      cases col
      · exact Or.inl rfl
      · exact Or.inr rfl
      · exact absurd rfl h1
    have h1'' : ¬ (col ≠ .scale_col ∧ col ≠ .det_col) := by
      rintro ⟨a, b⟩
      rcases h1' with h | h
      · exact a h
      · exact b h
    rw [if_neg h1]
    by_cases h2 : nseeds < (if overscale ≠ 0 then 4 else 2)
    · rw [if_pos h2]
      exact ⟨fun _ => Or.inr (Or.inl h2), fun _ => rfl⟩
    · rw [if_neg h2]
      by_cases h3 : nseeds > 10
      · rw [if_pos h3]
        exact ⟨fun _ => Or.inr (Or.inr (Or.inl h3)), fun _ => rfl⟩
      · rw [if_neg h3]
        by_cases h4 : num > 256
        · rw [if_pos h4]
          exact ⟨fun _ => Or.inr (Or.inr (Or.inr h4)), fun _ => rfl⟩
        · rw [if_neg h4]
          constructor
          · intro h
            cases h
          · rintro (h | h | h | h)
            · exact absurd h h1''
            · exact absurd h h2
            · exact absurd h h3
            · exact absurd h h4

theorem allocColours_quit (k : ColourConsts) (x : XServer) (num : Int) (col : ColourPtr)
    (first nseeds overscale extras : Int) (s : ColourState)
    (hc : allocChecks num col nseeds overscale = none) (msg : String) (calls : List XCall)
    (h : AllocColours k x num col first nseeds overscale extras s = .error (.quit msg calls)) :
    msg = "Not enough memory for colour allocation" ∧
      calls = s.calls ++ [.XtMalloc (num + extras)] := by
  unfold AllocColours at h
  rw [hc] at h
  dsimp only at h
  split at h
  · split at h
    · split at h
      · cases allocColours_error _ _ _ _ _ _ _ _ _ _ _ _ _ _ h
      · cases allocColours_error _ _ _ _ _ _ _ _ _ _ _ _ _ _ h
    · cases h
      exact ⟨rfl, rfl⟩
  · cases allocColours_error _ _ _ _ _ _ _ _ _ _ _ _ _ _ h

/-- C16.  The argument checks of AllocColours call `quit` exactly when `col` is neither the
address of sResource.scale_col nor that of sResource.det_col, or nseeds is below 4 with
overscale or below 2 without, or nseeds exceeds 10, or num exceeds 256.  When a check
calls `quit`, AllocColours has made no call before, so the colour map is untouched; when
none does, AllocColours calls `quit` only after XtMalloc has given no block. -/
theorem C16_alloc_colours_checks (k : ColourConsts) (x : XServer) (num : Int)
    (col : ColourPtr) (first nseeds overscale extras : Int) (s : ColourState) :
    ((allocChecks num col nseeds overscale).isSome = true ↔
      ((col ≠ .scale_col ∧ col ≠ .det_col) ∨ nseeds < (if overscale ≠ 0 then 4 else 2) ∨
        nseeds > 10 ∨ num > 256)) ∧
    (∀ msg : String, allocChecks num col nseeds overscale = some msg →
      AllocColours k x num col first nseeds overscale extras s = .error (.quit msg s.calls)) ∧
    (allocChecks num col nseeds overscale = none →
      AllocColours k x num col first nseeds overscale extras s =
          .error (.quit "Not enough memory for colour allocation"
            (s.calls ++ [.XtMalloc (num + extras)])) ∨
        ∀ (msg : String) (calls : List XCall),
          AllocColours k x num col first nseeds overscale extras s ≠
            .error (.quit msg calls)) := by
  refine ⟨allocChecks_isSome num col nseeds overscale, ?_, ?_⟩
  · intro msg hm
    unfold AllocColours
    rw [hm]
  · intro hc
    by_cases h : ∃ (msg : String) (calls : List XCall),
        AllocColours k x num col first nseeds overscale extras s = .error (.quit msg calls)
    · obtain ⟨msg, calls, h⟩ := h
      obtain ⟨h1, h2⟩ :=
        allocColours_quit k x num col first nseeds overscale extras s hc msg calls h
      rw [h1, h2] at h
      exact Or.inl h
    · exact Or.inr fun msg calls h' => h ⟨msg, calls, h'⟩

/-- C16, witness: three seeds with overscale are too few; the calls of SetColours pass the
checks. -/
theorem C16_alloc_colours_checks_witness :
    AllocColours sampleConsts sampleServer 5 .scale_col 3 3 1 1 sampleColours =
        .error (.quit "Too few colour seeds!" []) ∧
      (AllocColours sampleConsts sampleServer 5 .scale_col 3 7 1 1 sampleColours =
          .error (.quit "Not enough memory for colour allocation" ([] ++ [.XtMalloc (5 + 1)])) ∨
        ∀ (msg : String) (calls : List XCall),
          AllocColours sampleConsts sampleServer 5 .scale_col 3 7 1 1 sampleColours ≠
            .error (.quit msg calls)) :=
  ⟨(C16_alloc_colours_checks sampleConsts sampleServer 5 .scale_col 3 3 1 1 sampleColours).2.1
      "Too few colour seeds!" rfl,
    (C16_alloc_colours_checks sampleConsts sampleServer 5 .scale_col 3 7 1 1 sampleColours).2.2
      (by decide)⟩

/-! ## Rounding to single precision -/

theorem rat_floor_eq (x : ℚ) : x.floor = ⌊x⌋ := rfl

theorem roundHalfEven_cases (x : ℚ) (hx : 0 ≤ x) :
    ((roundHalfEven x : Int) = ⌊x⌋ ∧ (x - ⌊x⌋ < 1 / 2 ∨ (x - ⌊x⌋ = 1 / 2 ∧ ⌊x⌋ % 2 = 0))) ∨
      ((roundHalfEven x : Int) = ⌊x⌋ + 1 ∧
        (1 / 2 < x - ⌊x⌋ ∨ (x - ⌊x⌋ = 1 / 2 ∧ ⌊x⌋ % 2 = 1))) := by
  have hf : 0 ≤ ⌊x⌋ := Int.floor_nonneg.mpr hx
  have hn : ((⌊x⌋.toNat : Nat) : Int) = ⌊x⌋ := Int.toNat_of_nonneg hf
  unfold roundHalfEven
  simp only [rat_floor_eq]
  by_cases h1 : x - ⌊x⌋ < 1 / 2
  · rw [if_pos h1]
    exact Or.inl ⟨hn, Or.inl h1⟩
  · rw [if_neg h1]
    by_cases h2 : 1 / 2 < x - ⌊x⌋
    · rw [if_pos h2]
      exact Or.inr ⟨by push_cast; rw [hn], Or.inl h2⟩
    · rw [if_neg h2]
      have he : x - ⌊x⌋ = 1 / 2 := le_antisymm (not_lt.mp h2) (not_lt.mp h1)
      by_cases h3 : ⌊x⌋.toNat % 2 = 0
      · rw [if_pos h3]
        exact Or.inl ⟨hn, Or.inr ⟨he, by omega⟩⟩
      · rw [if_neg h3]
        exact Or.inr ⟨by push_cast; rw [hn], Or.inr ⟨he, by omega⟩⟩

theorem roundHalfEven_near (x : ℚ) (hx : 0 ≤ x) :
    x - 1 / 2 ≤ (roundHalfEven x : ℚ) ∧ (roundHalfEven x : ℚ) ≤ x + 1 / 2 := by
  have hc := roundHalfEven_cases x hx
  have h1 : (⌊x⌋ : ℚ) ≤ x := Int.floor_le x
  have h2 : x < (⌊x⌋ : ℚ) + 1 := Int.lt_floor_add_one x
  have cast : ((roundHalfEven x : Nat) : ℚ) = (((roundHalfEven x : Nat) : Int) : ℚ) := by
    push_cast; rfl
  rcases hc with ⟨e, h⟩ | ⟨e, h⟩
  · rw [cast, e]
    rcases h with h | ⟨h, -⟩ <;> constructor <;> linarith
  · rw [cast, e]
    push_cast
    rcases h with h | ⟨h, -⟩ <;> constructor <;> linarith

theorem roundHalfEven_mono (x y : ℚ) (hx : 0 ≤ x) (hxy : x ≤ y) :
    roundHalfEven x ≤ roundHalfEven y := by
  have hy : 0 ≤ y := le_trans hx hxy
  have hfl : ⌊x⌋ ≤ ⌊y⌋ := Int.floor_mono hxy
  have cx := roundHalfEven_cases x hx
  have cy := roundHalfEven_cases y hy
  have goal : (roundHalfEven x : Int) ≤ (roundHalfEven y : Int) := by
    rcases cx with ⟨ex, hx'⟩ | ⟨ex, hx'⟩
    · rcases cy with ⟨ey, -⟩ | ⟨ey, -⟩ <;> omega
    · rcases cy with ⟨ey, hy'⟩ | ⟨ey, -⟩
      · by_cases hlt : ⌊x⌋ < ⌊y⌋
        · omega
        · have he : ⌊x⌋ = ⌊y⌋ := le_antisymm hfl (not_lt.mp hlt)
          exfalso
          rw [he] at hx'
          rcases hx' with a | ⟨a, pa⟩ <;> rcases hy' with b | ⟨b, pb⟩
          · linarith
          · linarith
          · linarith
          · omega
      · omega
  exact_mod_cast goal

theorem roundHalfEven_natCast (n : Nat) : roundHalfEven (n : ℚ) = n := by
  have hc := roundHalfEven_cases (n : ℚ) (Nat.cast_nonneg n)
  have hf : ⌊(n : ℚ)⌋ = (n : Int) := Int.floor_natCast n
  rw [hf] at hc
  have hz : ((n : ℚ) - ((n : Int) : ℚ)) = 0 := by push_cast; ring
  rw [hz] at hc
  rcases hc with ⟨e, -⟩ | ⟨-, h⟩
  · exact_mod_cast e
  · rcases h with h | ⟨h, -⟩ <;> norm_num at h

theorem abs_eq_num_den (x : ℚ) : |x| = (x.num.natAbs : ℚ) / (x.den : ℚ) := by
  have h := Rat.num_div_den x
  have hd : (0 : ℚ) < (x.den : ℚ) := by exact_mod_cast x.den_pos
  rw [Nat.cast_natAbs]
  conv_lhs => rw [← h]
  rw [abs_div, abs_of_pos hd]
  push_cast
  rfl

theorem ilog2Fuel_bounds (fuel n : Nat) (hn : n ≠ 0) (hf : n ≤ fuel) :
    2 ^ ilog2Fuel fuel n ≤ n ∧ n < 2 ^ (ilog2Fuel fuel n + 1) := by
  induction fuel generalizing n with
  | zero => omega
  | succ fuel ih =>
    unfold ilog2Fuel
    by_cases h : 2 ≤ n
    · rw [if_pos h]
      have := ih (n / 2) (by omega) (by omega)
      rw [pow_succ] at this
      rw [pow_succ, pow_succ, pow_succ]
      omega
    · rw [if_neg h]
      have : n = 1 := by omega
      subst this
      exact ⟨by decide, by decide⟩

theorem log2_bounds (n : Nat) (hn : n ≠ 0) :
    (2 : ℚ) ^ (ilog2 n : Int) ≤ (n : ℚ) ∧ (n : ℚ) < (2 : ℚ) ^ ((ilog2 n : Int) + 1) := by
  have h1 : 2 ^ ilog2 n ≤ n := (ilog2Fuel_bounds n n hn (le_refl n)).1
  have h2 : n < 2 ^ (ilog2 n + 1) := (ilog2Fuel_bounds n n hn (le_refl n)).2
  constructor
  · rw [zpow_natCast]
    exact_mod_cast h1
  · have : ((ilog2 n : Int) + 1) = ((ilog2 n + 1 : Nat) : Int) := by push_cast; rfl
    rw [this, zpow_natCast]
    exact_mod_cast h2

theorem binExp_spec (x : ℚ) (hx : x ≠ 0) :
    (2 : ℚ) ^ binExp x ≤ |x| ∧ |x| < (2 : ℚ) ^ (binExp x + 1) := by
  have hn : x.num.natAbs ≠ 0 := by
    intro h
    exact hx (Rat.num_eq_zero.mp (Int.natAbs_eq_zero.mp h))
  have hd : x.den ≠ 0 := x.den_nz
  have bn := log2_bounds x.num.natAbs hn
  have bd := log2_bounds x.den hd
  have habs := abs_eq_num_den x
  have hdpos : (0 : ℚ) < (x.den : ℚ) := by exact_mod_cast x.den_pos
  have two : (2 : ℚ) ≠ 0 := two_ne_zero
  have hpb : (0 : ℚ) < (2 : ℚ) ^ (ilog2 x.den : Int) := zpow_pos (by norm_num) _
  have hpb1 : (0 : ℚ) < (2 : ℚ) ^ ((ilog2 x.den : Int) + 1) := zpow_pos (by norm_num) _
  -- upper bound
  have hup : |x| < (2 : ℚ) ^ ((ilog2 x.num.natAbs : Int) - (ilog2 x.den : Int) + 1) := by
    have e : (2 : ℚ) ^ ((ilog2 x.num.natAbs : Int) - (ilog2 x.den : Int) + 1) =
        (2 : ℚ) ^ ((ilog2 x.num.natAbs : Int) + 1) / (2 : ℚ) ^ (ilog2 x.den : Int) := by
      rw [← zpow_sub₀ two]
      congr 1
      ring
    rw [e, habs, div_lt_div_iff₀ hdpos hpb]
    calc (x.num.natAbs : ℚ) * (2 : ℚ) ^ (ilog2 x.den : Int)
        ≤ (x.num.natAbs : ℚ) * (x.den : ℚ) :=
          mul_le_mul_of_nonneg_left bd.1 (Nat.cast_nonneg _)
      _ < (2 : ℚ) ^ ((ilog2 x.num.natAbs : Int) + 1) * (x.den : ℚ) :=
          mul_lt_mul_of_pos_right bn.2 hdpos
  -- lower bound
  have hlow : (2 : ℚ) ^ ((ilog2 x.num.natAbs : Int) - (ilog2 x.den : Int) - 1) ≤ |x| := by
    have e : (2 : ℚ) ^ ((ilog2 x.num.natAbs : Int) - (ilog2 x.den : Int) - 1) =
        (2 : ℚ) ^ (ilog2 x.num.natAbs : Int) / (2 : ℚ) ^ ((ilog2 x.den : Int) + 1) := by
      rw [← zpow_sub₀ two]
      congr 1
      ring
    rw [e, habs, div_le_div_iff₀ hpb1 hdpos]
    calc (2 : ℚ) ^ (ilog2 x.num.natAbs : Int) * (x.den : ℚ)
        ≤ (x.num.natAbs : ℚ) * (x.den : ℚ) :=
          mul_le_mul_of_nonneg_right bn.1 (le_of_lt hdpos)
      _ ≤ (x.num.natAbs : ℚ) * (2 : ℚ) ^ ((ilog2 x.den : Int) + 1) :=
          mul_le_mul_of_nonneg_left (le_of_lt bd.2) (Nat.cast_nonneg _)
  unfold binExp
  by_cases h : (2 : ℚ) ^ ((ilog2 x.num.natAbs : Int) - (ilog2 x.den : Int)) ≤ |x|
  · rw [if_pos h]
    exact ⟨h, hup⟩
  · rw [if_neg h]
    refine ⟨hlow, ?_⟩
    have : (ilog2 x.num.natAbs : Int) - (ilog2 x.den : Int) - 1 + 1 =
        (ilog2 x.num.natAbs : Int) - (ilog2 x.den : Int) := by ring
    rw [this]
    exact not_le.mp h

theorem roundSingle_pos_eq (x : ℚ) (hx : 0 < x) :
    roundSingle x =
      (roundHalfEven (x / (2 : ℚ) ^ (binExp x - 23)) : ℚ) * (2 : ℚ) ^ (binExp x - 23) := by
  unfold roundSingle
  rw [if_neg (ne_of_gt hx), if_neg (not_lt.mpr (le_of_lt hx)), abs_of_pos hx]

theorem ulp_pos (x : ℚ) : (0 : ℚ) < (2 : ℚ) ^ (binExp x - 23) := zpow_pos (by norm_num) _

theorem significand_bounds (x : ℚ) (hx : 0 < x) :
    ((2 ^ 23 : Nat) : ℚ) ≤ x / (2 : ℚ) ^ (binExp x - 23) ∧
      x / (2 : ℚ) ^ (binExp x - 23) < ((2 ^ 24 : Nat) : ℚ) := by
  have hs := binExp_spec x (ne_of_gt hx)
  rw [abs_of_pos hx] at hs
  have hu := ulp_pos x
  have two : (2 : ℚ) ≠ 0 := two_ne_zero
  have e1 : (2 : ℚ) ^ binExp x = ((2 ^ 23 : Nat) : ℚ) * (2 : ℚ) ^ (binExp x - 23) := by
    have : ((2 ^ 23 : Nat) : ℚ) = (2 : ℚ) ^ (23 : Int) := by norm_num
    rw [this, ← zpow_add₀ two]
    congr 1
    ring
  have e2 : (2 : ℚ) ^ (binExp x + 1) = ((2 ^ 24 : Nat) : ℚ) * (2 : ℚ) ^ (binExp x - 23) := by
    have : ((2 ^ 24 : Nat) : ℚ) = (2 : ℚ) ^ (24 : Int) := by norm_num
    rw [this, ← zpow_add₀ two]
    congr 1
    ring
  constructor
  · rw [le_div_iff₀ hu, ← e1]
    exact hs.1
  · rw [div_lt_iff₀ hu, ← e2]
    exact hs.2

theorem roundSingle_bounds (x : ℚ) (hx : 0 < x) :
    (2 : ℚ) ^ binExp x ≤ roundSingle x ∧ roundSingle x ≤ (2 : ℚ) ^ (binExp x + 1) := by
  have hb := significand_bounds x hx
  have hu := ulp_pos x
  have two : (2 : ℚ) ≠ 0 := two_ne_zero
  have hm0 : 0 ≤ x / (2 : ℚ) ^ (binExp x - 23) := le_of_lt (div_pos hx hu)
  have l1 : (2 ^ 23 : Nat) ≤ roundHalfEven (x / (2 : ℚ) ^ (binExp x - 23)) := by
    have := roundHalfEven_mono _ _ (Nat.cast_nonneg (2 ^ 23)) hb.1
    rwa [roundHalfEven_natCast] at this
  have l2 : roundHalfEven (x / (2 : ℚ) ^ (binExp x - 23)) ≤ (2 ^ 24 : Nat) := by
    have := roundHalfEven_mono _ _ hm0 (le_of_lt hb.2)
    rwa [roundHalfEven_natCast] at this
  have e1 : (2 : ℚ) ^ binExp x = ((2 ^ 23 : Nat) : ℚ) * (2 : ℚ) ^ (binExp x - 23) := by
    have : ((2 ^ 23 : Nat) : ℚ) = (2 : ℚ) ^ (23 : Int) := by norm_num
    rw [this, ← zpow_add₀ two]
    congr 1
    ring
  have e2 : (2 : ℚ) ^ (binExp x + 1) = ((2 ^ 24 : Nat) : ℚ) * (2 : ℚ) ^ (binExp x - 23) := by
    have : ((2 ^ 24 : Nat) : ℚ) = (2 : ℚ) ^ (24 : Int) := by norm_num
    rw [this, ← zpow_add₀ two]
    congr 1
    ring
  rw [roundSingle_pos_eq x hx, e1, e2]
  constructor
  · exact mul_le_mul_of_nonneg_right (by exact_mod_cast l1) (le_of_lt hu)
  · exact mul_le_mul_of_nonneg_right (by exact_mod_cast l2) (le_of_lt hu)

theorem roundSingle_zero : roundSingle 0 = 0 := by
  unfold roundSingle
  rw [if_pos rfl]

theorem roundSingle_nonneg (x : ℚ) (hx : 0 ≤ x) : 0 ≤ roundSingle x := by
  rcases eq_or_lt_of_le hx with h | h
  · rw [← h, roundSingle_zero]
  · exact le_trans (le_of_lt (zpow_pos (by norm_num) _)) (roundSingle_bounds x h).1

theorem roundSingle_mono (x y : ℚ) (hx : 0 ≤ x) (hxy : x ≤ y) :
    roundSingle x ≤ roundSingle y := by
  rcases eq_or_lt_of_le hx with h | h
  · rw [← h, roundSingle_zero]
    exact roundSingle_nonneg y (le_trans hx hxy)
  · have hy : 0 < y := lt_of_lt_of_le h hxy
    have sx := binExp_spec x (ne_of_gt h)
    have sy := binExp_spec y (ne_of_gt hy)
    rw [abs_of_pos h] at sx
    rw [abs_of_pos hy] at sy
    have hlt : (2 : ℚ) ^ binExp x < (2 : ℚ) ^ (binExp y + 1) :=
      lt_of_le_of_lt sx.1 (lt_of_le_of_lt hxy sy.2)
    have hexp : binExp x < binExp y + 1 := (zpow_lt_zpow_iff_right₀ (by norm_num)).mp hlt
    by_cases he : binExp x = binExp y
    · rw [roundSingle_pos_eq x h, roundSingle_pos_eq y hy, he]
      have hu := ulp_pos y
      apply mul_le_mul_of_nonneg_right _ (le_of_lt hu)
      have hm : x / (2 : ℚ) ^ (binExp y - 23) ≤ y / (2 : ℚ) ^ (binExp y - 23) :=
        div_le_div_of_nonneg_right hxy (le_of_lt hu)
      have := roundHalfEven_mono _ _ (le_of_lt (div_pos h hu)) hm
      exact_mod_cast this
    · have hlt2 : binExp x + 1 ≤ binExp y := by omega
      calc roundSingle x ≤ (2 : ℚ) ^ (binExp x + 1) := (roundSingle_bounds x h).2
        _ ≤ (2 : ℚ) ^ binExp y := zpow_le_zpow_right₀ (by norm_num) hlt2
        _ ≤ roundSingle y := (roundSingle_bounds y hy).1

theorem roundSingle_near (x : ℚ) (hx : 0 ≤ x) :
    x * (1 - 1 / 16777216) ≤ roundSingle x ∧ roundSingle x ≤ x * (1 + 1 / 16777216) := by
  rcases eq_or_lt_of_le hx with h | h
  · rw [← h, roundSingle_zero]
    constructor <;> norm_num
  · have hu := ulp_pos x
    have hs := binExp_spec x (ne_of_gt h)
    rw [abs_of_pos h] at hs
    have two : (2 : ℚ) ≠ 0 := two_ne_zero
    have e1 : (2 : ℚ) ^ binExp x = 8388608 * (2 : ℚ) ^ (binExp x - 23) := by
      have : (8388608 : ℚ) = (2 : ℚ) ^ (23 : Int) := by norm_num
      rw [this, ← zpow_add₀ two]
      congr 1
      ring
    have hn := roundHalfEven_near (x / (2 : ℚ) ^ (binExp x - 23)) (le_of_lt (div_pos h hu))
    have hx' : x / (2 : ℚ) ^ (binExp x - 23) * (2 : ℚ) ^ (binExp x - 23) = x :=
      div_mul_cancel₀ x (ne_of_gt hu)
    have hulp : 8388608 * (2 : ℚ) ^ (binExp x - 23) ≤ x := by
      rw [← e1]
      exact hs.1
    rw [roundSingle_pos_eq x h]
    constructor
    · have := mul_le_mul_of_nonneg_right hn.1 (le_of_lt hu)
      rw [sub_mul, hx'] at this
      linarith
    · have := mul_le_mul_of_nonneg_right hn.2 (le_of_lt hu)
      rw [add_mul, hx'] at this
      linarith

theorem roundSingle_exact (x : ℚ) (hx : 0 < x) (N : Nat)
    (hN : x / (2 : ℚ) ^ (binExp x - 23) = (N : ℚ)) : roundSingle x = x := by
  rw [roundSingle_pos_eq x hx, hN, roundHalfEven_natCast, ← hN]
  exact div_mul_cancel₀ x (ne_of_gt (ulp_pos x))

theorem roundSingle_natCast (n : Nat) (h : n ≤ 16777216) : roundSingle (n : ℚ) = n := by
  rcases Nat.eq_zero_or_pos n with h0 | hpos
  · rw [h0, Nat.cast_zero, roundSingle_zero]
  · have hx : (0 : ℚ) < (n : ℚ) := by exact_mod_cast hpos
    have hs := binExp_spec (n : ℚ) (ne_of_gt hx)
    rw [abs_of_pos hx] at hs
    have two : (2 : ℚ) ≠ 0 := two_ne_zero
    have h24 : (n : ℚ) ≤ (2 : ℚ) ^ (24 : Int) := by
      have : ((16777216 : Nat) : ℚ) = (2 : ℚ) ^ (24 : Int) := by norm_num
      rw [← this]
      exact_mod_cast h
    have he24 : binExp (n : ℚ) ≤ 24 :=
      (zpow_le_zpow_iff_right₀ (by norm_num : (1 : ℚ) < 2)).mp (le_trans hs.1 h24)
    by_cases he : binExp (n : ℚ) ≤ 23
    · apply roundSingle_exact _ hx (n * 2 ^ (23 - binExp (n : ℚ)).toNat)
      have hk : ((23 - binExp (n : ℚ)).toNat : Int) = 23 - binExp (n : ℚ) :=
        Int.toNat_of_nonneg (by omega)
      have e1 : (2 : ℚ) ^ (binExp (n : ℚ) - 23) =
          ((2 : ℚ) ^ ((23 - binExp (n : ℚ)).toNat : Int))⁻¹ := by
        rw [hk, ← zpow_neg]
        congr 1
        ring
      rw [e1, zpow_natCast, div_inv_eq_mul]
      push_cast
      rfl
    · have he' : binExp (n : ℚ) = 24 := by omega
      have hn : (n : ℚ) = (2 : ℚ) ^ (24 : Int) := by
        apply le_antisymm h24
        rw [← he']
        exact hs.1
      apply roundSingle_exact _ hx (2 ^ 23)
      rw [he', hn]
      norm_num

theorem roundSingle_intCast (z : Int) (h0 : 0 ≤ z) (h1 : z ≤ 16777216) :
    roundSingle (z : ℚ) = z := by
  have hz : ((z.toNat : Nat) : Int) = z := Int.toNat_of_nonneg h0
  have : (z : ℚ) = ((z.toNat : Nat) : ℚ) := by
    rw [← hz]
    push_cast
    rw [hz]
  rw [this]
  exact roundSingle_natCast _ (by omega)

theorem roundSingle_one : roundSingle 1 = 1 := by
  have := roundSingle_natCast 1 (by decide)
  simpa using this

theorem roundSingle_le_int (x : ℚ) (z : Int) (hx : 0 ≤ x) (hz : z ≤ 16777216) (h : x ≤ z) :
    roundSingle x ≤ z := by
  have hz0 : (0 : Int) ≤ z := by
    have : (0 : ℚ) ≤ (z : ℚ) := le_trans hx h
    exact_mod_cast this
  have := roundSingle_mono x z hx h
  rwa [roundSingle_intCast z hz0 hz] at this

theorem roundSingle_ge_int (x : ℚ) (z : Int) (hz0 : 0 ≤ z) (hz : z ≤ 16777216) (h : (z : ℚ) ≤ x) :
    (z : ℚ) ≤ roundSingle x := by
  have := roundSingle_mono z x (by exact_mod_cast hz0) h
  rwa [roundSingle_intCast z hz0 hz] at this

/-! ## The interpolation of AllocColours -/

theorem truncInt_intCast (n : Int) : truncInt (n : ℚ) = n := by
  unfold truncInt
  rw [Rat.num_intCast, Rat.den_intCast]
  simp

theorem castUShort_natCast (r : Nat) (h : r < 65536) : castUShort (r : ℚ) = r := by
  unfold castUShort
  have : ((r : ℚ)) = ((r : Int) : ℚ) := by push_cast; rfl
  rw [this, truncInt_intCast]
  omega

theorem getAt_querySeeds (x : XServer) (n : Nat) (colour : List Pixel) (first nseeds j : Int) :
    (getAt (querySeeds x n colour first nseeds) j).red < 65536 ∧
      (getAt (querySeeds x n colour first nseeds) j).green < 65536 ∧
      (getAt (querySeeds x n colour first nseeds) j).blue < 65536 := by
  unfold getAt
  by_cases hj : 0 ≤ j
  · rw [if_pos hj]
    by_cases hl : j.toNat < (querySeeds x n colour first nseeds).length
    · rw [List.getD_eq_getElem _ _ hl]
      unfold querySeeds
      rw [List.getElem_map]
      exact ⟨Nat.mod_lt _ (by decide), Nat.mod_lt _ (by decide), Nat.mod_lt _ (by decide)⟩
    · rw [List.getD_eq_default _ _ (not_lt.mp hl)]
      exact ⟨by decide, by decide, by decide⟩
  · rw [if_neg hj]
    exact ⟨by decide, by decide, by decide⟩

theorem channel_zero (a b : Nat) (h : a < 65536) : channel a b 0 = a := by
  unfold channel
  simp only [sub_zero, roundSingle_one, mul_zero, roundSingle_zero, mul_one, add_zero,
    roundSingle_natCast a (by omega)]

theorem channel_one (a b : Nat) (h : b < 65536) : channel a b 1 = b := by
  unfold channel
  simp only [sub_self, roundSingle_zero, mul_zero, mul_one, zero_add,
    roundSingle_natCast b (by omega)]

theorem interpolate_zero (col_seeds : List XColor) (j : Int)
    (h : (getAt col_seeds j).red < 65536 ∧ (getAt col_seeds j).green < 65536 ∧
      (getAt col_seeds j).blue < 65536) :
    (interpolate col_seeds j 0).red = (getAt col_seeds j).red ∧
      (interpolate col_seeds j 0).green = (getAt col_seeds j).green ∧
      (interpolate col_seeds j 0).blue = (getAt col_seeds j).blue := by
  unfold interpolate
  simp only [channel_zero _ _ h.1, channel_zero _ _ h.2.1, channel_zero _ _ h.2.2]
  exact ⟨castUShort_natCast _ h.1, castUShort_natCast _ h.2.1, castUShort_natCast _ h.2.2⟩

theorem interpolate_one (col_seeds : List XColor) (j : Int)
    (h : (getAt col_seeds (j + 1)).red < 65536 ∧ (getAt col_seeds (j + 1)).green < 65536 ∧
      (getAt col_seeds (j + 1)).blue < 65536) :
    (interpolate col_seeds j 1).red = (getAt col_seeds (j + 1)).red ∧
      (interpolate col_seeds j 1).green = (getAt col_seeds (j + 1)).green ∧
      (interpolate col_seeds j 1).blue = (getAt col_seeds (j + 1)).blue := by
  unfold interpolate
  simp only [channel_one _ _ h.1, channel_one _ _ h.2.1, channel_one _ _ h.2.2]
  exact ⟨castUShort_natCast _ h.1, castUShort_natCast _ h.2.1, castUShort_natCast _ h.2.2⟩

theorem roundSingle_sub_int (a b : Int) (hb : 0 ≤ b) (hab : b ≤ a) (ha : a ≤ 16777216) :
    roundSingle ((a : ℚ) - roundSingle (b : ℚ)) = ((a - b : Int) : ℚ) := by
  rw [roundSingle_intCast b hb (by omega)]
  have : (a : ℚ) - (b : ℚ) = ((a - b : Int) : ℚ) := by push_cast; rfl
  rw [this]
  exact roundSingle_intCast _ (by omega) (by omega)

theorem roundSingle_quotient (a b : Int) (ha : 0 < a) (hb : 0 ≤ b) (hab : a * b ≤ 16777216)
    (ha1 : a ≤ 16777216) :
    roundSingle (roundSingle ((a * b : Int) : ℚ) / roundSingle (a : ℚ)) = (b : ℚ) := by
  have hne : (a : ℚ) ≠ 0 := by
    have : a ≠ 0 := by omega
    exact_mod_cast this
  have hb1 : b ≤ 16777216 := by nlinarith
  rw [roundSingle_intCast _ (by positivity) hab, roundSingle_intCast a (by omega) ha1,
    Int.cast_mul, mul_div_cancel_left₀ _ hne]
  exact roundSingle_intCast b hb hb1

theorem seedFraction_first (num nseeds : Int) (hn : 2 ≤ num) (hs : 2 ≤ nseeds) :
    seedFraction num nseeds 0 0 = some (0, 0) := by
  unfold seedFraction
  rw [if_neg (by decide), if_neg (by omega)]
  simp only [zero_mul, Int.cast_zero, roundSingle_zero, zero_div]
  have h0 : truncInt 0 = 0 := by decide
  rw [h0, if_neg (by omega)]
  simp [roundSingle_zero]

theorem seedFraction_last (num nseeds : Int) (hn : 2 ≤ num) (hn1 : num ≤ MAX_COLOURS)
    (hs : 2 ≤ nseeds) (hs1 : nseeds ≤ MAX_COLOUR_SEEDS) :
    seedFraction num nseeds 0 (num - 1) = some (nseeds - 2, 1) := by
  have hM : MAX_COLOURS = 256 := rfl
  have hS : MAX_COLOUR_SEEDS = 10 := rfl
  unfold seedFraction
  rw [if_neg (by decide), if_neg (by omega)]
  have ht := roundSingle_quotient (num - 1) (nseeds - 1) (by omega) (by omega)
    (by nlinarith) (by omega)
  simp only [ht, truncInt_intCast]
  rw [if_pos (by omega), roundSingle_sub_int _ _ (by omega) (by omega) (by omega)]
  congr 2
  have : nseeds - 1 - (nseeds - 2) = 1 := by omega
  rw [this]
  rfl

theorem seedFraction_under (num nseeds overscale : Int) (ho : overscale ≠ 0) :
    seedFraction num nseeds overscale 0 = some (0, 0) := by
  unfold seedFraction
  rw [if_pos ho, if_pos rfl]

theorem seedFraction_over (num nseeds overscale : Int) (ho : overscale ≠ 0) (hn : 4 ≤ num) :
    seedFraction num nseeds overscale (num - 1) = some (nseeds - 2, 1) := by
  unfold seedFraction
  rw [if_pos ho, if_neg (by omega), if_pos rfl]

theorem seedFraction_low (num nseeds overscale : Int) (ho : overscale ≠ 0) (hn : 4 ≤ num)
    (hs : 4 ≤ nseeds) : seedFraction num nseeds overscale 1 = some (1, 0) := by
  unfold seedFraction
  rw [if_pos ho, if_neg (by decide), if_neg (by omega), if_neg (by omega)]
  simp only [sub_self, zero_mul, Int.cast_zero, roundSingle_zero, zero_div, add_zero,
    roundSingle_one]
  have h1 : truncInt 1 = 1 := by decide
  rw [h1, if_neg (by omega)]
  simp [roundSingle_one, roundSingle_zero]

theorem seedFraction_high (num nseeds overscale : Int) (ho : overscale ≠ 0) (hn : 4 ≤ num)
    (hn1 : num ≤ MAX_COLOURS) (hs : 4 ≤ nseeds) (hs1 : nseeds ≤ MAX_COLOUR_SEEDS) :
    seedFraction num nseeds overscale (num - 2) = some (nseeds - 3, 1) := by
  have hM : MAX_COLOURS = 256 := rfl
  have hS : MAX_COLOUR_SEEDS = 10 := rfl
  unfold seedFraction
  rw [if_pos ho, if_neg (by omega), if_neg (by omega), if_neg (by omega)]
  have e : num - 2 - 1 = num - 3 := by omega
  have hq := roundSingle_quotient (num - 3) (nseeds - 3) (by omega) (by omega)
    (by nlinarith) (by omega)
  have h1 : (1 : ℚ) + ((nseeds - 3 : Int) : ℚ) = ((nseeds - 2 : Int) : ℚ) := by
    push_cast
    ring
  have ht : roundSingle ((1 : ℚ) + ((nseeds - 3 : Int) : ℚ)) = ((nseeds - 2 : Int) : ℚ) := by
    rw [h1]
    exact roundSingle_intCast _ (by omega) (by omega)
  simp only [e, hq, ht, truncInt_intCast]
  rw [if_pos (by omega), roundSingle_sub_int _ _ (by omega) (by omega) (by omega)]
  congr 2
  have : nseeds - 2 - (nseeds - 3) = 1 := by omega
  rw [this]
  rfl

theorem scaleColour_zero (col_seeds : List XColor) (num nseeds overscale i j : Int)
    (hf : seedFraction num nseeds overscale i = some (j, 0))
    (h : (getAt col_seeds j).red < 65536 ∧ (getAt col_seeds j).green < 65536 ∧
      (getAt col_seeds j).blue < 65536) :
    (scaleColour col_seeds num nseeds overscale i).map XColor.rgb =
      some (getAt col_seeds j).rgb := by
  unfold scaleColour
  rw [hf]
  have := interpolate_zero col_seeds j h
  simp only [Option.map_some', XColor.rgb, this.1, this.2.1, this.2.2]

theorem scaleColour_one (col_seeds : List XColor) (num nseeds overscale i j j1 : Int)
    (hf : seedFraction num nseeds overscale i = some (j, 1)) (hj : j + 1 = j1)
    (h : (getAt col_seeds j1).red < 65536 ∧ (getAt col_seeds j1).green < 65536 ∧
      (getAt col_seeds j1).blue < 65536) :
    (scaleColour col_seeds num nseeds overscale i).map XColor.rgb =
      some (getAt col_seeds j1).rgb := by
  subst hj
  unfold scaleColour
  rw [hf]
  have := interpolate_one col_seeds j h
  simp only [Option.map_some', XColor.rgb, this.1, this.2.1, this.2.2]

/-- C17.  The seeds are those that AllocColours has after XQueryColors, and the colours
those that it calculates for the indices, for num up to MAX_COLOURS and nseeds up to
MAX_COLOUR_SEEDS, as the argument checks require.  Without overscale, with num and nseeds
at least 2, colour 0 has the red, green and blue of seed 0 and colour
num-1 those of seed nseeds-1.  With overscale, with num and nseeds at least 4, colour 0
has those of seed 0, colour 1 those of seed 1, colour num-2 those of seed nseeds-2 and
colour num-1 those of seed nseeds-1. -/
theorem C17_scale_ends_on_seeds (x : XServer) (n : Nat) (colour : List Pixel)
    (first num nseeds overscale : Int)
    (hn1 : num ≤ MAX_COLOURS) (hs1 : nseeds ≤ MAX_COLOUR_SEEDS) :
    (overscale = 0 → 2 ≤ num → 2 ≤ nseeds →
      (scaleColour (querySeeds x n colour first nseeds) num nseeds overscale 0).map XColor.rgb =
          some (getAt (querySeeds x n colour first nseeds) 0).rgb ∧
        (scaleColour (querySeeds x n colour first nseeds) num nseeds overscale
            (num - 1)).map XColor.rgb =
          some (getAt (querySeeds x n colour first nseeds) (nseeds - 1)).rgb) ∧
    (overscale ≠ 0 → 4 ≤ num → 4 ≤ nseeds →
      (scaleColour (querySeeds x n colour first nseeds) num nseeds overscale 0).map XColor.rgb =
          some (getAt (querySeeds x n colour first nseeds) 0).rgb ∧
        (scaleColour (querySeeds x n colour first nseeds) num nseeds overscale 1).map
            XColor.rgb =
          some (getAt (querySeeds x n colour first nseeds) 1).rgb ∧
        (scaleColour (querySeeds x n colour first nseeds) num nseeds overscale
            (num - 2)).map XColor.rgb =
          some (getAt (querySeeds x n colour first nseeds) (nseeds - 2)).rgb ∧
        (scaleColour (querySeeds x n colour first nseeds) num nseeds overscale
            (num - 1)).map XColor.rgb =
          some (getAt (querySeeds x n colour first nseeds) (nseeds - 1)).rgb) := by
  constructor
  · intro ho hn hs
    subst ho
    exact ⟨scaleColour_zero _ _ _ _ _ _ (seedFraction_first num nseeds hn hs)
        (getAt_querySeeds _ _ _ _ _ _),
      scaleColour_one _ _ _ _ _ _ _ (seedFraction_last num nseeds hn hn1 hs hs1) (by omega)
        (getAt_querySeeds _ _ _ _ _ _)⟩
  · intro ho hn hs
    exact ⟨scaleColour_zero _ _ _ _ _ _ (seedFraction_under num nseeds overscale ho)
        (getAt_querySeeds _ _ _ _ _ _),
      scaleColour_zero _ _ _ _ _ _ (seedFraction_low num nseeds overscale ho hn hs)
        (getAt_querySeeds _ _ _ _ _ _),
      scaleColour_one _ _ _ _ _ _ _ (seedFraction_high num nseeds overscale ho hn hn1 hs hs1) (by omega)
        (getAt_querySeeds _ _ _ _ _ _),
      scaleColour_one _ _ _ _ _ _ _ (seedFraction_over num nseeds overscale ho hn) (by omega)
        (getAt_querySeeds _ _ _ _ _ _)⟩

/-- C17, witness: three detector colours between the two seeds at 1 and 2, and five scale
colours between the seven seeds from 3 to 9, for the working colours of `sampleColours`,
whose pixel `p` has the red value `257 * p`. -/
theorem C17_scale_ends_on_seeds_witness :
    ((scaleColour (querySeeds sampleServer 0 sampleColours.colour 1 2) 3 2 0 0).map XColor.rgb =
        some (getAt (querySeeds sampleServer 0 sampleColours.colour 1 2) 0).rgb ∧
      (scaleColour (querySeeds sampleServer 0 sampleColours.colour 1 2) 3 2 0 (3 - 1)).map
          XColor.rgb =
        some (getAt (querySeeds sampleServer 0 sampleColours.colour 1 2) (2 - 1)).rgb) ∧
    ((scaleColour (querySeeds sampleServer 0 sampleColours.colour 3 7) 5 7 1 0).map XColor.rgb =
        some (getAt (querySeeds sampleServer 0 sampleColours.colour 3 7) 0).rgb ∧
      (scaleColour (querySeeds sampleServer 0 sampleColours.colour 3 7) 5 7 1 1).map
          XColor.rgb =
        some (getAt (querySeeds sampleServer 0 sampleColours.colour 3 7) 1).rgb ∧
      (scaleColour (querySeeds sampleServer 0 sampleColours.colour 3 7) 5 7 1 (5 - 2)).map
          XColor.rgb =
        some (getAt (querySeeds sampleServer 0 sampleColours.colour 3 7) (7 - 2)).rgb ∧
      (scaleColour (querySeeds sampleServer 0 sampleColours.colour 3 7) 5 7 1 (5 - 1)).map
          XColor.rgb =
        some (getAt (querySeeds sampleServer 0 sampleColours.colour 3 7) (7 - 1)).rgb) ∧
    (getAt (querySeeds sampleServer 0 sampleColours.colour 3 7) (7 - 1)).rgb =
      (257 * 109, 2 * 109, 109) :=
  ⟨(C17_scale_ends_on_seeds sampleServer 0 sampleColours.colour 1 3 2 0 (by decide)
      (by decide)).1 rfl (by decide) (by decide),
    (C17_scale_ends_on_seeds sampleServer 0 sampleColours.colour 3 5 7 1 (by decide)
      (by decide)).2 (by decide) (by decide) (by decide),
    by decide!⟩

/-! ## SetColours -/

theorem freeEach_speak (block : List Pixel) (flags : Int) (idx : List Nat)
    (r : List Nat × List XCall) :
    (freeEach block flags idx r).2.filter XCall.isSpeak = r.2.filter XCall.isSpeak := by
  induction idx generalizing r with
  | nil => rfl
  | cons i rest ih =>
    unfold freeEach
    split
    · rw [ih]
      simp [List.filter_append, XCall.isSpeak]
    · exact ih r

theorem freeAllocated_frame (block : List Pixel) (flags num : Int) (s : ColourState) :
    (freeAllocated block flags num s).image_col = s.image_col ∧
      (freeAllocated block flags num s).num_cols = s.num_cols ∧
      (freeAllocated block flags num s).det_cols = s.det_cols ∧
      (freeAllocated block flags num s).calls.filter XCall.isSpeak =
        s.calls.filter XCall.isSpeak := by
  unfold freeAllocated
  split
  · refine ⟨rfl, rfl, rfl, ?_⟩
    simp [List.filter_append, XCall.isSpeak]
  · exact ⟨rfl, rfl, rfl, freeEach_speak _ _ _ _⟩

theorem freeAllocatedColours_frame (k : ColourConsts) (col : PixelList) (num : Int)
    (s s1 : ColourState) (h : FreeAllocatedColours k col num s = .ok s1) :
    s1.image_col = s.image_col ∧ s1.num_cols = s.num_cols ∧ s1.det_cols = s.det_cols ∧
      s1.calls.filter XCall.isSpeak = s.calls.filter XCall.isSpeak := by
  unfold FreeAllocatedColours at h
  split at h
  · cases h; exact freeAllocated_frame _ _ _ _
  · cases h; exact freeAllocated_frame _ _ _ _
  · split at h
    · cases h; exact freeAllocated_frame _ _ _ _
    · cases h; exact freeAllocated_frame _ _ _ _
  · cases h

theorem bind_ok {α : Type} (a : Except Stop α) (f : α → Except Stop α) (r : α)
    (h : a.bind f = .ok r) : ∃ b, a = .ok b ∧ f b = .ok r := by
  cases a with
  | error e => cases h
  | ok b => exact ⟨b, rfl, h⟩

theorem freeColours_frame (k : ColourConsts) (s s1 : ColourState)
    (h : FreeColours k s = .ok s1) :
    s1.image_col = s.image_col ∧ s1.num_cols = s.num_cols ∧ s1.det_cols = s.det_cols ∧
      s1.calls.filter XCall.isSpeak = s.calls.filter XCall.isSpeak := by
  unfold FreeColours at h
  obtain ⟨a, ha, h⟩ := bind_ok _ _ _ h
  obtain ⟨b, hb, h⟩ := bind_ok _ _ _ h
  have f1 := freeAllocatedColours_frame _ _ _ _ _ ha
  have f2 := freeAllocatedColours_frame _ _ _ _ _ hb
  have f3 := freeAllocatedColours_frame _ _ _ _ _ h
  exact ⟨f3.1.trans (f2.1.trans f1.1), f3.2.1.trans (f2.2.1.trans f1.2.1),
    f3.2.2.1.trans (f2.2.2.1.trans f1.2.2.1), f3.2.2.2.trans (f2.2.2.2.trans f1.2.2.2)⟩

theorem allocGreys_speak (k : ColourConsts) (x : XServer) (set : Nat) (colset : List Pixel)
    (tmp_cols : List XColor) (idx : List Nat) (r : List Pixel × List Nat × List XCall) :
    (allocGreys k x set colset tmp_cols idx r).2.2.filter XCall.isSpeak =
      r.2.2.filter XCall.isSpeak := by
  induction idx generalizing r with
  | nil => rfl
  | cons i rest ih =>
    unfold allocGreys
    split
    · rw [ih]
      simp [List.filter_append, XCall.isSpeak]
    · rw [ih]
      simp [List.filter_append, XCall.isSpeak]

theorem copyColours_frame (k : ColourConsts) (x : XServer) (s : ColourState) :
    (CopyColours k x s).image_col = s.image_col ∧
      (CopyColours k x s).num_cols = s.num_cols ∧
      (CopyColours k x s).det_cols = s.det_cols ∧
      (CopyColours k x s).calls.filter XCall.isSpeak = s.calls.filter XCall.isSpeak := by
  unfold CopyColours
  split
  · exact ⟨rfl, rfl, rfl, rfl⟩
  · dsimp only
    split
    · refine ⟨rfl, rfl, rfl, ?_⟩
      rw [allocGreys_speak]
      simp [List.filter_append, XCall.isSpeak]
    · refine ⟨rfl, rfl, rfl, ?_⟩
      simp [List.filter_append, XCall.isSpeak]

theorem allocLoop_speak (k : ColourConsts) (x : XServer) (colour : List Pixel)
    (col_seeds : List XColor) (num nseeds overscale flags : Int) (cells : Bool)
    (idx : List Nat) (l l1 : AllocLoop)
    (h : allocLoop k x colour col_seeds num nseeds overscale flags cells idx l = .ok l1) :
    l1.calls.filter XCall.isSpeak = l.calls.filter XCall.isSpeak := by
  induction idx generalizing l with
  | nil => cases h; rfl
  | cons i rest ih =>
    unfold allocLoop at h
    split at h
    · cases h
    · split at h
      · have := ih _ h
        exact this
      · split at h
        · rw [ih _ h]
          simp [List.filter_append, XCall.isSpeak]
        · rw [ih _ h]
          simp [List.filter_append, XCall.isSpeak]

theorem setBlock_frame (s : ColourState) (col : ColourPtr) (block : List Pixel) :
    (s.setBlock col block).image_col = s.image_col ∧
      (s.setBlock col block).num_cols = s.num_cols ∧
      (s.setBlock col block).det_cols = s.det_cols := by
  cases col <;> exact ⟨rfl, rfl, rfl⟩

theorem allocColours_frame (k : ColourConsts) (x : XServer) (num : Int) (col : ColourPtr)
    (first nseeds overscale extras : Int) (s : ColourState) (flags : Int)
    (block : List Pixel) (cells : Bool) (calls : List XCall) (s1 : ColourState)
    (h : allocColours k x num col first nseeds overscale extras s flags block cells calls =
      .ok s1) :
    s1.image_col = s.image_col ∧ s1.num_cols = s.num_cols ∧ s1.det_cols = s.det_cols ∧
      s1.calls.filter XCall.isSpeak = calls.filter XCall.isSpeak := by
  unfold allocColours at h
  dsimp only at h
  split at h
  · cases h
  · rename_i l hl
    cases h
    have hs := allocLoop_speak _ _ _ _ _ _ _ _ _ _ _ _ hl
    have hb := setBlock_frame s col
      (addExtras s.colour num first nseeds (List.range extras.toNat) l.block)
    refine ⟨hb.1, hb.2.1, hb.2.2, ?_⟩
    dsimp only
    split <;> split <;> simp [List.filter_append, XCall.isSpeak, hs]

theorem allocColours_ok_frame (k : ColourConsts) (x : XServer) (num : Int) (col : ColourPtr)
    (first nseeds overscale extras : Int) (s s1 : ColourState)
    (h : AllocColours k x num col first nseeds overscale extras s = .ok s1) :
    s1.image_col = s.image_col ∧ s1.num_cols = s.num_cols ∧ s1.det_cols = s.det_cols ∧
      s1.calls.filter XCall.isSpeak = s.calls.filter XCall.isSpeak := by
  unfold AllocColours at h
  split at h
  · cases h
  · dsimp only at h
    split at h
    · split at h
      · split at h
        · have f := allocColours_frame _ _ _ _ _ _ _ _ _ _ _ _ _ _ h
          refine ⟨f.1, f.2.1, f.2.2.1, f.2.2.2.trans ?_⟩
          simp [List.filter_append, XCall.isSpeak]
        · have f := allocColours_frame _ _ _ _ _ _ _ _ _ _ _ _ _ _ h
          refine ⟨f.1, f.2.1, f.2.2.1, f.2.2.2.trans ?_⟩
          simp [List.filter_append, XCall.isSpeak]
      · cases h
    · exact allocColours_frame _ _ _ _ _ _ _ _ _ _ _ _ _ _ h

theorem setColours_ok (k : ColourConsts) (x : XServer) (c : Int) (s s' : ColourState)
    (hne : s.image_col ≠ c) (h : SetColours k x c s = .ok s') :
    ∃ s1 s3 s4 : ColourState, FreeColours k s = .ok s1 ∧
      AllocColours k x (CopyColours k x { s1 with image_col := c }).num_cols .scale_col
        k.SCALE_UNDER 7 1 1 (CopyColours k x { s1 with image_col := c }) = .ok s3 ∧
      AllocColours k x s3.det_cols .det_col k.VDARK_COL 2 0 0 s3 = .ok s4 ∧
      s' = { s4 with calls := s4.calls ++ [.Speak k.kMessageResourceColoursChanged] } := by
  unfold SetColours at h
  rw [if_pos hne] at h
  obtain ⟨s1, h1, h⟩ := bind_ok _ _ _ h
  obtain ⟨s3, h3, h⟩ := bind_ok _ _ _ h
  obtain ⟨s4, h4, h⟩ := bind_ok _ _ _ h
  cases h
  exact ⟨s1, s3, s4, h1, h3, h4, rfl⟩

theorem setColours_image_col (k : ColourConsts) (x : XServer) (c : Int) (s s' : ColourState)
    (h : SetColours k x c s = .ok s') : s'.image_col = c := by
  by_cases hne : s.image_col ≠ c
  · obtain ⟨s1, s3, s4, -, h3, h4, rfl⟩ := setColours_ok k x c s s' hne h
    have f3 := allocColours_ok_frame _ _ _ _ _ _ _ _ _ _ h3
    have f4 := allocColours_ok_frame _ _ _ _ _ _ _ _ _ _ h4
    have f2 := copyColours_frame k x { s1 with image_col := c }
    exact f4.1.trans (f3.1.trans f2.1)
  · unfold SetColours at h
    rw [if_neg hne] at h
    cases h
    exact not_not.mp hne

/-- C18.  If sResource.image_col equals the colour set asked for, SetColours returns with
the state as it is, so no message is sent.  Otherwise, when SetColours returns, the state
is the one that FreeColours, the assignment of image_col, CopyColours, AllocColours for the
scale colours and AllocColours for the detector colours give in this order, followed by
the message kMessageResourceColoursChanged; image_col is the colour set asked for, and the
messages sent are those sent before and this message once.  SetColours called again with
the same colour set, whatever the server answers, leaves everything as the first call
left it. -/
theorem C18_set_colours (k : ColourConsts) (x : XServer) (c : Int) (s : ColourState) :
    (s.image_col = c → SetColours k x c s = .ok s) ∧
    (s.image_col ≠ c → ∀ s' : ColourState, SetColours k x c s = .ok s' →
      (∃ s1 s3 s4 : ColourState, FreeColours k s = .ok s1 ∧
        AllocColours k x (CopyColours k x { s1 with image_col := c }).num_cols .scale_col
          k.SCALE_UNDER 7 1 1 (CopyColours k x { s1 with image_col := c }) = .ok s3 ∧
        AllocColours k x s3.det_cols .det_col k.VDARK_COL 2 0 0 s3 = .ok s4 ∧
        s' = { s4 with calls := s4.calls ++ [.Speak k.kMessageResourceColoursChanged] }) ∧
      s'.image_col = c ∧
      s'.calls.filter XCall.isSpeak =
        s.calls.filter XCall.isSpeak ++ [.Speak k.kMessageResourceColoursChanged]) ∧
    (∀ x' : XServer, (SetColours k x c s).bind (SetColours k x' c) = SetColours k x c s) := by
  refine ⟨?_, ?_, ?_⟩
  · intro h
    unfold SetColours
    rw [if_neg (not_not.mpr h)]
  · intro hne s' h
    refine ⟨setColours_ok k x c s s' hne h, setColours_image_col k x c s s' h, ?_⟩
    obtain ⟨s1, s3, s4, h1, h3, h4, rfl⟩ := setColours_ok k x c s s' hne h
    have f1 := freeColours_frame _ _ _ h1
    have f2 := copyColours_frame k x { s1 with image_col := c }
    have f3 := allocColours_ok_frame _ _ _ _ _ _ _ _ _ _ h3
    have f4 := allocColours_ok_frame _ _ _ _ _ _ _ _ _ _ h4
    have hs : s4.calls.filter XCall.isSpeak = s.calls.filter XCall.isSpeak :=
      f4.2.2.2.trans (f3.2.2.2.trans (f2.2.2.2.trans f1.2.2.2))
    simp [List.filter_append, XCall.isSpeak, hs]
  · intro x'
    cases h : SetColours k x c s with
    | error e => rfl
    | ok s' =>
      show SetColours k x' c s' = .ok s'
      have hi := setColours_image_col k x c s s' h
      unfold SetColours
      rw [if_neg (not_not.mpr hi)]

/-- C18, witness: from colour set 0 to colour set 1, and again to colour set 1. -/
theorem C18_set_colours_witness :
    (SetColours sampleConsts sampleServer 0 sampleColours = .ok sampleColours) ∧
    (∃ s' : ColourState, SetColours sampleConsts sampleServer 1 sampleColours = .ok s' ∧
      s'.image_col = 1 ∧
      s'.calls.filter XCall.isSpeak = [] ++ [.Speak 77] ∧
      s'.colour = sampleColours.colset.drop 12 ∧
      SetColours sampleConsts sampleServer 1 s' = .ok s') := by
  refine ⟨(C18_set_colours sampleConsts sampleServer 0 sampleColours).1 rfl, ?_⟩
  have hok : (SetColours sampleConsts sampleServer 1 sampleColours).toOption.isSome = true := by
    decide!
  have hcol : ((SetColours sampleConsts sampleServer 1 sampleColours).toOption.map
      fun s' => s'.colour) = some (sampleColours.colset.drop 12) := by
    decide!
  cases h : SetColours sampleConsts sampleServer 1 sampleColours with
  | error e =>
    rw [h] at hok
    cases hok
  | ok s' =>
    rw [h] at hcol
    have h2 := (C18_set_colours sampleConsts sampleServer 1 sampleColours).2.1 (by decide) s' h
    have h3 := (C18_set_colours sampleConsts sampleServer 1 sampleColours).2.2 sampleServer
    rw [h] at h3
    exact ⟨s', rfl, h2.2.1, h2.2.2, Option.some.inj hcol, h3⟩

/-! ## The state of save_config -/

/-- C21 (defect of the code).  In the first call the settings file records save_config 0,
sResourceFileSaveConfig is 0, the resources have save_config 1 and the first write to the
temporary file fails: the settings file is left as it is, so it still records 0, but
sResourceFileSaveConfig is 1 afterwards.  In the second call sResourceFileSaveConfig is 1
and the resources have save_config 0: WriteSettings finds that the file records 0 already
and returns, and sResourceFileSaveConfig is still 1. -/
theorem C21_save_config_state_out_of_step :
    (writeFailEnv (some notSavingSettings) 0 0).sResourceFileSaveConfig = 0 ∧
      "Aged.save_config:\t\t0\n".toList ∈ textLines notSavingSettings ∧
      (WriteSettings (writeFailEnv (some notSavingSettings) 0 0) (sampleResource [] 1) 0).fs
        samplePath = some notSavingSettings ∧
      (WriteSettings (writeFailEnv (some notSavingSettings) 0 0) (sampleResource [] 1)
        0).sResourceFileSaveConfig = 1 ∧
      (WriteSettings (sampleSaveEnv (some notSavingSettings) 1) (sampleResource [] 0) 0).fs
        samplePath = some notSavingSettings ∧
      (WriteSettings (sampleSaveEnv (some notSavingSettings) 1) (sampleResource [] 0)
        0).sResourceFileSaveConfig = 1 := by
  decide!

/-! ## Arrays -/

theorem length_setAt {α : Type} (a : List α) (i : Int) (v : α) :
    (setAt a i v).length = a.length := by
  unfold setAt
  split
  · exact List.length_set _ _ _
  · rfl

theorem getAt_setAt_ne {α : Type} [Inhabited α] (a : List α) (i j : Int) (v : α) (h : i ≠ j) :
    getAt (setAt a i v) j = getAt a j := by
  unfold getAt setAt
  by_cases hj : 0 ≤ j
  · rw [if_pos hj, if_pos hj]
    by_cases hi : 0 ≤ i
    · rw [if_pos hi]
      have hne : i.toNat ≠ j.toNat := by omega
      rw [List.getD_eq_getElem?_getD, List.getD_eq_getElem?_getD, List.getElem?_set_ne hne]
    · rw [if_neg hi]
  · rw [if_neg hj, if_neg hj]

theorem getAt_setAt_same {α : Type} [Inhabited α] (a : List α) (i : Int) (v : α)
    (h0 : 0 ≤ i) (h1 : i < a.length) : getAt (setAt a i v) i = v := by
  unfold getAt setAt
  rw [if_pos h0, if_pos h0]
  have hl : i.toNat < a.length := by omega
  rw [List.getD_eq_getElem?_getD, List.getElem?_set_eq_of_lt _ hl]
  rfl

theorem getAt_outside {α : Type} [Inhabited α] (a : List α) (i : Int)
    (h : i < 0 ∨ (a.length : Int) ≤ i) : getAt a i = default := by
  unfold getAt
  by_cases h0 : 0 ≤ i
  · rw [if_pos h0]
    have hl : a.length ≤ i.toNat := by omega
    exact List.getD_eq_default _ _ hl
  · rw [if_neg h0]

/-! ## CopyColours -/

theorem getAt_greyColours (k : ColourConsts) (set : Nat) (sColours : List XColor) (i : Nat)
    (hi : i < k.NUM_COLOURS) :
    getAt (greyColours k set sColours) (i : Int) =
      { pixel := 0
        red := greyValue k set (getAt sColours ((i + set * k.NUM_COLOURS : Nat) : Int))
        green := greyValue k set (getAt sColours ((i + set * k.NUM_COLOURS : Nat) : Int))
        blue := greyValue k set (getAt sColours ((i + set * k.NUM_COLOURS : Nat) : Int)) } := by
  have hg : getAt (greyColours k set sColours) (i : Int) =
      (greyColours k set sColours).getD i default := by
    unfold getAt
    rw [if_pos (Int.ofNat_nonneg i), Int.toNat_ofNat]
  have hl : i < (greyColours k set sColours).length := by
    unfold greyColours
    simpa using hi
  rw [hg, List.getD_eq_getElem _ _ hl]
  unfold greyColours
  rw [List.getElem_map, List.getElem_range]

/-- C22.  GREYSCALE_INTENSITY is not defined.  For a colour whose channels r, g and b
are in 0..65535, the grey value of CopyColours is (2125*r + 7154*g + 721*b + 5000) div
10000; the sum is below 2^31, the value is at most 65535 and lies between the smallest and
the largest of r, g and b, and it is v when r = g = b = v.  It is the red, green and blue
value that CopyColours gives colour i in `tmp_cols`, calculated from the colour
i + set * NUM_COLOURS of sColours. -/
theorem C22_luminance (k : ColourConsts) (set : Nat) (c : XColor)
    (hk : k.GREYSCALE_INTENSITY = false)
    (hr : c.red ≤ 65535) (hg : c.green ≤ 65535) (hb : c.blue ≤ 65535) :
    greyValue k set c = (2125 * c.red + 7154 * c.green + 721 * c.blue + 5000) / 10000 ∧
      c.red * 2125 + c.green * 7154 + c.blue * 721 + 5000 < 2 ^ 31 ∧
      greyValue k set c ≤ 65535 ∧
      min c.red (min c.green c.blue) ≤ greyValue k set c ∧
      greyValue k set c ≤ max c.red (max c.green c.blue) ∧
      (c.red = c.green → c.green = c.blue → greyValue k set c = c.red) ∧
      (∀ (sColours : List XColor) (i : Nat), i < k.NUM_COLOURS →
        getAt (greyColours k set sColours) (i : Int) =
          { pixel := 0
            red := greyValue k set (getAt sColours ((i + set * k.NUM_COLOURS : Nat) : Int))
            green := greyValue k set (getAt sColours ((i + set * k.NUM_COLOURS : Nat) : Int))
            blue :=
              greyValue k set (getAt sColours ((i + set * k.NUM_COLOURS : Nat) : Int)) }) := by
  have hc : c.red * 2125 + c.green * 7154 + c.blue * 721 + 5000 =
      2125 * c.red + 7154 * c.green + 721 * c.blue + 5000 := by ring
  have hq : (2125 * c.red + 7154 * c.green + 721 * c.blue + 5000) / 10000 < 65536 := by omega
  have hv : greyValue k set c =
      (2125 * c.red + 7154 * c.green + 721 * c.blue + 5000) / 10000 := by
    unfold greyValue
    rw [hk]
    show (c.red * 2125 + c.green * 7154 + c.blue * 721 + 5000) / 10000 % 65536 = _
    rw [hc, Nat.mod_eq_of_lt hq]
  refine ⟨hv, ?_, ?_, ?_, ?_, ?_, fun sColours i hi => getAt_greyColours k set sColours i hi⟩
  · omega
  · rw [hv]; omega
  · rw [hv]; omega
  · rw [hv]; omega
  · intro h1 h2
    rw [hv]; omega

/-- C22, witness: the colour with the channels 65535, 4660 and 0. -/
theorem C22_luminance_witness :
    greyValue sampleConsts 0 ⟨7, 65535, 4660, 0⟩ =
      (2125 * 65535 + 7154 * 4660 + 721 * 0 + 5000) / 10000 :=
  (C22_luminance sampleConsts 0 ⟨7, 65535, 4660, 0⟩ rfl (by decide) (by decide)
    (by decide)).1

theorem length_substituteScale (k : ColourConsts) (set : Nat) (idx : List Nat)
    (tmp_cols : List XColor) :
    (substituteScale k set idx tmp_cols).length = tmp_cols.length := by
  induction idx generalizing tmp_cols with
  | nil => rfl
  | cons i rest ih =>
    unfold substituteScale
    rw [ih, length_setAt]

theorem substituteScale_other (k : ColourConsts) (set : Nat) (idx : List Nat)
    (tmp_cols : List XColor) (j : Int) (h : ∀ i ∈ idx, (i : Int) + k.SCALE_UNDER ≠ j) :
    getAt (substituteScale k set idx tmp_cols) j = getAt tmp_cols j := by
  induction idx generalizing tmp_cols with
  | nil => rfl
  | cons i rest ih =>
    unfold substituteScale
    rw [ih _ (fun i' hi' => h i' (List.mem_cons_of_mem _ hi')),
      getAt_setAt_ne _ _ _ _ (h i (List.mem_cons_self _ _))]

theorem substituteScale_grey (k : ColourConsts) (set : Nat) (idx : List Nat)
    (tmp_cols : List XColor) (i : Nat) (hi : i ∈ idx)
    (hl : i + k.SCALE_UNDER < tmp_cols.length) :
    (getAt (substituteScale k set idx tmp_cols) ((i : Int) + k.SCALE_UNDER)).rgb =
      ((grey.getD set []).getD i 0, (grey.getD set []).getD i 0, (grey.getD set []).getD i 0) := by
  induction idx generalizing tmp_cols with
  | nil => cases hi
  | cons i0 rest ih =>
    unfold substituteScale
    by_cases hr : i ∈ rest
    · exact ih _ hr (by rw [length_setAt]; exact hl)
    · have h0 : i = i0 := by
        rcases List.mem_cons.mp hi with h | h
        · exact h
        · exact absurd h hr
      subst h0
      have hne : ∀ i' ∈ rest, (i' : Int) + k.SCALE_UNDER ≠ (i : Int) + k.SCALE_UNDER := by
        intro i' hi' e
        have : i' = i := by omega
        exact hr (this ▸ hi')
      rw [substituteScale_other _ _ _ _ _ hne,
        getAt_setAt_same _ _ _ (by omega) (by omega)]
      rfl

/-- C23.  The intensity mapping of CopyColours for the scale colours: on either
background the levels for 0%, 25%, 50%, 75% and 100% are 0x2222 apart; the seven levels
from underscale to overscale increase strictly from 0x5555 to 0xffff on the black
background and decrease strictly from 0xdddd to 0x0000 on the white background.  After the
loop that substitutes the scale colours, colour SCALE_UNDER + i of `tmp_cols` has red,
green and blue equal to level i of the background, for every i up to
SCALE_OVER - SCALE_UNDER. -/
theorem C23_linear_greyscale (k : ColourConsts) (set : Nat) (tmp_cols : List XColor) :
    grey =
        [[0x5555, 0x6666, 0x8888, 0xaaaa, 0xcccc, 0xeeee, 0xffff],
          [0xdddd, 0xbbbb, 0x9999, 0x7777, 0x5555, 0x3333, 0x0000]] ∧
      (∀ i : Nat, 1 ≤ i → i < 5 →
        (grey.getD 0 []).getD (i + 1) 0 = (grey.getD 0 []).getD i 0 + 0x2222 ∧
          (grey.getD 1 []).getD (i + 1) 0 + 0x2222 = (grey.getD 1 []).getD i 0) ∧
      (∀ i : Nat, i < 6 →
        (grey.getD 0 []).getD i 0 < (grey.getD 0 []).getD (i + 1) 0 ∧
          (grey.getD 1 []).getD (i + 1) 0 < (grey.getD 1 []).getD i 0) ∧
      (∀ i : Nat, (i : Int) < (k.SCALE_OVER : Int) - k.SCALE_UNDER + 1 →
        i + k.SCALE_UNDER < tmp_cols.length →
        (getAt (substituteScale k set
            (List.range ((k.SCALE_OVER : Int) - k.SCALE_UNDER + 1).toNat) tmp_cols)
          ((i : Int) + k.SCALE_UNDER)).rgb =
          ((grey.getD set []).getD i 0, (grey.getD set []).getD i 0,
            (grey.getD set []).getD i 0)) := by
  refine ⟨rfl, by decide, by decide, ?_⟩
  intro i hi hl
  exact substituteScale_grey k set _ tmp_cols i (List.mem_range.mpr (by omega)) hl

/-- C23, witness: the scale colours of the twelve colours of `sampleConsts` on the white
background; colour 3 is the underscale colour. -/
theorem C23_linear_greyscale_witness :
    (getAt (substituteScale sampleConsts 1 (List.range ((9 : Int) - 3 + 1).toNat)
        (greyColours sampleConsts 1 sampleColours.sColours)) ((0 : Nat) + (3 : Nat))).rgb =
      (0xdddd, 0xdddd, 0xdddd) :=
  (C23_linear_greyscale sampleConsts 1
    (greyColours sampleConsts 1 sampleColours.sColours)).2.2.2 0 (by decide) (by decide)

/-! ## InitResources -/

theorem rangeCheck_spec (image_col : Int) (h0 : -2 ^ 31 ≤ image_col) (h1 : image_col < 2 ^ 31) :
    (0 ≤ rangeCheck image_col ∧ rangeCheck image_col ≤ 3) ∧
      (0 ≤ image_col → image_col ≤ 3 → rangeCheck image_col = image_col) ∧
      (¬ (0 ≤ image_col ∧ image_col ≤ 3) → rangeCheck image_col = 0) := by
  unfold rangeCheck
  refine ⟨?_, ?_, ?_⟩
  · split <;> omega
  · intro a b
    rw [if_neg (by omega)]
  · intro a
    rw [if_pos (by omega)]

theorem initResources_image_col (k : ColourConsts) (x : XServer) (s s' : ColourState)
    (h : InitResources k x false s = .ok s') : s'.image_col = rangeCheck s.image_col := by
  unfold InitResources at h
  simp only [Bool.false_eq_true, if_false] at h
  split at h
  · obtain ⟨s3, h3, h4⟩ := bind_ok _ _ _ h
    have f3 := allocColours_ok_frame _ _ _ _ _ _ _ _ _ _ h3
    have f4 := allocColours_ok_frame _ _ _ _ _ _ _ _ _ _ h4
    rw [f4.1, f3.1, (copyColours_frame k x _).1]
  · cases h

/-- C25.  For every `int` value of image_col before the range check of InitResources,
the value after it is in 0..3: the same value when that is in 0..3 and 0 otherwise, also
for negative values.  It is the value of image_col when InitResources, called for the
first time, returns. -/
theorem C25_colour_set_range_check (k : ColourConsts) (x : XServer) (s : ColourState)
    (h0 : -2 ^ 31 ≤ s.image_col) (h1 : s.image_col < 2 ^ 31) :
    (0 ≤ rangeCheck s.image_col ∧ rangeCheck s.image_col ≤ 3) ∧
      (0 ≤ s.image_col → s.image_col ≤ 3 → rangeCheck s.image_col = s.image_col) ∧
      (¬ (0 ≤ s.image_col ∧ s.image_col ≤ 3) → rangeCheck s.image_col = 0) ∧
      (∀ s' : ColourState, InitResources k x false s = .ok s' →
        s'.image_col = rangeCheck s.image_col) := by
  have h := rangeCheck_spec s.image_col h0 h1
  exact ⟨h.1, h.2.1, h.2.2, fun s' hs => initResources_image_col k x s s' hs⟩

/-- C25, witness: the colour set -1 becomes 0, and InitResources returns with it. -/
theorem C25_colour_set_range_check_witness :
    rangeCheck (-1) = 0 ∧
      ∃ s' : ColourState,
        InitResources sampleConsts sampleServer false { sampleColours with image_col := -1 } =
          .ok s' ∧ s'.image_col = 0 := by
  have h := C25_colour_set_range_check sampleConsts sampleServer
    { sampleColours with image_col := -1 } (by decide) (by decide)
  have h0 : rangeCheck (-1) = 0 := h.2.2.1 (by decide)
  refine ⟨h0, ?_⟩
  have hok : (InitResources sampleConsts sampleServer false
      { sampleColours with image_col := -1 }).toOption.isSome = true := by
    decide!
  cases hs : InitResources sampleConsts sampleServer false
      { sampleColours with image_col := -1 } with
  | error e =>
    rw [hs] at hok
    cases hok
  | ok s' => exact ⟨s', rfl, (h.2.2.2 s' hs).trans h0⟩

/-! ## SetWindowGeometry -/

theorem getWindowGeometry_numbers (db : XrmDatabase) (name : List Char) (geo : SWindowGeometry)
    (W H X Y : Int) (hW : -2 ^ 31 ≤ W ∧ W < 2 ^ 31) (hH : -2 ^ 31 ≤ H ∧ H < 2 ^ 31)
    (hX : -2 ^ 31 ≤ X ∧ X < 2 ^ 31) (hY : -2 ^ 31 ≤ Y ∧ Y < 2 ^ 31)
    (hdb : db (name ++ ".geometry".toList) =
      some (XtRString, fmtInt W ++ 'x' :: (fmtInt H ++ '+' :: (fmtInt X ++ '+' :: fmtInt Y)))) :
    GetWindowGeometry db name geo = (1, { width := W, height := H, x := X, y := Y }) := by
  have nx : ∀ z : Int, 'x' ∉ fmtInt z := fun z => fmtInt_no z 'x' (by decide) (by decide)
  have np : ∀ z : Int, '+' ∉ fmtInt z := fun z => fmtInt_no z '+' (by decide) (by decide)
  rw [getWindowGeometry_string db name _ geo hdb]
  simp only [strchr_first _ _ 'x' (nx W), drop_past, strchr_first _ _ '+' (np H),
    strchr_first _ _ '+' (np X)]
  have e1 := atoi_fmtInt W ('x' :: (fmtInt H ++ '+' :: (fmtInt X ++ '+' :: fmtInt Y)))
    hW.1 hW.2 (by intro c t e; cases e; decide)
  have e2 := atoi_fmtInt H ('+' :: (fmtInt X ++ '+' :: fmtInt Y))
    hH.1 hH.2 (by intro c t e; cases e; decide)
  have e3 := atoi_fmtInt X ('+' :: fmtInt Y) hX.1 hX.2 (by intro c t e; cases e; decide)
  have e4 := atoi_fmtInt Y [] hY.1 hY.2 (by intro c t e; cases e)
  rw [List.append_nil] at e4
  rw [e1, e2, e3, e4]

theorem wrapInt_range (z : Int) : -2 ^ 31 ≤ wrapInt z ∧ wrapInt z < 2 ^ 31 := by
  unfold wrapInt
  omega

theorem wrapInt_id (z : Int) (h0 : -2 ^ 31 ≤ z) (h1 : z < 2 ^ 31) : wrapInt z = z := by
  unfold wrapInt
  omega

/-- C26.  For every database, window name and offsets, and every geometry whose width
and height are `int` values, GetWindowGeometry for the name after SetWindowGeometry for it
returns 1 and gives the width and height set and the positions x - sWindowOffsetX and
y - sWindowOffsetY as `int` subtraction gives them: their exact values when these are
`int` values, negative ones included.  With the window offsets at zero and positions that
are `int` values the geometry got is the geometry set. -/
theorem C26_geometry_round_trip (db : XrmDatabase) (offset : WindowOffset) (name : List Char)
    (g g' : SWindowGeometry)
    (hw : -2 ^ 31 ≤ g.width ∧ g.width < 2 ^ 31) (hh : -2 ^ 31 ≤ g.height ∧ g.height < 2 ^ 31) :
    GetWindowGeometry (SetWindowGeometry db offset name g) name g' =
        (1, { width := g.width, height := g.height,
              x := wrapInt (g.x - offset.sWindowOffsetX),
              y := wrapInt (g.y - offset.sWindowOffsetY) }) ∧
      (-2 ^ 31 ≤ g.x - offset.sWindowOffsetX → g.x - offset.sWindowOffsetX < 2 ^ 31 →
        wrapInt (g.x - offset.sWindowOffsetX) = g.x - offset.sWindowOffsetX) ∧
      (-2 ^ 31 ≤ g.y - offset.sWindowOffsetY → g.y - offset.sWindowOffsetY < 2 ^ 31 →
        wrapInt (g.y - offset.sWindowOffsetY) = g.y - offset.sWindowOffsetY) ∧
      (-2 ^ 31 ≤ g.x → g.x < 2 ^ 31 → -2 ^ 31 ≤ g.y → g.y < 2 ^ 31 →
        GetWindowGeometry (SetWindowGeometry db (SetWindowOffset 0 0) name g) name g' =
          (1, g)) := by
  have key : ∀ off : WindowOffset,
      GetWindowGeometry (SetWindowGeometry db off name g) name g' =
        (1, { width := g.width, height := g.height,
              x := wrapInt (g.x - off.sWindowOffsetX),
              y := wrapInt (g.y - off.sWindowOffsetY) }) := by
    intro off
    apply getWindowGeometry_numbers _ name g' g.width g.height _ _ hw hh (wrapInt_range _)
      (wrapInt_range _)
    unfold SetWindowGeometry XrmPutStringResource
    rw [if_pos rfl]
  refine ⟨key offset, wrapInt_id _, wrapInt_id _, ?_⟩
  intro a b c d
  rw [key (SetWindowOffset 0 0)]
  have ex : wrapInt (g.x - (SetWindowOffset 0 0).sWindowOffsetX) = g.x := by
    show wrapInt (g.x - 0) = g.x
    rw [sub_zero, wrapInt_id _ a b]
  have ey : wrapInt (g.y - (SetWindowOffset 0 0).sWindowOffsetY) = g.y := by
    show wrapInt (g.y - 0) = g.y
    rw [sub_zero, wrapInt_id _ c d]
  rw [ex, ey]

/-- C26, witness: a window at the position (-5, 7), 100 wide and 200 high, with the
window offsets 3 and 10. -/
theorem C26_geometry_round_trip_witness :
    GetWindowGeometry
        (SetWindowGeometry sampleDatabase (SetWindowOffset 3 10) "Event Display".toList
          ⟨-5, 7, 100, 200⟩) "Event Display".toList ⟨0, 0, 0, 0⟩ =
      (1, { width := 100, height := 200, x := wrapInt (-5 - 3), y := wrapInt (7 - 10) }) :=
  (C26_geometry_round_trip sampleDatabase (SetWindowOffset 3 10) "Event Display".toList
    ⟨-5, 7, 100, 200⟩ ⟨0, 0, 0, 0⟩ (by decide) (by decide)).1

/-! ## Label flags -/

theorem labelFlagValues_powers : labelFlagValues = (List.range 31).map fun i => 2 ^ i := by
  decide

theorem mem_labelFlagValues (f : Nat) : f ∈ labelFlagValues ↔ ∃ i, i < 31 ∧ f = 2 ^ i := by
  rw [labelFlagValues_powers]
  simp only [List.mem_map, List.mem_range]
  constructor
  · rintro ⟨i, hi, rfl⟩
    exact ⟨i, hi, rfl⟩
  · rintro ⟨i, hi, rfl⟩
    exact ⟨i, hi, rfl⟩

theorem testBit_foldl_or (l : List Nat) (a i : Nat) (hl : ∀ f ∈ l, ∃ j, f = 2 ^ j) :
    (l.foldl (fun a f => a ||| f) a).testBit i = true ↔ a.testBit i = true ∨ 2 ^ i ∈ l := by
  induction l generalizing a with
  | nil => simp
  | cons f rest ih =>
    rw [List.foldl_cons, ih _ (fun g hg => hl g (List.mem_cons_of_mem _ hg))]
    obtain ⟨j, rfl⟩ := hl f (List.mem_cons_self _ _)
    rw [Nat.testBit_or, Bool.or_eq_true, Nat.testBit_two_pow, List.mem_cons]
    have hp : (2 : Nat) ^ i = 2 ^ j ↔ j = i := by
      constructor
      · intro e
        exact (Nat.pow_right_injective (le_refl 2) e).symm
      · intro e
        rw [e]
    rw [hp]
    simp only [decide_eq_true_eq]
    tauto

theorem foldl_or_lt (l : List Nat) (a : Nat) (ha : a < 2 ^ 31) (hl : ∀ f ∈ l, f < 2 ^ 31) :
    l.foldl (fun a f => a ||| f) a < 2 ^ 31 := by
  induction l generalizing a with
  | nil => exact ha
  | cons f rest ih =>
    rw [List.foldl_cons]
    exact ih _ (Nat.or_lt_two_pow ha (hl f (List.mem_cons_self _ _)))
      (fun g hg => hl g (List.mem_cons_of_mem _ hg))

/-- C30.  ELabelFlags declares 31 flags whose values are, in the order of declaration,
the powers of two from 2^0 to 2^30, so they are pairwise distinct and any two different
flags have bitwise AND 0.  The bitwise OR of a combination of flags determines which
flags are in it: two combinations with the same OR hold the same flags.  The OR of every
combination is below 2^31, so it is a non-negative value of a signed integer of 32
bits. -/
theorem C30_label_flags :
    ELabelFlags.length = 31 ∧
      labelFlagValues = (List.range 31).map (fun i => 2 ^ i) ∧
      labelFlagValues.Nodup ∧
      (∀ f ∈ labelFlagValues, ∀ g ∈ labelFlagValues, f ≠ g → f &&& g = 0) ∧
      (∀ l1 l2 : List Nat, (∀ f ∈ l1, f ∈ labelFlagValues) → (∀ f ∈ l2, f ∈ labelFlagValues) →
        orFlags l1 = orFlags l2 → ∀ f : Nat, f ∈ l1 ↔ f ∈ l2) ∧
      (∀ l : List Nat, (∀ f ∈ l, f ∈ labelFlagValues) → orFlags l < 2 ^ 31) := by
  refine ⟨rfl, labelFlagValues_powers, by decide, by decide, ?_, ?_⟩
  · intro l1 l2 h1 h2 e f
    have p1 : ∀ g ∈ l1, ∃ j, g = 2 ^ j := fun g hg =>
      let ⟨j, _, hj⟩ := (mem_labelFlagValues g).mp (h1 g hg)
      ⟨j, hj⟩
    have p2 : ∀ g ∈ l2, ∃ j, g = 2 ^ j := fun g hg =>
      let ⟨j, _, hj⟩ := (mem_labelFlagValues g).mp (h2 g hg)
      ⟨j, hj⟩
    have key : ∀ i : Nat, 2 ^ i ∈ l1 ↔ 2 ^ i ∈ l2 := by
      intro i
      have t1 := testBit_foldl_or l1 0 i p1
      have t2 := testBit_foldl_or l2 0 i p2
      simp only [Nat.zero_testBit, Bool.false_eq_true, false_or] at t1 t2
      unfold orFlags at e
      rw [← t1, ← t2, e]
    constructor
    · intro hf
      obtain ⟨j, rfl⟩ := p1 f hf
      exact (key j).mp hf
    · intro hf
      obtain ⟨j, rfl⟩ := p2 f hf
      exact (key j).mpr hf
  · intro l hl
    unfold orFlags
    refine foldl_or_lt l 0 (by decide) ?_
    intro f hf
    obtain ⟨i, hi, rfl⟩ := (mem_labelFlagValues f).mp (hl f hf)
    exact Nat.pow_lt_pow_right (by decide) hi

/-- C30, witness: the run number with the date, in either order and with a repetition. -/
theorem C30_label_flags_witness :
    (∀ f : Nat, f ∈ [0x00000001, 0x00000008] ↔ f ∈ [0x00000008, 0x00000001, 0x00000008]) ∧
      orFlags [0x00000001, 0x00000008] < 2 ^ 31 :=
  ⟨C30_label_flags.2.2.2.2.1 [0x00000001, 0x00000008] [0x00000008, 0x00000001, 0x00000008]
      (by decide) (by decide) (by decide),
    C30_label_flags.2.2.2.2.2 [0x00000001, 0x00000008] (by decide)⟩

/-! ## FreeAllocatedColours -/

theorem getAt_setAt_zero (a : List Nat) (i : Int) : getAt (setAt a i 0) i = 0 := by
  by_cases h : 0 ≤ i ∧ i < a.length
  · exact getAt_setAt_same a i 0 h.1 h.2
  · have : i < 0 ∨ ((setAt a i 0).length : Int) ≤ i := by
      rw [length_setAt]
      omega
    exact getAt_outside _ _ this

theorem length_clearFlags (flags : Int) (idx : List Nat) (a : List Nat) :
    (clearFlags flags idx a).length = a.length := by
  induction idx generalizing a with
  | nil => rfl
  | cons i rest ih =>
    unfold clearFlags
    rw [ih, length_setAt]

theorem clearFlags_other (flags : Int) (idx : List Nat) (a : List Nat) (j : Int)
    (h : ∀ i ∈ idx, flags + (i : Int) ≠ j) : getAt (clearFlags flags idx a) j = getAt a j := by
  induction idx generalizing a with
  | nil => rfl
  | cons i rest ih =>
    unfold clearFlags
    rw [ih _ (fun i' hi' => h i' (List.mem_cons_of_mem _ hi')),
      getAt_setAt_ne _ _ _ _ (h i (List.mem_cons_self _ _))]

theorem clearFlags_zero (flags : Int) (idx : List Nat) (a : List Nat) (i : Nat) (hi : i ∈ idx) :
    getAt (clearFlags flags idx a) (flags + i) = 0 := by
  induction idx generalizing a with
  | nil => cases hi
  | cons i0 rest ih =>
    unfold clearFlags
    by_cases hr : i ∈ rest
    · exact ih _ hr
    · have h0 : i = i0 := by
        rcases List.mem_cons.mp hi with h | h
        · exact h
        · exact absurd h hr
      subst h0
      have hne : ∀ i' ∈ rest, flags + (i' : Int) ≠ flags + (i : Int) := by
        intro i' hi' e
        have : i' = i := by omega
        exact hr (this ▸ hi')
      rw [clearFlags_other _ _ _ _ hne, getAt_setAt_zero]

theorem freeEach_spec (block : List Pixel) (flags : Int) (idx : List Nat) (hn : idx.Nodup)
    (a : List Nat) (c : List XCall) :
    (freeEach block flags idx (a, c)).2 =
        c ++ ((idx.filter fun (i : Nat) => getAt a (flags + (i : Int)) ≠ 0).map fun (i : Nat) =>
          XCall.XFreeColors [getAt block (i : Int)]) ∧
      (freeEach block flags idx (a, c)).1.length = a.length ∧
      (∀ i ∈ idx, getAt (freeEach block flags idx (a, c)).1 (flags + (i : Int)) = 0) ∧
      (∀ j : Int, (∀ i ∈ idx, flags + (i : Int) ≠ j) →
        getAt (freeEach block flags idx (a, c)).1 j = getAt a j) := by
  induction idx generalizing a c with
  | nil => simp [freeEach]
  | cons i0 rest ih =>
    have hn' : rest.Nodup := (List.nodup_cons.mp hn).2
    have hi0 : i0 ∉ rest := (List.nodup_cons.mp hn).1
    have hne : ∀ i ∈ rest, flags + (i0 : Int) ≠ flags + (i : Int) := by
      intro i hi e
      have : i = i0 := by omega
      exact hi0 (this ▸ hi)
    unfold freeEach
    by_cases hf : getAt a (flags + (i0 : Int)) ≠ 0
    · rw [if_pos hf]
      have h := ih hn' (setAt a (flags + (i0 : Int)) 0)
        (c ++ [XCall.XFreeColors [getAt block (i0 : Int)]])
      have hfilter : (rest.filter fun (i : Nat) =>
          getAt (setAt a (flags + (i0 : Int)) 0) (flags + (i : Int)) ≠ 0) =
          rest.filter fun (i : Nat) => getAt a (flags + (i : Int)) ≠ 0 := by
        apply List.filter_congr
        intro i hi
        rw [getAt_setAt_ne _ _ _ _ (hne i hi)]
      refine ⟨?_, ?_, ?_, ?_⟩
      · rw [h.1, hfilter, List.filter_cons_of_pos (by simpa using hf)]
        simp
      · rw [h.2.1, length_setAt]
      · intro i hi
        rcases List.mem_cons.mp hi with e | e
        · subst e
          rw [h.2.2.2 _ (fun i' hi' => (hne i' hi').symm), getAt_setAt_zero]
        · exact h.2.2.1 i e
      · intro j hj
        rw [h.2.2.2 j (fun i hi => hj i (List.mem_cons_of_mem _ hi)),
          getAt_setAt_ne _ _ _ _ (hj i0 (List.mem_cons_self _ _))]
    · rw [if_neg hf]
      have h := ih hn' a c
      refine ⟨?_, h.2.1, ?_, ?_⟩
      · rw [h.1, List.filter_cons_of_neg (by simpa using hf)]
      · intro i hi
        rcases List.mem_cons.mp hi with e | e
        · subst e
          rw [h.2.2.2 _ (fun i' hi' => (hne i' hi').symm)]
          exact not_not.mp hf
        · exact h.2.2.1 i e
      · intro j hj
        exact h.2.2.2 j (fun i hi => hj i (List.mem_cons_of_mem _ hi))

theorem freeAllocated_flags (block : List Pixel) (flags num : Int) (s : ColourState) :
    (∀ i : Nat, (i : Int) < num →
        getAt (freeAllocated block flags num s).sAllocFlags (flags + (i : Int)) = 0) ∧
      (∀ j : Int, ¬ (flags ≤ j ∧ j < flags + num) →
        getAt (freeAllocated block flags num s).sAllocFlags j = getAt s.sAllocFlags j) ∧
      (freeAllocated block flags num s).sAllocFlags.length = s.sAllocFlags.length := by
  have hmem : ∀ i : Nat, (i : Int) < num → i ∈ List.range num.toNat := by
    intro i hi
    rw [List.mem_range]
    omega
  have hout : ∀ j : Int, ¬ (flags ≤ j ∧ j < flags + num) →
      ∀ i ∈ List.range num.toNat, flags + (i : Int) ≠ j := by
    intro j hj i hi e
    rw [List.mem_range] at hi
    omega
  unfold freeAllocated
  split
  · exact ⟨fun i hi => clearFlags_zero _ _ _ i (hmem i hi),
      fun j hj => clearFlags_other _ _ _ j (hout j hj), length_clearFlags _ _ _⟩
  · have h := freeEach_spec block flags (List.range num.toNat) (List.nodup_range _)
      s.sAllocFlags s.calls
    exact ⟨fun i hi => h.2.2.1 i (hmem i hi), fun j hj => h.2.2.2 j (hout j hj), h.2.1⟩

theorem freeAllocated_calls (block : List Pixel) (flags num : Int) (s : ColourState) :
    ((0 ≤ num ∧ ∀ i ∈ List.range num.toNat, getAt s.sAllocFlags (flags + (i : Int)) ≠ 0) →
        (freeAllocated block flags num s).calls =
          s.calls ++
            [XCall.XFreeColors ((List.range num.toNat).map fun (i : Nat) =>
              getAt block (i : Int))]) ∧
      (¬ (0 ≤ num ∧ ∀ i ∈ List.range num.toNat, getAt s.sAllocFlags (flags + (i : Int)) ≠ 0) →
        (freeAllocated block flags num s).calls =
          s.calls ++
            (((List.range num.toNat).filter fun (i : Nat) =>
              getAt s.sAllocFlags (flags + (i : Int)) ≠ 0).map fun (i : Nat) =>
                XCall.XFreeColors [getAt block (i : Int)])) ∧
      ∃ released : List (List Pixel),
        (freeAllocated block flags num s).calls = s.calls ++ released.map XCall.XFreeColors ∧
          released.flatten =
            ((List.range num.toNat).filter fun (i : Nat) =>
              getAt s.sAllocFlags (flags + (i : Int)) ≠ 0).map fun (i : Nat) =>
                getAt block (i : Int) := by
  have hall : (0 ≤ num ∧ ∀ i ∈ List.range num.toNat,
      getAt s.sAllocFlags (flags + (i : Int)) ≠ 0) →
      (freeAllocated block flags num s).calls =
        s.calls ++
          [XCall.XFreeColors ((List.range num.toNat).map fun (i : Nat) =>
            getAt block (i : Int))] := by
    intro h
    unfold freeAllocated
    rw [if_pos h]
  have hsome : ¬ (0 ≤ num ∧ ∀ i ∈ List.range num.toNat,
      getAt s.sAllocFlags (flags + (i : Int)) ≠ 0) →
      (freeAllocated block flags num s).calls =
        s.calls ++
          (((List.range num.toNat).filter fun (i : Nat) =>
            getAt s.sAllocFlags (flags + (i : Int)) ≠ 0).map fun (i : Nat) =>
              XCall.XFreeColors [getAt block (i : Int)]) := by
    intro h
    unfold freeAllocated
    rw [if_neg h]
    exact (freeEach_spec block flags (List.range num.toNat) (List.nodup_range _)
      s.sAllocFlags s.calls).1
  refine ⟨hall, hsome, ?_⟩
  by_cases h : 0 ≤ num ∧ ∀ i ∈ List.range num.toNat,
      getAt s.sAllocFlags (flags + (i : Int)) ≠ 0
  · refine ⟨[(List.range num.toNat).map fun (i : Nat) => getAt block (i : Int)], ?_, ?_⟩
    · rw [hall h]
      rfl
    · have hf : ((List.range num.toNat).filter fun (i : Nat) =>
          getAt s.sAllocFlags (flags + (i : Int)) ≠ 0) = List.range num.toNat := by
        rw [List.filter_eq_self]
        intro i hi
        simpa using h.2 i hi
      rw [hf]
      simp
  · refine ⟨((List.range num.toNat).filter fun (i : Nat) =>
        getAt s.sAllocFlags (flags + (i : Int)) ≠ 0).map fun (i : Nat) =>
          [getAt block (i : Int)], ?_, ?_⟩
    · rw [hsome h, List.map_map]
      rfl
    · generalize ((List.range num.toNat).filter fun (i : Nat) =>
        getAt s.sAllocFlags (flags + (i : Int)) ≠ 0) = l
      induction l with
      | nil => rfl
      | cons i rest ih => simp [ih]

theorem freeAllocated_rest (block : List Pixel) (flags num : Int) (s : ColourState) :
    (freeAllocated block flags num s).colour = s.colour ∧
      (freeAllocated block flags num s).colset = s.colset ∧
      (freeAllocated block flags num s).scale_col = s.scale_col ∧
      (freeAllocated block flags num s).det_col = s.det_col ∧
      (freeAllocated block flags num s).sColours = s.sColours := by
  unfold freeAllocated
  split <;> exact ⟨rfl, rfl, rfl, rfl, rfl⟩

/-- C24.  FreeAllocatedColours(col, num) works on the working colours and the flags from
0 when `col` is sResource.colour, on the block and the flags from NUM_COLOURS when it is
sResource.scale_col, and on the block and the flags from NUM_COLOURS + num_cols when it
is sResource.det_col (and not both pointers are null).  With `block` what `col` points to
and `flags` the place of its first flag: afterwards the flags of the indices 0..num-1 are
0, every other flag is as before and the array has its length; the pixels released, in
the order of the calls of XFreeColors, are the `col[i]` whose flag was set before, in
index order; when num is not negative and every flag is set they are released by one
call, otherwise by one call each; nothing else of the colours changes. -/
theorem C24_free_allocated_colours (k : ColourConsts) (block : List Pixel) (flags num : Int)
    (s : ColourState) :
    (FreeAllocatedColours k .colour num s = .ok (freeAllocated s.colour 0 num s) ∧
      FreeAllocatedColours k .scale_col num s =
        .ok (freeAllocated (s.scale_col.getD []) k.NUM_COLOURS num s) ∧
      (¬ (s.det_col = none ∧ s.scale_col = none) →
        FreeAllocatedColours k .det_col num s =
          .ok (freeAllocated (s.det_col.getD []) ((k.NUM_COLOURS : Int) + s.num_cols) num s))) ∧
    (∀ i : Nat, (i : Int) < num →
      getAt (freeAllocated block flags num s).sAllocFlags (flags + (i : Int)) = 0) ∧
    (∀ j : Int, ¬ (flags ≤ j ∧ j < flags + num) →
      getAt (freeAllocated block flags num s).sAllocFlags j = getAt s.sAllocFlags j) ∧
    (freeAllocated block flags num s).sAllocFlags.length = s.sAllocFlags.length ∧
    (∃ released : List (List Pixel),
      (freeAllocated block flags num s).calls = s.calls ++ released.map XCall.XFreeColors ∧
        released.flatten =
          ((List.range num.toNat).filter fun (i : Nat) =>
            getAt s.sAllocFlags (flags + (i : Int)) ≠ 0).map fun (i : Nat) =>
              getAt block (i : Int)) ∧
    ((0 ≤ num ∧ ∀ i ∈ List.range num.toNat, getAt s.sAllocFlags (flags + (i : Int)) ≠ 0) →
      (freeAllocated block flags num s).calls =
        s.calls ++
          [XCall.XFreeColors ((List.range num.toNat).map fun (i : Nat) =>
            getAt block (i : Int))]) ∧
    (¬ (0 ≤ num ∧ ∀ i ∈ List.range num.toNat, getAt s.sAllocFlags (flags + (i : Int)) ≠ 0) →
      (freeAllocated block flags num s).calls =
        s.calls ++
          (((List.range num.toNat).filter fun (i : Nat) =>
            getAt s.sAllocFlags (flags + (i : Int)) ≠ 0).map fun (i : Nat) =>
              XCall.XFreeColors [getAt block (i : Int)])) ∧
    ((freeAllocated block flags num s).colour = s.colour ∧
      (freeAllocated block flags num s).colset = s.colset ∧
      (freeAllocated block flags num s).scale_col = s.scale_col ∧
      (freeAllocated block flags num s).det_col = s.det_col ∧
      (freeAllocated block flags num s).sColours = s.sColours) := by
  have hf := freeAllocated_flags block flags num s
  have hc := freeAllocated_calls block flags num s
  refine ⟨⟨rfl, rfl, ?_⟩, hf.1, hf.2.1, hf.2.2, hc.2.2, hc.1, hc.2.1,
    freeAllocated_rest block flags num s⟩
  intro h
  unfold FreeAllocatedColours
  simp only [h, if_false]

/-- C24, witness: the three detector colours of `allocatedColours` are released by one
call, the four scale colours that are allocated by one call each. -/
theorem C24_free_allocated_colours_witness :
    (FreeAllocatedColours sampleConsts .det_col 3 allocatedColours =
        .ok (freeAllocated [300, 301, 302] 17 3 allocatedColours) ∧
      (freeAllocated [300, 301, 302] 17 3 allocatedColours).calls =
        [] ++ [XCall.XFreeColors [300, 301, 302]]) ∧
    (freeAllocated [200, 201, 202, 203, 204, 205] 12 5 allocatedColours).calls =
      [] ++ [XCall.XFreeColors [200], XCall.XFreeColors [201], XCall.XFreeColors [203],
        XCall.XFreeColors [204]] ∧
    getAt (freeAllocated [200, 201, 202, 203, 204, 205] 12 5 allocatedColours).sAllocFlags
      (12 + ((4 : Nat) : Int)) = 0 :=
  ⟨⟨(C24_free_allocated_colours sampleConsts [300, 301, 302] 17 3 allocatedColours).1.2.2
      (by decide),
    (C24_free_allocated_colours sampleConsts [300, 301, 302] 17 3
      allocatedColours).2.2.2.2.2.1 (by decide)⟩,
    (C24_free_allocated_colours sampleConsts [200, 201, 202, 203, 204, 205] 12 5
      allocatedColours).2.2.2.2.2.2.1 (by decide),
    (C24_free_allocated_colours sampleConsts [200, 201, 202, 203, 204, 205] 12 5
      allocatedColours).2.1 4 (by decide)⟩

/-! ## The base seed number and the fraction -/

theorem truncInt_nonneg (x : ℚ) (hx : 0 ≤ x) : truncInt x = ⌊x⌋ := by
  unfold truncInt
  have hn : 0 ≤ x.num := Rat.num_nonneg.mpr hx
  rw [Int.tdiv_eq_ediv hn (Int.ofNat_nonneg _), ← rat_floor_eq, Rat.floor_def']

theorem clamp_spec (q : ℚ) (c : Int) (hq : 0 ≤ q) (hc0 : 0 ≤ c) (hc : c ≤ 16777216)
    (hqc : q ≤ ((c + 1 : Int) : ℚ)) :
    0 ≤ (if truncInt q > c then c else truncInt q) ∧
      (if truncInt q > c then c else truncInt q) ≤ c ∧
      0 ≤ roundSingle (q - roundSingle ((if truncInt q > c then c else truncInt q : Int) : ℚ)) ∧
      roundSingle (q - roundSingle ((if truncInt q > c then c else truncInt q : Int) : ℚ)) ≤ 1 := by
  have hf0 : 0 ≤ ⌊q⌋ := Int.floor_nonneg.mpr hq
  have hf1 : (⌊q⌋ : ℚ) ≤ q := Int.floor_le q
  have hf2 : q < (⌊q⌋ : ℚ) + 1 := Int.lt_floor_add_one q
  have hfc : ⌊q⌋ ≤ c + 1 := by
    have : (⌊q⌋ : ℚ) ≤ ((c + 1 : Int) : ℚ) := le_trans hf1 hqc
    exact_mod_cast this
  rw [truncInt_nonneg q hq]
  have key : ∀ j : Int, 0 ≤ j → j ≤ c → (j : ℚ) ≤ q → q ≤ (j : ℚ) + 1 →
      0 ≤ roundSingle (q - roundSingle (j : ℚ)) ∧ roundSingle (q - roundSingle (j : ℚ)) ≤ 1 := by
    intro j h0 h1 h2 h3
    rw [roundSingle_intCast j h0 (by omega)]
    constructor
    · exact roundSingle_nonneg _ (by linarith)
    · have := roundSingle_le_int (q - j) 1 (by linarith) (by decide) (by push_cast; linarith)
      exact_mod_cast this
  by_cases h : ⌊q⌋ > c
  · rw [if_pos h]
    have hc1 : ⌊q⌋ = c + 1 := by omega
    have h2 : (c : ℚ) ≤ q := by
      have : ((c + 1 : Int) : ℚ) ≤ q := by rw [← hc1]; exact hf1
      push_cast at this
      linarith
    have h3 : q ≤ (c : ℚ) + 1 := by
      push_cast at hqc
      exact hqc
    exact ⟨hc0, le_refl _, key c hc0 (le_refl _) h2 h3⟩
  · rw [if_neg h]
    exact ⟨hf0, by omega, key ⌊q⌋ hf0 (by omega) hf1 (le_of_lt hf2)⟩

theorem clamp_mono (q q1 : ℚ) (c : Int) (hq : 0 ≤ q) (h : q ≤ q1) :
    (if truncInt q > c then c else truncInt q) ≤ (if truncInt q1 > c then c else truncInt q1) := by
  rw [truncInt_nonneg q hq, truncInt_nonneg q1 (le_trans hq h)]
  have := Int.floor_mono h
  split_ifs <;> omega

theorem clamp_ge_one (q : ℚ) (c : Int) (hq : 1 ≤ q) (hc : 1 ≤ c) :
    1 ≤ (if truncInt q > c then c else truncInt q) := by
  rw [truncInt_nonneg q (by linarith)]
  have : (1 : Int) ≤ ⌊q⌋ := Int.le_floor.mpr (by exact_mod_cast hq)
  split_ifs <;> omega

theorem plain_quotient (num nseeds i : Int) (hn : 2 ≤ num) (hn1 : num ≤ 256)
    (hs : 2 ≤ nseeds) (hs1 : nseeds ≤ 10) (hi0 : 0 ≤ i) (hi : i < num) :
    0 ≤ roundSingle (roundSingle ((i * (nseeds - 1) : Int) : ℚ) /
        roundSingle ((num - 1 : Int) : ℚ)) ∧
      roundSingle (roundSingle ((i * (nseeds - 1) : Int) : ℚ) /
        roundSingle ((num - 1 : Int) : ℚ)) ≤ ((nseeds - 2 + 1 : Int) : ℚ) := by
  have hp : 0 ≤ i * (nseeds - 1) := mul_nonneg hi0 (by omega)
  have hp1 : i * (nseeds - 1) ≤ 16777216 := by nlinarith
  rw [roundSingle_intCast _ hp hp1, roundSingle_intCast (num - 1) (by omega) (by omega)]
  have hd : (0 : ℚ) < ((num - 1 : Int) : ℚ) := by
    have : (0 : Int) < num - 1 := by omega
    exact_mod_cast this
  have hq0 : (0 : ℚ) ≤ ((i * (nseeds - 1) : Int) : ℚ) / ((num - 1 : Int) : ℚ) :=
    div_nonneg (by exact_mod_cast hp) (le_of_lt hd)
  have hq1 : ((i * (nseeds - 1) : Int) : ℚ) / ((num - 1 : Int) : ℚ) ≤
      ((nseeds - 2 + 1 : Int) : ℚ) := by
    rw [div_le_iff₀ hd]
    have : i * (nseeds - 1) ≤ (nseeds - 2 + 1) * (num - 1) := by nlinarith
    exact_mod_cast this
  exact ⟨roundSingle_nonneg _ hq0, roundSingle_le_int _ _ hq0 (by omega) hq1⟩

theorem plain_quotient_mono (num nseeds i i1 : Int) (hn : 2 ≤ num) (hn1 : num ≤ 256)
    (hs : 2 ≤ nseeds) (hs1 : nseeds ≤ 10) (hi0 : 0 ≤ i) (hii : i ≤ i1) (hi : i1 < num) :
    roundSingle (roundSingle ((i * (nseeds - 1) : Int) : ℚ) /
        roundSingle ((num - 1 : Int) : ℚ)) ≤
      roundSingle (roundSingle ((i1 * (nseeds - 1) : Int) : ℚ) /
        roundSingle ((num - 1 : Int) : ℚ)) := by
  have hp : 0 ≤ i * (nseeds - 1) := mul_nonneg hi0 (by omega)
  have hp1 : i * (nseeds - 1) ≤ 16777216 := by nlinarith
  have hq : 0 ≤ i1 * (nseeds - 1) := by nlinarith
  have hq1 : i1 * (nseeds - 1) ≤ 16777216 := by nlinarith
  rw [roundSingle_intCast _ hp hp1, roundSingle_intCast _ hq hq1,
    roundSingle_intCast (num - 1) (by omega) (by omega)]
  have hd : (0 : ℚ) < ((num - 1 : Int) : ℚ) := by
    have : (0 : Int) < num - 1 := by omega
    exact_mod_cast this
  apply roundSingle_mono _ _ (div_nonneg (by exact_mod_cast hp) (le_of_lt hd))
  apply div_le_div_of_nonneg_right _ (le_of_lt hd)
  have : i * (nseeds - 1) ≤ i1 * (nseeds - 1) := by nlinarith
  exact_mod_cast this

theorem over_quotient (num nseeds i : Int) (hn : 4 ≤ num) (hn1 : num ≤ 256)
    (hs : 4 ≤ nseeds) (hs1 : nseeds ≤ 10) (hi0 : 1 ≤ i) (hi : i < num - 1) :
    1 ≤ roundSingle (1 + roundSingle (roundSingle (((i - 1) * (nseeds - 3) : Int) : ℚ) /
        roundSingle ((num - 3 : Int) : ℚ))) ∧
      roundSingle (1 + roundSingle (roundSingle (((i - 1) * (nseeds - 3) : Int) : ℚ) /
        roundSingle ((num - 3 : Int) : ℚ))) ≤ ((nseeds - 3 + 1 : Int) : ℚ) := by
  have hp : 0 ≤ (i - 1) * (nseeds - 3) := by nlinarith
  have hp1 : (i - 1) * (nseeds - 3) ≤ 16777216 := by nlinarith
  rw [roundSingle_intCast _ hp hp1, roundSingle_intCast (num - 3) (by omega) (by omega)]
  have hd : (0 : ℚ) < ((num - 3 : Int) : ℚ) := by
    have : (0 : Int) < num - 3 := by omega
    exact_mod_cast this
  have hq0 : (0 : ℚ) ≤ (((i - 1) * (nseeds - 3) : Int) : ℚ) / ((num - 3 : Int) : ℚ) :=
    div_nonneg (by exact_mod_cast hp) (le_of_lt hd)
  have hq1 : (((i - 1) * (nseeds - 3) : Int) : ℚ) / ((num - 3 : Int) : ℚ) ≤
      ((nseeds - 3 : Int) : ℚ) := by
    rw [div_le_iff₀ hd]
    have : (i - 1) * (nseeds - 3) ≤ (nseeds - 3) * (num - 3) := by nlinarith
    exact_mod_cast this
  have r0 := roundSingle_nonneg _ hq0
  have r1 := roundSingle_le_int _ _ hq0 (by omega) hq1
  constructor
  · have := roundSingle_ge_int (1 + roundSingle ((((i - 1) * (nseeds - 3) : Int) : ℚ) /
      ((num - 3 : Int) : ℚ))) 1 (by decide) (by decide) (by rw [Int.cast_one]; linarith)
    exact_mod_cast this
  · apply roundSingle_le_int _ _ (by linarith) (by omega)
    push_cast
    push_cast at r1
    linarith

theorem over_quotient_mono (num nseeds i i1 : Int) (hn : 4 ≤ num) (hn1 : num ≤ 256)
    (hs : 4 ≤ nseeds) (hs1 : nseeds ≤ 10) (hi0 : 1 ≤ i) (hii : i ≤ i1) (hi : i1 < num - 1) :
    roundSingle (1 + roundSingle (roundSingle (((i - 1) * (nseeds - 3) : Int) : ℚ) /
        roundSingle ((num - 3 : Int) : ℚ))) ≤
      roundSingle (1 + roundSingle (roundSingle (((i1 - 1) * (nseeds - 3) : Int) : ℚ) /
        roundSingle ((num - 3 : Int) : ℚ))) := by
  have hp : 0 ≤ (i - 1) * (nseeds - 3) := by nlinarith
  have hp1 : (i - 1) * (nseeds - 3) ≤ 16777216 := by nlinarith
  have hq : 0 ≤ (i1 - 1) * (nseeds - 3) := by nlinarith
  have hq1 : (i1 - 1) * (nseeds - 3) ≤ 16777216 := by nlinarith
  rw [roundSingle_intCast _ hp hp1, roundSingle_intCast _ hq hq1,
    roundSingle_intCast (num - 3) (by omega) (by omega)]
  have hd : (0 : ℚ) < ((num - 3 : Int) : ℚ) := by
    have : (0 : Int) < num - 3 := by omega
    exact_mod_cast this
  have hq0 : (0 : ℚ) ≤ (((i - 1) * (nseeds - 3) : Int) : ℚ) / ((num - 3 : Int) : ℚ) :=
    div_nonneg (by exact_mod_cast hp) (le_of_lt hd)
  have r0 := roundSingle_nonneg _ hq0
  apply roundSingle_mono _ _ (by linarith)
  have : roundSingle ((((i - 1) * (nseeds - 3) : Int) : ℚ) / ((num - 3 : Int) : ℚ)) ≤
      roundSingle ((((i1 - 1) * (nseeds - 3) : Int) : ℚ) / ((num - 3 : Int) : ℚ)) := by
    apply roundSingle_mono _ _ hq0
    apply div_le_div_of_nonneg_right _ (le_of_lt hd)
    have : (i - 1) * (nseeds - 3) ≤ (i1 - 1) * (nseeds - 3) := by nlinarith
    exact_mod_cast this
  linarith

theorem seedFraction_spec (num nseeds overscale i : Int)
    (hn : (if overscale ≠ 0 then 4 else 2) ≤ num) (hn1 : num ≤ 256)
    (hs : (if overscale ≠ 0 then 4 else 2) ≤ nseeds) (hs1 : nseeds ≤ 10)
    (hi0 : 0 ≤ i) (hi : i < num) :
    ∃ j t, seedFraction num nseeds overscale i = some (j, t) ∧
      0 ≤ j ∧ j ≤ nseeds - 2 ∧ 0 ≤ t ∧ t ≤ 1 := by
  by_cases ho : overscale ≠ 0
  · rw [if_pos ho] at hn hs
    unfold seedFraction
    rw [if_pos ho]
    by_cases h0 : i = 0
    · rw [if_pos h0]
      exact ⟨0, 0, rfl, le_refl _, by omega, le_refl _, by norm_num⟩
    · rw [if_neg h0]
      by_cases h1 : i = num - 1
      · rw [if_pos h1]
        exact ⟨nseeds - 2, 1, rfl, by omega, le_refl _, by norm_num, le_refl _⟩
      · rw [if_neg h1, if_neg (by omega)]
        have hq := over_quotient num nseeds i hn hn1 hs hs1 (by omega) (by omega)
        have hc := clamp_spec _ (nseeds - 3) (le_trans (by norm_num) hq.1) (by omega)
          (by omega) hq.2
        exact ⟨_, _, rfl, hc.1, by have := hc.2.1; omega, hc.2.2.1, hc.2.2.2⟩
  · rw [if_neg ho] at hn hs
    unfold seedFraction
    rw [if_neg ho, if_neg (by omega)]
    have hq := plain_quotient num nseeds i hn hn1 hs hs1 hi0 hi
    have hc := clamp_spec _ (nseeds - 2) hq.1 (by omega) (by omega) hq.2
    exact ⟨_, _, rfl, hc.1, hc.2.1, hc.2.2.1, hc.2.2.2⟩

theorem seedFraction_mono (num nseeds overscale i i1 : Int)
    (hn : (if overscale ≠ 0 then 4 else 2) ≤ num) (hn1 : num ≤ 256)
    (hs : (if overscale ≠ 0 then 4 else 2) ≤ nseeds) (hs1 : nseeds ≤ 10)
    (hi0 : 0 ≤ i) (hii : i ≤ i1) (hi : i1 < num) (j j1 : Int) (t t1 : ℚ)
    (h : seedFraction num nseeds overscale i = some (j, t))
    (h1 : seedFraction num nseeds overscale i1 = some (j1, t1)) : j ≤ j1 := by
  have s := seedFraction_spec num nseeds overscale i hn hn1 hs hs1 hi0 (by omega)
  have s1 := seedFraction_spec num nseeds overscale i1 hn hn1 hs hs1 (by omega) hi
  obtain ⟨a, b, e, p0, p1, -, -⟩ := s
  obtain ⟨a1, b1, e1, q0, q1, -, -⟩ := s1
  rw [h] at e
  rw [h1] at e1
  simp only [Option.some.injEq, Prod.mk.injEq] at e e1
  obtain ⟨rfl, rfl⟩ := e
  obtain ⟨rfl, rfl⟩ := e1
  by_cases ho : overscale ≠ 0
  · rw [if_pos ho] at hn hs
    unfold seedFraction at h h1
    rw [if_pos ho] at h h1
    by_cases h0 : i = 0
    · rw [if_pos h0] at h
      simp only [Option.some.injEq, Prod.mk.injEq] at h
      omega
    · rw [if_neg h0] at h
      rw [if_neg (by omega)] at h1
      by_cases h2 : i1 = num - 1
      · rw [if_pos h2] at h1
        simp only [Option.some.injEq, Prod.mk.injEq] at h1
        omega
      · rw [if_neg h2, if_neg (by omega)] at h1
        rw [if_neg (by omega), if_neg (by omega)] at h
        simp only [Option.some.injEq, Prod.mk.injEq] at h h1
        rw [← h.1, ← h1.1]
        have hq := over_quotient num nseeds i hn hn1 hs hs1 (by omega) (by omega)
        exact clamp_mono _ _ _ (le_trans (by norm_num) hq.1)
          (over_quotient_mono num nseeds i i1 hn hn1 hs hs1 (by omega) hii (by omega))
  · rw [if_neg ho] at hn hs
    unfold seedFraction at h h1
    rw [if_neg ho, if_neg (by omega)] at h h1
    simp only [Option.some.injEq, Prod.mk.injEq] at h h1
    rw [← h.1, ← h1.1]
    have hq := plain_quotient num nseeds i hn hn1 hs hs1 hi0 (by omega)
    exact clamp_mono _ _ _ hq.1
      (plain_quotient_mono num nseeds i i1 hn hn1 hs hs1 hi0 hii hi)

theorem channel_range (a b : Nat) (t : ℚ) (lo hi : ℚ) (hlo : 0 ≤ lo)
    (hla : lo ≤ a) (hlb : lo ≤ b) (hha : (a : ℚ) ≤ hi) (hhb : (b : ℚ) ≤ hi) (hh : hi ≤ 65535)
    (ht0 : 0 ≤ t) (ht1 : t ≤ 1) :
    lo - 1 < channel a b t ∧ channel a b t < hi + 1 := by
  have ha0 : (0 : ℚ) ≤ (a : ℚ) := Nat.cast_nonneg a
  have hb0 : (0 : ℚ) ≤ (b : ℚ) := Nat.cast_nonneg b
  have ha1 : a ≤ 16777216 := by
    have : (a : ℚ) ≤ 16777216 := by linarith
    exact_mod_cast this
  have hb1 : b ≤ 16777216 := by
    have : (b : ℚ) ≤ 16777216 := by linarith
    exact_mod_cast this
  unfold channel
  rw [roundSingle_natCast a ha1, roundSingle_natCast b hb1]
  have hu := roundSingle_near (1 - t) (by linarith)
  have hu0 := roundSingle_nonneg (1 - t) (by linarith)
  have hp := roundSingle_near ((a : ℚ) * roundSingle (1 - t)) (mul_nonneg ha0 hu0)
  have hp0 := roundSingle_nonneg ((a : ℚ) * roundSingle (1 - t)) (mul_nonneg ha0 hu0)
  have hq := roundSingle_near ((b : ℚ) * t) (mul_nonneg hb0 ht0)
  have hq0 := roundSingle_nonneg ((b : ℚ) * t) (mul_nonneg hb0 ht0)
  have hs := roundSingle_near
    (roundSingle ((a : ℚ) * roundSingle (1 - t)) + roundSingle ((b : ℚ) * t)) (by linarith)
  generalize roundSingle
    (roundSingle ((a : ℚ) * roundSingle (1 - t)) + roundSingle ((b : ℚ) * t)) = s at hs ⊢
  generalize roundSingle ((a : ℚ) * roundSingle (1 - t)) = p at hp hp0 hs
  generalize roundSingle ((b : ℚ) * t) = q at hq hq0 hs
  generalize roundSingle (1 - t) = u at hu hu0 hp
  -- the products with the bounds
  have u1 : (a : ℚ) * u ≤ hi * ((1 - t) * (1 + 1 / 16777216)) :=
    mul_le_mul hha hu.2 hu0 (le_trans ha0 hha)
  have u2 : (b : ℚ) * t ≤ hi * t := mul_le_mul_of_nonneg_right hhb ht0
  have l1 : lo * ((1 - t) * (1 - 1 / 16777216)) ≤ (a : ℚ) * u :=
    mul_le_mul hla hu.1 (mul_nonneg (by linarith) (by norm_num)) ha0
  have l2 : lo * t ≤ (b : ℚ) * t := mul_le_mul_of_nonneg_right hlb ht0
  have hw0 : 0 ≤ hi * t := mul_nonneg (le_trans ha0 hha) ht0
  have hw1 : hi * t ≤ hi := by
    have := mul_le_mul_of_nonneg_left ht1 (le_trans ha0 hha)
    linarith
  have hv0 : 0 ≤ lo * t := mul_nonneg hlo ht0
  have hv1 : lo * t ≤ lo := by
    have := mul_le_mul_of_nonneg_left ht1 hlo
    linarith
  generalize (a : ℚ) * u = au at hp u1 l1
  generalize (b : ℚ) * t = bt at hq u2 l2
  have e1 : hi * ((1 - t) * (1 + 1 / 16777216)) = (hi - hi * t) * (1 + 1 / 16777216) := by ring
  have e2 : lo * ((1 - t) * (1 - 1 / 16777216)) = (lo - lo * t) * (1 - 1 / 16777216) := by ring
  rw [e1] at u1
  rw [e2] at l1
  generalize hi * t = w at u1 u2 hw0 hw1
  generalize lo * t = v at l1 l2 hv0 hv1
  constructor
  · linarith [hs.1, hp.1, hq.1]
  · linarith [hs.2, hp.2, hq.2]

theorem channel_nonneg (a b : Nat) (t : ℚ) (ht0 : 0 ≤ t) (ht1 : t ≤ 1) :
    0 ≤ channel a b t := by
  unfold channel
  have ha := roundSingle_nonneg (a : ℚ) (Nat.cast_nonneg a)
  have hb := roundSingle_nonneg (b : ℚ) (Nat.cast_nonneg b)
  have hu := roundSingle_nonneg (1 - t) (by linarith)
  exact roundSingle_nonneg _ (add_nonneg (roundSingle_nonneg _ (mul_nonneg ha hu))
    (roundSingle_nonneg _ (mul_nonneg hb ht0)))

theorem castUShort_channel (a b : Nat) (t : ℚ) (ha : a < 65536) (hb : b < 65536)
    (ht0 : 0 ≤ t) (ht1 : t ≤ 1) :
    (0 ≤ channel a b t ∧ channel a b t < 65536) ∧
      min a b ≤ castUShort (channel a b t) + 1 ∧ castUShort (channel a b t) ≤ max a b := by
  have h0 := channel_nonneg a b t ht0 ht1
  have hmax : ((max a b : Nat) : ℚ) ≤ 65535 := by
    have : max a b ≤ 65535 := by omega
    exact_mod_cast this
  have hr := channel_range a b t ((min a b : Nat) : ℚ) ((max a b : Nat) : ℚ)
    (Nat.cast_nonneg _) (by exact_mod_cast min_le_left a b) (by exact_mod_cast min_le_right a b)
    (by exact_mod_cast le_max_left a b) (by exact_mod_cast le_max_right a b) hmax ht0 ht1
  have hlt : channel a b t < 65536 := by linarith
  have hf0 : 0 ≤ ⌊channel a b t⌋ := Int.floor_nonneg.mpr h0
  have hf1 : ⌊channel a b t⌋ < ((max a b : Nat) : Int) + 1 := by
    apply Int.floor_lt.mpr
    push_cast
    exact_mod_cast hr.2
  have hf2 : ((min a b : Nat) : Int) - 1 ≤ ⌊channel a b t⌋ := by
    apply Int.le_floor.mpr
    push_cast
    have := hr.1
    push_cast at this
    exact le_of_lt this
  have hc : ((castUShort (channel a b t) : Nat) : Int) = ⌊channel a b t⌋ := by
    unfold castUShort
    rw [truncInt_nonneg _ h0, Int.toNat_of_nonneg (Int.emod_nonneg _ (by decide))]
    exact Int.emod_eq_of_lt hf0 (by omega)
  refine ⟨⟨h0, hlt⟩, ?_, ?_⟩
  · omega
  · omega

theorem allocChecks_none (num : Int) (col : ColourPtr) (nseeds overscale : Int)
    (h : allocChecks num col nseeds overscale = none) :
    (if overscale ≠ 0 then 4 else 2) ≤ nseeds ∧ nseeds ≤ 10 ∧ num ≤ 256 := by
  unfold allocChecks MAX_COLOUR_SEEDS MAX_COLOURS at h
  by_cases h1 : col = .other
  · rw [if_pos h1] at h
    cases h
  · rw [if_neg h1] at h
    by_cases h2 : nseeds < (if overscale ≠ 0 then 4 else 2)
    · rw [if_pos h2] at h
      cases h
    · rw [if_neg h2] at h
      by_cases h3 : nseeds > 10
      · rw [if_pos h3] at h
        cases h
      · rw [if_neg h3] at h
        by_cases h4 : num > 256
        · rw [if_pos h4] at h
          cases h
        · exact ⟨not_lt.mp h2, not_lt.mp h3, not_lt.mp h4⟩

theorem length_querySeeds (x : XServer) (n : Nat) (colour : List Pixel) (first nseeds : Int) :
    (querySeeds x n colour first nseeds).length = nseeds.toNat := by
  unfold querySeeds
  rw [List.length_map, List.length_range]

/-- C27, counterexample: four colours between two seeds that are both white, a call that
passes the argument checks.  For the index 1 the fraction is the float nearest to 1/3, and
the red, green and blue calculated are 65534, below the 65535 of both seeds. -/
theorem C27_channel_below_both_seeds :
    allocChecks 4 .det_col 2 0 = none ∧
      seedFraction 4 2 0 1 = some (0, 11184811 / 33554432) ∧
      (getAt (querySeeds whiteServer 0 sampleColours.colour 1 2) 0).rgb =
        (65535, 65535, 65535) ∧
      (getAt (querySeeds whiteServer 0 sampleColours.colour 1 2) (0 + 1)).rgb =
        (65535, 65535, 65535) ∧
      (scaleColour (querySeeds whiteServer 0 sampleColours.colour 1 2) 4 2 0 1).map
          XColor.rgb = some (65534, 65534, 65534) := by
  decide!

/-- C27.  For every call of AllocColours that passes the argument checks, with num at
least 2, or at least 4 with overscale, and every index i from 0 to num-1: the base seed
number j and the fraction t are calculated, 0 ≤ j ≤ nseeds-2 and 0 ≤ t ≤ 1; the seeds j and
j+1 are among the nseeds seeds queried, which are at most MAX_COLOUR_SEEDS; for red, green
and blue the float that is interpolated is at least 0 and below 65536, and the value stored
is at most the larger of the values of the two seeds and at least the smaller of them less
1; and j is not larger than the base seed number of any later index. -/
theorem C27_seed_index_and_fraction (x : XServer) (n : Nat) (colour : List Pixel)
    (first num nseeds overscale : Int) (col : ColourPtr)
    (hc : allocChecks num col nseeds overscale = none)
    (hn : (if overscale ≠ 0 then 4 else 2) ≤ num) (i : Int) (hi0 : 0 ≤ i) (hi : i < num) :
    ∃ (j : Int) (t : ℚ), seedFraction num nseeds overscale i = some (j, t) ∧
      (0 ≤ j ∧ j ≤ nseeds - 2) ∧ (0 ≤ t ∧ t ≤ 1) ∧
      (nseeds ≤ MAX_COLOUR_SEEDS ∧
        (j + 1).toNat < (querySeeds x n colour first nseeds).length) ∧
      scaleColour (querySeeds x n colour first nseeds) num nseeds overscale i =
        some (interpolate (querySeeds x n colour first nseeds) j t) ∧
      ((0 ≤ channel (getAt (querySeeds x n colour first nseeds) j).red
            (getAt (querySeeds x n colour first nseeds) (j + 1)).red t ∧
          channel (getAt (querySeeds x n colour first nseeds) j).red
            (getAt (querySeeds x n colour first nseeds) (j + 1)).red t < 65536) ∧
        min (getAt (querySeeds x n colour first nseeds) j).red
            (getAt (querySeeds x n colour first nseeds) (j + 1)).red ≤
          (interpolate (querySeeds x n colour first nseeds) j t).red + 1 ∧
        (interpolate (querySeeds x n colour first nseeds) j t).red ≤
          max (getAt (querySeeds x n colour first nseeds) j).red
            (getAt (querySeeds x n colour first nseeds) (j + 1)).red) ∧
      ((0 ≤ channel (getAt (querySeeds x n colour first nseeds) j).green
            (getAt (querySeeds x n colour first nseeds) (j + 1)).green t ∧
          channel (getAt (querySeeds x n colour first nseeds) j).green
            (getAt (querySeeds x n colour first nseeds) (j + 1)).green t < 65536) ∧
        min (getAt (querySeeds x n colour first nseeds) j).green
            (getAt (querySeeds x n colour first nseeds) (j + 1)).green ≤
          (interpolate (querySeeds x n colour first nseeds) j t).green + 1 ∧
        (interpolate (querySeeds x n colour first nseeds) j t).green ≤
          max (getAt (querySeeds x n colour first nseeds) j).green
            (getAt (querySeeds x n colour first nseeds) (j + 1)).green) ∧
      ((0 ≤ channel (getAt (querySeeds x n colour first nseeds) j).blue
            (getAt (querySeeds x n colour first nseeds) (j + 1)).blue t ∧
          channel (getAt (querySeeds x n colour first nseeds) j).blue
            (getAt (querySeeds x n colour first nseeds) (j + 1)).blue t < 65536) ∧
        min (getAt (querySeeds x n colour first nseeds) j).blue
            (getAt (querySeeds x n colour first nseeds) (j + 1)).blue ≤
          (interpolate (querySeeds x n colour first nseeds) j t).blue + 1 ∧
        (interpolate (querySeeds x n colour first nseeds) j t).blue ≤
          max (getAt (querySeeds x n colour first nseeds) j).blue
            (getAt (querySeeds x n colour first nseeds) (j + 1)).blue) ∧
      ∀ (i1 j1 : Int) (t1 : ℚ), i ≤ i1 → i1 < num →
        seedFraction num nseeds overscale i1 = some (j1, t1) → j ≤ j1 := by
  obtain ⟨hs, hs1, hn1⟩ := allocChecks_none num col nseeds overscale hc
  obtain ⟨j, t, e, hj0, hj1, ht0, ht1⟩ :=
    seedFraction_spec num nseeds overscale i hn hn1 hs hs1 hi0 hi
  have q0 := getAt_querySeeds x n colour first nseeds j
  have q1 := getAt_querySeeds x n colour first nseeds (j + 1)
  refine ⟨j, t, e, ⟨hj0, hj1⟩, ⟨ht0, ht1⟩, ⟨hs1, ?_⟩, ?_,
    castUShort_channel _ _ t q0.1 q1.1 ht0 ht1,
    castUShort_channel _ _ t q0.2.1 q1.2.1 ht0 ht1,
    castUShort_channel _ _ t q0.2.2 q1.2.2 ht0 ht1, ?_⟩
  · rw [length_querySeeds]
    omega
  · unfold scaleColour
    rw [e]
    rfl
  · intro i1 j1 t1 hii hi1 e1
    exact seedFraction_mono num nseeds overscale i i1 hn hn1 hs hs1 hi0 hii hi1 j j1 t t1 e e1

/-- C27, witness: the index 1 of four colours between the two white seeds of
`whiteServer`; the red value calculated is at most 65535 and at least 65534. -/
theorem C27_seed_index_and_fraction_witness :
    allocChecks 4 .det_col 2 0 = none ∧
      ∃ (j : Int) (t : ℚ), seedFraction 4 2 0 1 = some (j, t) ∧
        (0 ≤ j ∧ j ≤ 2 - 2) ∧ (0 ≤ t ∧ t ≤ 1) ∧
        min (getAt (querySeeds whiteServer 0 sampleColours.colour 1 2) j).red
            (getAt (querySeeds whiteServer 0 sampleColours.colour 1 2) (j + 1)).red ≤
          (interpolate (querySeeds whiteServer 0 sampleColours.colour 1 2) j t).red + 1 ∧
        (interpolate (querySeeds whiteServer 0 sampleColours.colour 1 2) j t).red ≤
          max (getAt (querySeeds whiteServer 0 sampleColours.colour 1 2) j).red
            (getAt (querySeeds whiteServer 0 sampleColours.colour 1 2) (j + 1)).red := by
  obtain ⟨j, t, e, hj, ht, -, -, hr, -⟩ :=
    C27_seed_index_and_fraction whiteServer 0 sampleColours.colour 1 4 2 0 .det_col
      (by decide) (by decide) 1 (by decide) (by decide)
  exact ⟨by decide, j, t, e, hj, ht, hr.2.1, hr.2.2⟩

/-! ## The divisors of AllocColours -/

/-- C28.  One detector colour: the call AllocColours(1, &det_col, VDARK_COL, 2, 0, 0) of
InitResources passes the argument checks and divides by num-1 = 0 for the index 0.  Three
scale colours: the call AllocColours(3, &scale_col, SCALE_UNDER, 7, 1, 1) passes the
argument checks and divides by num-3 = 0 for the index 1, which is neither 0 nor num-1.
InitResources ends in the division by zero for either setting. -/
theorem C28_division_by_zero :
    (allocChecks 1 .det_col 2 0 = none ∧ (1 : Int) - 1 = 0 ∧ seedFraction 1 2 0 0 = none) ∧
      (allocChecks 3 .scale_col 7 1 = none ∧ (3 : Int) - 3 = 0 ∧
        seedFraction 3 7 1 1 = none) ∧
      InitResources sampleConsts sampleServer false { sampleColours with det_cols := 1 } =
        .error (.undefined "division by zero") ∧
      InitResources sampleConsts sampleServer false { sampleColours with num_cols := 3 } =
        .error (.undefined "division by zero") := by
  decide!

/-! ## The regions of the allocation flags -/

theorem allocGreys_flags (k : ColourConsts) (x : XServer) (set : Nat) (colset : List Pixel)
    (tmp_cols : List XColor) (idx : List Nat) (r : List Pixel × List Nat × List XCall) :
    (allocGreys k x set colset tmp_cols idx r).2.1.length = r.2.1.length ∧
      ∀ j : Int, (∀ i ∈ idx, (i : Int) ≠ j) →
        getAt (allocGreys k x set colset tmp_cols idx r).2.1 j = getAt r.2.1 j := by
  induction idx generalizing r with
  | nil => exact ⟨rfl, fun _ _ => rfl⟩
  | cons i rest ih =>
    unfold allocGreys
    split
    · refine ⟨?_, fun j hj => ?_⟩
      · rw [(ih _).1]
        dsimp only
        exact length_setAt r.2.1 _ _
      · rw [(ih _).2 j (fun i' hi' => hj i' (List.mem_cons_of_mem _ hi'))]
        dsimp only
        exact getAt_setAt_ne r.2.1 _ _ _ (hj i (List.mem_cons_self _ _))
    · refine ⟨?_, fun j hj => ?_⟩
      · rw [(ih _).1]
      · rw [(ih _).2 j (fun i' hi' => hj i' (List.mem_cons_of_mem _ hi'))]

theorem copyColours_flags (k : ColourConsts) (x : XServer) (s : ColourState) :
    (CopyColours k x s).sAllocFlags.length = s.sAllocFlags.length ∧
      (∀ j : Int, ¬ (0 ≤ j ∧ j < k.NUM_COLOURS) →
        getAt (CopyColours k x s).sAllocFlags j = getAt s.sAllocFlags j) ∧
      (CopyColours k x s).scale_col = s.scale_col ∧
      (CopyColours k x s).det_col = s.det_col := by
  unfold CopyColours
  split
  · exact ⟨rfl, fun _ _ => rfl, rfl, rfl⟩
  · dsimp only
    split
    · have h := allocGreys_flags k x (if Int.land s.image_col k.kWhiteBkg ≠ 0 then 1 else 0)
        s.colset (substituteScale k (if Int.land s.image_col k.kWhiteBkg ≠ 0 then 1 else 0)
          (List.range ((k.SCALE_OVER : Int) - k.SCALE_UNDER + 1).toNat)
          (greyColours k (if Int.land s.image_col k.kWhiteBkg ≠ 0 then 1 else 0) s.sColours))
        (List.range k.NUM_COLOURS)
        (s.colour, s.sAllocFlags, s.calls ++ [.newColours k.NUM_COLOURS])
      refine ⟨h.1, fun j hj => h.2 j ?_, rfl, rfl⟩
      intro i hi e
      rw [List.mem_range] at hi
      omega
    · exact ⟨rfl, fun _ _ => rfl, rfl, rfl⟩

theorem allocLoop_flags (k : ColourConsts) (x : XServer) (colour : List Pixel)
    (col_seeds : List XColor) (num nseeds overscale flags : Int) (cells : Bool)
    (idx : List Nat) (l l1 : AllocLoop)
    (h : allocLoop k x colour col_seeds num nseeds overscale flags cells idx l = .ok l1) :
    l1.sAllocFlags.length = l.sAllocFlags.length ∧
      ∀ j : Int, (∀ i ∈ idx, flags + (i : Int) ≠ j) →
        getAt l1.sAllocFlags j = getAt l.sAllocFlags j := by
  induction idx generalizing l with
  | nil => cases h; exact ⟨rfl, fun _ _ => rfl⟩
  | cons i rest ih =>
    unfold allocLoop at h
    split at h
    · cases h
    · split at h
      · have := ih _ h
        refine ⟨this.1.trans (length_setAt _ _ _), fun j hj => ?_⟩
        rw [this.2 j (fun i' hi' => hj i' (List.mem_cons_of_mem _ hi'))]
        exact getAt_setAt_ne _ _ _ _ (hj i (List.mem_cons_self _ _))
      · split at h
        · have := ih _ h
          refine ⟨this.1.trans (length_setAt _ _ _), fun j hj => ?_⟩
          rw [this.2 j (fun i' hi' => hj i' (List.mem_cons_of_mem _ hi'))]
          exact getAt_setAt_ne _ _ _ _ (hj i (List.mem_cons_self _ _))
        · have := ih _ h
          refine ⟨this.1.trans (length_setAt _ _ _), fun j hj => ?_⟩
          rw [this.2 j (fun i' hi' => hj i' (List.mem_cons_of_mem _ hi'))]
          exact getAt_setAt_ne _ _ _ _ (hj i (List.mem_cons_self _ _))

theorem allocColours_flags (k : ColourConsts) (x : XServer) (num : Int) (col : ColourPtr)
    (first nseeds overscale extras : Int) (s : ColourState) (flags : Int)
    (block : List Pixel) (cells : Bool) (calls : List XCall) (s1 : ColourState)
    (h : allocColours k x num col first nseeds overscale extras s flags block cells calls =
      .ok s1) :
    s1.sAllocFlags.length = s.sAllocFlags.length ∧
      (∀ j : Int, ¬ (flags ≤ j ∧ j < flags + num) →
        getAt s1.sAllocFlags j = getAt s.sAllocFlags j) ∧
      (col = .scale_col → s1.scale_col ≠ none ∧ s1.det_col = s.det_col) ∧
      (col = .det_col → s1.det_col ≠ none ∧ s1.scale_col = s.scale_col) := by
  unfold allocColours at h
  dsimp only at h
  split at h
  · cases h
  · rename_i l hl
    cases h
    have hf := allocLoop_flags _ _ _ _ _ _ _ _ _ _ _ _ hl
    refine ⟨hf.1, fun j hj => hf.2 j ?_, ?_, ?_⟩
    · intro i hi e
      rw [List.mem_range] at hi
      omega
    · intro hc
      subst hc
      exact ⟨by simp [ColourState.setBlock], rfl⟩
    · intro hc
      subst hc
      exact ⟨by simp [ColourState.setBlock], rfl⟩

theorem allocColours_ok_flags (k : ColourConsts) (x : XServer) (num : Int) (col : ColourPtr)
    (first nseeds overscale extras : Int) (s s1 : ColourState)
    (h : AllocColours k x num col first nseeds overscale extras s = .ok s1) :
    s1.sAllocFlags.length = s.sAllocFlags.length ∧
      (∀ j : Int,
        ¬ ((if col = .scale_col then (k.NUM_COLOURS : Int) else (k.NUM_COLOURS : Int) + s.num_cols)
            ≤ j ∧
          j < (if col = .scale_col then (k.NUM_COLOURS : Int)
            else (k.NUM_COLOURS : Int) + s.num_cols) + num) →
        getAt s1.sAllocFlags j = getAt s.sAllocFlags j) ∧
      (col = .scale_col → s1.scale_col ≠ none ∧ s1.det_col = s.det_col) ∧
      (col = .det_col → s1.det_col ≠ none ∧ s1.scale_col = s.scale_col) := by
  unfold AllocColours at h
  split at h
  · cases h
  · dsimp only at h
    split at h
    · split at h
      · split at h
        · exact allocColours_flags _ _ _ _ _ _ _ _ _ _ _ _ _ _ h
        · exact allocColours_flags _ _ _ _ _ _ _ _ _ _ _ _ _ _ h
      · cases h
    · exact allocColours_flags _ _ _ _ _ _ _ _ _ _ _ _ _ _ h

theorem freeAllocated_reads (block : List Pixel) (flags num : Int) (s : ColourState)
    (f : List Nat)
    (h : ∀ j : Int, flags ≤ j ∧ j < flags + num → getAt f j = getAt s.sAllocFlags j) :
    (freeAllocated block flags num { s with sAllocFlags := f }).calls =
      (freeAllocated block flags num s).calls := by
  have hi : ∀ i ∈ List.range num.toNat,
      getAt f (flags + (i : Int)) = getAt s.sAllocFlags (flags + (i : Int)) := by
    intro i hi
    rw [List.mem_range] at hi
    exact h _ ⟨by omega, by omega⟩
  have hc : (0 ≤ num ∧ ∀ i ∈ List.range num.toNat, getAt f (flags + (i : Int)) ≠ 0) ↔
      (0 ≤ num ∧ ∀ i ∈ List.range num.toNat, getAt s.sAllocFlags (flags + (i : Int)) ≠ 0) := by
    constructor
    · intro ⟨a, b⟩
      exact ⟨a, fun i m => by rw [← hi i m]; exact b i m⟩
    · intro ⟨a, b⟩
      exact ⟨a, fun i m => by rw [hi i m]; exact b i m⟩
  have c1 := freeAllocated_calls block flags num { s with sAllocFlags := f }
  have c2 := freeAllocated_calls block flags num s
  by_cases hall : 0 ≤ num ∧ ∀ i ∈ List.range num.toNat,
      getAt s.sAllocFlags (flags + (i : Int)) ≠ 0
  · rw [c1.1 (hc.mpr hall), c2.1 hall]
  · rw [c1.2.1 (fun hh => hall (hc.mp hh)), c2.2.1 hall]
    congr 2
    apply List.filter_congr
    intro i m
    show decide (getAt f (flags + (i : Int)) ≠ 0) = decide (getAt s.sAllocFlags (flags + (i : Int)) ≠ 0)
    rw [hi i m]

theorem freeAllocatedColours_eq (k : ColourConsts) (s : ColourState) :
    (∀ num : Int, FreeAllocatedColours k .colour num s = .ok (freeAllocated s.colour 0 num s)) ∧
      (∀ num : Int, FreeAllocatedColours k .scale_col num s =
        .ok (freeAllocated (s.scale_col.getD []) k.NUM_COLOURS num s)) ∧
      (s.det_col ≠ none → ∀ num : Int, FreeAllocatedColours k .det_col num s =
        .ok (freeAllocated (s.det_col.getD []) ((k.NUM_COLOURS : Int) + s.num_cols) num s)) := by
  refine ⟨fun _ => rfl, fun _ => rfl, fun hd num => ?_⟩
  unfold FreeAllocatedColours
  dsimp only
  rw [if_neg (fun hh => hd hh.1)]

theorem freeAllocated_layout (block : List Pixel) (flags num : Int) (s : ColourState) :
    (freeAllocated block flags num s).num_cols = s.num_cols ∧
      (freeAllocated block flags num s).det_cols = s.det_cols ∧
      (freeAllocated block flags num s).sAllocFlags.length = s.sAllocFlags.length ∧
      (freeAllocated block flags num s).scale_col = s.scale_col ∧
      (freeAllocated block flags num s).det_col = s.det_col :=
  ⟨(freeAllocated_frame block flags num s).2.1, (freeAllocated_frame block flags num s).2.2.1,
    (freeAllocated_flags block flags num s).2.2, (freeAllocated_rest block flags num s).2.2.1,
    (freeAllocated_rest block flags num s).2.2.2.1⟩

theorem freeColours_layout (k : ColourConsts) (s s1 : ColourState) (hd : s.det_col ≠ none)
    (h : FreeColours k s = .ok s1) :
    s1.num_cols = s.num_cols ∧ s1.det_cols = s.det_cols ∧
      s1.sAllocFlags.length = s.sAllocFlags.length ∧ s1.scale_col = s.scale_col ∧
      s1.det_col = s.det_col := by
  unfold FreeColours at h
  obtain ⟨a, ha, h⟩ := bind_ok _ _ _ h
  obtain ⟨b, hb, h⟩ := bind_ok _ _ _ h
  rw [(freeAllocatedColours_eq k s).1] at ha
  cases ha
  have l1 := freeAllocated_layout s.colour 0 k.NUM_COLOURS s
  rw [(freeAllocatedColours_eq k _).2.1] at hb
  cases hb
  have l2 := freeAllocated_layout ((freeAllocated s.colour 0 k.NUM_COLOURS s).scale_col.getD [])
    k.NUM_COLOURS (freeAllocated s.colour 0 k.NUM_COLOURS s).num_cols
    (freeAllocated s.colour 0 k.NUM_COLOURS s)
  generalize freeAllocated ((freeAllocated s.colour 0 k.NUM_COLOURS s).scale_col.getD [])
    k.NUM_COLOURS (freeAllocated s.colour 0 k.NUM_COLOURS s).num_cols
    (freeAllocated s.colour 0 k.NUM_COLOURS s) = b at h l2
  have hb : b.det_col ≠ none := by rw [l2.2.2.2.2, l1.2.2.2.2]; exact hd
  rw [(freeAllocatedColours_eq k b).2.2 hb] at h
  have l3 := freeAllocated_layout (b.det_col.getD []) ((k.NUM_COLOURS : Int) + b.num_cols)
    b.det_cols b
  cases h
  exact ⟨l3.1.trans (l2.1.trans l1.1), l3.2.1.trans (l2.2.1.trans l1.2.1),
    l3.2.2.1.trans (l2.2.2.1.trans l1.2.2.1), l3.2.2.2.1.trans (l2.2.2.2.1.trans l1.2.2.2.1),
    l3.2.2.2.2.trans (l2.2.2.2.2.trans l1.2.2.2.2)⟩

theorem setColours_layout (k : ColourConsts) (x : XServer) (c : Int) (s s' : ColourState)
    (hd : s.det_col ≠ none) (h : SetColours k x c s = .ok s') :
    s'.num_cols = s.num_cols ∧ s'.det_cols = s.det_cols ∧
      s'.sAllocFlags.length = s.sAllocFlags.length ∧
      (s.scale_col ≠ none → s'.scale_col ≠ none) ∧ s'.det_col ≠ none := by
  by_cases hne : s.image_col ≠ c
  · obtain ⟨s1, s3, s4, e1, e3, e4, e⟩ := setColours_ok k x c s s' hne h
    have l1 := freeColours_layout k s s1 hd e1
    have c1 := copyColours_frame k x { s1 with image_col := c }
    have c2 := copyColours_flags k x { s1 with image_col := c }
    have a1 := allocColours_ok_frame _ _ _ _ _ _ _ _ _ _ e3
    have a2 := allocColours_ok_flags _ _ _ _ _ _ _ _ _ _ e3
    have b1 := allocColours_ok_frame _ _ _ _ _ _ _ _ _ _ e4
    have b2 := allocColours_ok_flags _ _ _ _ _ _ _ _ _ _ e4
    subst e
    refine ⟨?_, ?_, ?_, fun _ => ?_, (b2.2.2.2 rfl).1⟩
    · exact b1.2.1.trans (a1.2.1.trans (c1.2.1.trans l1.1))
    · exact b1.2.2.1.trans (a1.2.2.1.trans (c1.2.2.1.trans l1.2.1))
    · exact b2.1.trans (a2.1.trans (c2.1.trans l1.2.2.1))
    · show s4.scale_col ≠ none
      rw [(b2.2.2.2 rfl).2]
      exact (a2.2.2.1 rfl).1
  · have e : SetColours k x c s = .ok s := by
      unfold SetColours
      rw [if_neg hne]
    rw [e] at h
    cases h
    exact ⟨rfl, rfl, rfl, fun hh => hh, hd⟩

theorem initResources_tail (k : ColourConsts) (x : XServer) (s1 s' : ColourState)
    (h : ((AllocColours k x (CopyColours k x s1).num_cols .scale_col k.SCALE_UNDER 7 1 1
        (CopyColours k x s1)).bind fun s3 =>
          AllocColours k x s3.det_cols .det_col k.VDARK_COL 2 0 0 s3) = .ok s') :
    ∃ s3 : ColourState,
      AllocColours k x s1.num_cols .scale_col k.SCALE_UNDER 7 1 1 (CopyColours k x s1) =
        .ok s3 ∧
      AllocColours k x s1.det_cols .det_col k.VDARK_COL 2 0 0 s3 = .ok s' ∧
      s'.num_cols = s1.num_cols ∧ s'.det_cols = s1.det_cols ∧
      s'.sAllocFlags.length = s1.sAllocFlags.length ∧
      s'.scale_col ≠ none ∧ s'.det_col ≠ none := by
  obtain ⟨s3, h3, h4⟩ := bind_ok _ _ _ h
  have c1 := copyColours_frame k x s1
  have c2 := copyColours_flags k x s1
  have a1 := allocColours_ok_frame _ _ _ _ _ _ _ _ _ _ h3
  have a2 := allocColours_ok_flags _ _ _ _ _ _ _ _ _ _ h3
  have b1 := allocColours_ok_frame _ _ _ _ _ _ _ _ _ _ h4
  have b2 := allocColours_ok_flags _ _ _ _ _ _ _ _ _ _ h4
  rw [c1.2.1] at h3
  rw [a1.2.2.1, c1.2.2.1] at h4
  refine ⟨s3, h3, h4, ?_, ?_, ?_, ?_, (b2.2.2.2 rfl).1⟩
  · rw [b1.2.1, a1.2.1, c1.2.1]
  · rw [b1.2.2.1, a1.2.2.1, c1.2.2.1]
  · rw [b2.1, a2.1, c2.1]
  · rw [(b2.2.2.2 rfl).2]
    exact (a2.2.2.1 rfl).1

theorem initResources_layout (k : ColourConsts) (x : XServer) (s0 s' : ColourState)
    (h0 : 0 ≤ s0.num_cols) (h1 : 0 ≤ s0.det_cols)
    (h : InitResources k x false s0 = .ok s') :
    ∃ s1 s3 : ColourState,
      (s1.num_cols = s0.num_cols ∧ s1.det_cols = s0.det_cols ∧
        (s1.sAllocFlags.length : Int) = (k.NUM_COLOURS : Int) + s0.num_cols + s0.det_cols) ∧
      AllocColours k x s0.num_cols .scale_col k.SCALE_UNDER 7 1 1 (CopyColours k x s1) =
        .ok s3 ∧
      AllocColours k x s0.det_cols .det_col k.VDARK_COL 2 0 0 s3 = .ok s' ∧
      s'.num_cols = s0.num_cols ∧ s'.det_cols = s0.det_cols ∧
      (s'.sAllocFlags.length : Int) = (k.NUM_COLOURS : Int) + s0.num_cols + s0.det_cols ∧
      s'.scale_col ≠ none ∧ s'.det_col ≠ none := by
  unfold InitResources at h
  simp only [Bool.false_eq_true, if_false] at h
  split at h
  · have hlen : ((List.replicate ((k.NUM_COLOURS : Int) + s0.num_cols + s0.det_cols).toNat
        (0 : Nat)).length : Int) = (k.NUM_COLOURS : Int) + s0.num_cols + s0.det_cols := by
      rw [List.length_replicate]
      omega
    obtain ⟨s3, h3, h4, e1, e2, e3, e4, e5⟩ := initResources_tail k x _ s' h
    refine ⟨_, s3, ?_, h3, h4, e1, e2, ?_, e4, e5⟩
    · exact ⟨rfl, rfl, hlen⟩
    · rw [e3]
      exact hlen
  · cases h

/-- C29.  Let sAllocFlags have NUM_COLOURS + num_cols + det_cols entries, for counts that
are not negative.  The numbers of the flags are those of three regions that are pairwise
disjoint: that of the working colours from 0, that of the scale colours from NUM_COLOURS
and that of the detector colours from NUM_COLOURS + num_cols.  CopyColours, the two calls
of AllocColours made by InitResources and by SetColours, and the three calls of
FreeAllocatedColours made by FreeColours work on the flags `alloc_flags[i]`, i below the
number of colours passed, from the first flag of the region of their colour list: they
keep the counts and the size of the array, they change no flag outside that region, and
the calls made by FreeAllocatedColours are the same for any other array that has the same
flags in that region.  FreeColours and SetColours keep the counts, the size of the array
and the blocks of the scale and detector colours, so each of their calls finds the array
laid out like this; InitResources makes its three calls on such an array and returns
with one, with both blocks allocated. -/
theorem C29_allocation_flag_regions (k : ColourConsts) (x : XServer) (s : ColourState)
    (h0 : 0 ≤ s.num_cols) (h1 : 0 ≤ s.det_cols)
    (hl : (s.sAllocFlags.length : Int) = (k.NUM_COLOURS : Int) + s.num_cols + s.det_cols) :
    (∀ j : Int, (0 ≤ j ∧ j < s.sAllocFlags.length) ↔
        ((0 ≤ j ∧ j < k.NUM_COLOURS) ∨
          ((k.NUM_COLOURS : Int) ≤ j ∧ j < (k.NUM_COLOURS : Int) + s.num_cols) ∨
          ((k.NUM_COLOURS : Int) + s.num_cols ≤ j ∧
            j < (k.NUM_COLOURS : Int) + s.num_cols + s.det_cols))) ∧
      (∀ j : Int,
        ¬ ((0 ≤ j ∧ j < k.NUM_COLOURS) ∧
          ((k.NUM_COLOURS : Int) ≤ j ∧ j < (k.NUM_COLOURS : Int) + s.num_cols)) ∧
        ¬ ((0 ≤ j ∧ j < k.NUM_COLOURS) ∧
          ((k.NUM_COLOURS : Int) + s.num_cols ≤ j ∧
            j < (k.NUM_COLOURS : Int) + s.num_cols + s.det_cols)) ∧
        ¬ (((k.NUM_COLOURS : Int) ≤ j ∧ j < (k.NUM_COLOURS : Int) + s.num_cols) ∧
          ((k.NUM_COLOURS : Int) + s.num_cols ≤ j ∧
            j < (k.NUM_COLOURS : Int) + s.num_cols + s.det_cols))) ∧
      ((CopyColours k x s).num_cols = s.num_cols ∧ (CopyColours k x s).det_cols = s.det_cols ∧
        (CopyColours k x s).sAllocFlags.length = s.sAllocFlags.length ∧
        ∀ j : Int, ¬ (0 ≤ j ∧ j < k.NUM_COLOURS) →
          getAt (CopyColours k x s).sAllocFlags j = getAt s.sAllocFlags j) ∧
      (∀ s' : ColourState,
        AllocColours k x s.num_cols .scale_col k.SCALE_UNDER 7 1 1 s = .ok s' →
        s'.num_cols = s.num_cols ∧ s'.det_cols = s.det_cols ∧
          s'.sAllocFlags.length = s.sAllocFlags.length ∧
          ∀ j : Int, ¬ ((k.NUM_COLOURS : Int) ≤ j ∧ j < (k.NUM_COLOURS : Int) + s.num_cols) →
            getAt s'.sAllocFlags j = getAt s.sAllocFlags j) ∧
      (∀ s' : ColourState,
        AllocColours k x s.det_cols .det_col k.VDARK_COL 2 0 0 s = .ok s' →
        s'.num_cols = s.num_cols ∧ s'.det_cols = s.det_cols ∧
          s'.sAllocFlags.length = s.sAllocFlags.length ∧
          ∀ j : Int,
            ¬ ((k.NUM_COLOURS : Int) + s.num_cols ≤ j ∧
              j < (k.NUM_COLOURS : Int) + s.num_cols + s.det_cols) →
            getAt s'.sAllocFlags j = getAt s.sAllocFlags j) ∧
      (∃ s' : ColourState, FreeAllocatedColours k .colour k.NUM_COLOURS s = .ok s' ∧
        s'.num_cols = s.num_cols ∧ s'.det_cols = s.det_cols ∧
        s'.sAllocFlags.length = s.sAllocFlags.length ∧
        (∀ j : Int, ¬ (0 ≤ j ∧ j < k.NUM_COLOURS) →
          getAt s'.sAllocFlags j = getAt s.sAllocFlags j) ∧
        ∀ f : List Nat,
          (∀ j : Int, 0 ≤ j ∧ j < k.NUM_COLOURS → getAt f j = getAt s.sAllocFlags j) →
          (FreeAllocatedColours k .colour k.NUM_COLOURS { s with sAllocFlags := f }).map
              ColourState.calls = .ok s'.calls) ∧
      (∃ s' : ColourState, FreeAllocatedColours k .scale_col s.num_cols s = .ok s' ∧
        s'.num_cols = s.num_cols ∧ s'.det_cols = s.det_cols ∧
        s'.sAllocFlags.length = s.sAllocFlags.length ∧
        (∀ j : Int, ¬ ((k.NUM_COLOURS : Int) ≤ j ∧ j < (k.NUM_COLOURS : Int) + s.num_cols) →
          getAt s'.sAllocFlags j = getAt s.sAllocFlags j) ∧
        ∀ f : List Nat,
          (∀ j : Int, (k.NUM_COLOURS : Int) ≤ j ∧ j < (k.NUM_COLOURS : Int) + s.num_cols →
            getAt f j = getAt s.sAllocFlags j) →
          (FreeAllocatedColours k .scale_col s.num_cols { s with sAllocFlags := f }).map
              ColourState.calls = .ok s'.calls) ∧
      (s.det_col ≠ none →
        ∃ s' : ColourState, FreeAllocatedColours k .det_col s.det_cols s = .ok s' ∧
          s'.num_cols = s.num_cols ∧ s'.det_cols = s.det_cols ∧
          s'.sAllocFlags.length = s.sAllocFlags.length ∧
          (∀ j : Int,
            ¬ ((k.NUM_COLOURS : Int) + s.num_cols ≤ j ∧
              j < (k.NUM_COLOURS : Int) + s.num_cols + s.det_cols) →
            getAt s'.sAllocFlags j = getAt s.sAllocFlags j) ∧
          ∀ f : List Nat,
            (∀ j : Int,
              (k.NUM_COLOURS : Int) + s.num_cols ≤ j ∧
                j < (k.NUM_COLOURS : Int) + s.num_cols + s.det_cols →
              getAt f j = getAt s.sAllocFlags j) →
            (FreeAllocatedColours k .det_col s.det_cols { s with sAllocFlags := f }).map
                ColourState.calls = .ok s'.calls) ∧
      (s.det_col ≠ none → ∀ s' : ColourState, FreeColours k s = .ok s' →
        s'.num_cols = s.num_cols ∧ s'.det_cols = s.det_cols ∧
          s'.sAllocFlags.length = s.sAllocFlags.length ∧ s'.scale_col = s.scale_col ∧
          s'.det_col = s.det_col) ∧
      (s.det_col ≠ none → ∀ (c : Int) (s' : ColourState), SetColours k x c s = .ok s' →
        s'.num_cols = s.num_cols ∧ s'.det_cols = s.det_cols ∧
          s'.sAllocFlags.length = s.sAllocFlags.length ∧
          (s.scale_col ≠ none → s'.scale_col ≠ none) ∧ s'.det_col ≠ none) ∧
      ∀ s0 : ColourState, 0 ≤ s0.num_cols → 0 ≤ s0.det_cols →
        InitResources k x false s0 = .ok s →
        ∃ s1 s3 : ColourState,
          (s1.num_cols = s0.num_cols ∧ s1.det_cols = s0.det_cols ∧
            (s1.sAllocFlags.length : Int) =
              (k.NUM_COLOURS : Int) + s0.num_cols + s0.det_cols) ∧
          AllocColours k x s0.num_cols .scale_col k.SCALE_UNDER 7 1 1 (CopyColours k x s1) =
            .ok s3 ∧
          AllocColours k x s0.det_cols .det_col k.VDARK_COL 2 0 0 s3 = .ok s ∧
          s.num_cols = s0.num_cols ∧ s.det_cols = s0.det_cols ∧
          (s.sAllocFlags.length : Int) = (k.NUM_COLOURS : Int) + s0.num_cols + s0.det_cols ∧
          s.scale_col ≠ none ∧ s.det_col ≠ none := by
  refine ⟨fun j => by omega, fun j => by omega, ?_, ?_, ?_, ?_, ?_, ?_, ?_, ?_, ?_⟩
  · exact ⟨(copyColours_frame k x s).2.1, (copyColours_frame k x s).2.2.1,
      (copyColours_flags k x s).1, (copyColours_flags k x s).2.1⟩
  · intro s' h
    have a1 := allocColours_ok_frame _ _ _ _ _ _ _ _ _ _ h
    have a2 := allocColours_ok_flags _ _ _ _ _ _ _ _ _ _ h
    rw [if_pos rfl] at a2
    exact ⟨a1.2.1, a1.2.2.1, a2.1, a2.2.1⟩
  · intro s' h
    have a1 := allocColours_ok_frame _ _ _ _ _ _ _ _ _ _ h
    have a2 := allocColours_ok_flags _ _ _ _ _ _ _ _ _ _ h
    rw [if_neg (by decide)] at a2
    exact ⟨a1.2.1, a1.2.2.1, a2.1, a2.2.1⟩
  · have l := freeAllocated_layout s.colour 0 k.NUM_COLOURS s
    have f := freeAllocated_flags s.colour 0 k.NUM_COLOURS s
    refine ⟨_, (freeAllocatedColours_eq k s).1 _, l.1, l.2.1, l.2.2.1, fun j hj => ?_,
      fun f2 hf => ?_⟩
    · exact f.2.1 j (by omega)
    · rw [(freeAllocatedColours_eq k { s with sAllocFlags := f2 }).1]
      show Except.ok _ = Except.ok _
      congr 1
      exact freeAllocated_reads s.colour 0 k.NUM_COLOURS s f2 (fun j hj => hf j (by omega))
  · have l := freeAllocated_layout (s.scale_col.getD []) k.NUM_COLOURS s.num_cols s
    have f := freeAllocated_flags (s.scale_col.getD []) k.NUM_COLOURS s.num_cols s
    refine ⟨_, (freeAllocatedColours_eq k s).2.1 _, l.1, l.2.1, l.2.2.1, fun j hj => ?_,
      fun f2 hf => ?_⟩
    · exact f.2.1 j hj
    · rw [(freeAllocatedColours_eq k { s with sAllocFlags := f2 }).2.1]
      show Except.ok _ = Except.ok _
      congr 1
      exact freeAllocated_reads (s.scale_col.getD []) k.NUM_COLOURS s.num_cols s f2 hf
  · intro hd
    have l := freeAllocated_layout (s.det_col.getD []) ((k.NUM_COLOURS : Int) + s.num_cols)
      s.det_cols s
    have f := freeAllocated_flags (s.det_col.getD []) ((k.NUM_COLOURS : Int) + s.num_cols)
      s.det_cols s
    refine ⟨_, (freeAllocatedColours_eq k s).2.2 hd _, l.1, l.2.1, l.2.2.1, fun j hj => ?_,
      fun f2 hf => ?_⟩
    · exact f.2.1 j hj
    · rw [(freeAllocatedColours_eq k { s with sAllocFlags := f2 }).2.2 hd]
      show Except.ok _ = Except.ok _
      congr 1
      exact freeAllocated_reads (s.det_col.getD []) ((k.NUM_COLOURS : Int) + s.num_cols)
        s.det_cols s f2 hf
  · intro hd s' h
    exact freeColours_layout k s s' hd h
  · intro hd c s' h
    exact setColours_layout k x c s s' hd h
  · intro s0 a0 a1 h
    exact initResources_layout k x s0 s a0 a1 h

/-- C29, witness: the twelve working colours, five scale colours and three detector
colours of `allocatedColours`, with 20 flags; the flag 16 of the scale colours is not in
the region of the working colours and is the same after CopyColours. -/
theorem C29_allocation_flag_regions_witness :
    (allocatedColours.sAllocFlags.length : Int) =
        (sampleConsts.NUM_COLOURS : Int) + allocatedColours.num_cols +
          allocatedColours.det_cols ∧
      getAt (CopyColours sampleConsts sampleServer allocatedColours).sAllocFlags 16 =
        getAt allocatedColours.sAllocFlags 16 :=
  ⟨by decide,
    (C29_allocation_flag_regions sampleConsts sampleServer allocatedColours (by decide)
      (by decide) (by decide)).2.2.1.2.2.2 16 (by decide)⟩

end Aged
